import Mathlib

/-!
# vncproxy: pixel-format codec, segment pipeline and Tight length decoders

A shallow embedding of the Go sources

* `client/pixel-format.go`      (`readPixelFormat`, `writePixelFormat`)
* `client/write-to.go`          (`WriteTo`)
* `common/multi_listener.go`    (`MultiListener`)
* `common/rfb_reader_helper.go` (`RfbReadHelper`)
* `encodings/enc_tight.go`, `encodings/enc_tightpng.go`, `encodings/enc_led_state.go`
* `proxy/message-listeners.go`  (`ClientUpdater`, `ServerUpdater`)
* `server/server.go`            (`attachNewServerConn`)

Conventions of the embedding.

* Go's unsigned machine integers (`byte`/`uint8`, `uint16`, `uint32`) are
  natural numbers; a value read off the wire is in range when the stream is
  (`bytesOk`), and the model reduces modulo `2^w` wherever the source can
  truncate.
* A Go `[]byte` is a `List Byte`.  A callee that fills a caller's buffer
  returns the buffer's new contents.
* A Go result pair `(v, err)` is kept as a pair: `err : Option GoError`,
  `none` being `nil`.  Methods with a pointer receiver return the receiver's
  new state.
-/

namespace VncProxy

/-! ## Bytes, errors, transports -/

abbrev Byte := Nat

/-- Every element of the slice is a byte value. -/
def bytesOk (bs : List Byte) : Prop := ∀ b ∈ bs, b < 256

instance (bs : List Byte) : Decidable (bytesOk bs) := by
  unfold bytesOk; infer_instance

/-- Go `error` values.  `EOF`, `ErrUnexpectedEOF` and `ErrClosed` are the
package-level variables `io.EOF`, `io.ErrUnexpectedEOF` and `net.ErrClosed`.
`errorf` stands for the errors built by `errors.New` and by `fmt.Errorf` with
the verbs `%v`, `%s` and `%d`, the only ones the sources use: such an error is
an `errorString`, it holds its text and nothing else.  `wrapf` stands for an
error that holds another one as its cause and gives it back from `Unwrap()`,
as `fmt.Errorf` builds with the verb `%w` and as the network stack returns
(`*net.OpError`); the sources build none, a transport may return one. -/
inductive GoError where
  | EOF
  | ErrUnexpectedEOF
  | errorf (msg : String)
  | ErrClosed
  | wrapf (msg : String) (cause : GoError)
  deriving DecidableEq, Repr

/-- The `Error()` text of an error, as `%v` prints it. -/
def GoError.Error : GoError → String
  | .EOF => "EOF"
  | .ErrUnexpectedEOF => "unexpected EOF"
  | .errorf msg => msg
  | .ErrClosed => "use of closed network connection"
  | .wrapf msg _ => msg

/-- Go `errors.Unwrap`: the error an error wraps.  The sentinels `io.EOF`,
`io.ErrUnexpectedEOF` and `net.ErrClosed` wrap nothing, and neither does an
error built by `fmt.Errorf` without the verb `%w` or by `errors.New`. -/
def GoError.Unwrap : GoError → Option GoError
  | .EOF => none
  | .ErrUnexpectedEOF => none
  | .errorf _ => none
  | .ErrClosed => none
  | .wrapf _ cause => some cause

/-- Go `errors.Is(err, target)`: the loop
`for { if err == target { return true }; err = Unwrap(err); if err == nil { return false } }`.
Go compares the two error objects; the model compares their values.  For a
sentinel target, as in every call of the sources, the two agree (one variable,
one value); for any target, objects that are the same have the same value, so
`false` here is `false` in Go. -/
def GoError.Is : GoError → GoError → Bool
  | .wrapf msg cause, target => decide (GoError.wrapf msg cause = target) || cause.Is target
  | err, target => decide (err = target)

/-- What a `Read(p)` call hands back: the Go results `(n, err)`, the contents
of the buffer `p` after the call, and the reader after the call. -/
structure ReadOut (σ : Type) where
  n : Nat
  err : Option GoError
  p : List Byte
  r : σ

/-- An `io.Reader` at the far end of the pipeline (a socket, a file, a
`bytes.Reader`).  `data` are the bytes still to come, in order.  `chunks`
schedules short reads: the k-th coming `Read` call hands out at most
`chunks[k] + 1` bytes (no limit once the schedule is used up).  `closeErr` is
the error reported when no bytes are left (`io.EOF` for an orderly end). -/
structure Transport where
  data : List Byte
  chunks : List Nat
  closeErr : GoError
  deriving DecidableEq, Repr

/-- The transport's `Read(p)`: copies the next bytes into the front of `p`, as
many as `p`, the stream and the schedule allow, and leaves the rest of `p`
as it was. -/
def Transport.Read (t : Transport) (p : List Byte) : ReadOut Transport :=
  match t.data with
  | [] => ⟨0, some t.closeErr, p, t⟩
  | _ :: _ =>
    let limit := match t.chunks with
      | [] => t.data.length
      | c :: _ => c + 1
    let n := min p.length (min t.data.length limit)
    ⟨n, none, t.data.take n ++ p.drop n,
      { t with data := t.data.drop n, chunks := t.chunks.tail }⟩

/-- The loop of `io.ReadAtLeast`:
`for n < min && err == nil { nn, err = r.Read(buf[n:]); n += nn }`.
The first argument bounds the number of iterations; `ReadFull` starts it at
`len(buf)`, one iteration for each byte still missing.  The bound is reached
with bytes still missing only by a reader that returns `(0, nil)` on a
non-empty buffer, on which the Go loop does not end; `Transport.Read` and
`RfbReadHelper.Read` return at least one byte or an error. -/
def readAtLeastLoop {σ : Type} (Read : σ → List Byte → ReadOut σ) :
    Nat → σ → List Byte → Nat → Nat → ReadOut σ
  | 0, r, buf, min, n =>
    if n < min then ⟨n, some (.errorf "multiple Read calls return no data or error"), buf, r⟩
    else ⟨n, none, buf, r⟩
  | fuel + 1, r, buf, min, n =>
    if n < min then
      let o := Read r (buf.drop n)
      let buf' := buf.take n ++ o.p
      match o.err with
      | some e => ⟨n + o.n, some e, buf', o.r⟩
      | none => readAtLeastLoop Read fuel o.r buf' min (n + o.n)
    else ⟨n, none, buf, r⟩

/-- Go `io.ReadFull(r, buf)`, that is `io.ReadAtLeast(r, buf, len(buf))`. -/
def ReadFull {σ : Type} (Read : σ → List Byte → ReadOut σ) (r : σ) (buf : List Byte) :
    ReadOut σ :=
  let o := readAtLeastLoop Read buf.length r buf buf.length 0
  if o.n ≥ buf.length then { o with err := none }
  else if o.n > 0 ∧ o.err = some .EOF then { o with err := some .ErrUnexpectedEOF }
  else o

/-- A reader hands out its pending bytes in order: `avail r` are the bytes
still to come, and a `Read` into a non-empty buffer from a reader in a good
state with bytes pending copies at least one of them and stays good. -/
def HandsOut {σ : Type} (Read : σ → List Byte → ReadOut σ) (avail : σ → List Byte)
    (good : σ → Prop) : Prop :=
  ∀ r p, good r → avail r ≠ [] → p ≠ [] →
    ∃ k r', 0 < k ∧ k ≤ p.length ∧ k ≤ (avail r).length ∧
      Read r p = ⟨k, none, (avail r).take k ++ p.drop k, r'⟩ ∧
      avail r' = (avail r).drop k ∧ good r'

/-! ## common.PixelFormat and client/pixel-format.go -/

/-- Modelled from the spec: the declaration of `common.PixelFormat` is not among
the sources.  The fields are those `readPixelFormat` and `writePixelFormat`
access (bits-per-pixel, depth, big-endian flag, true-color flag, per-channel
max and shift); their widths are those of the fixed 16-byte RFB frame: one byte
each, two bytes for each channel max, three bytes of padding. -/
structure PixelFormat where
  BPP : Nat
  Depth : Nat
  BigEndian : Nat
  TrueColor : Nat
  RedMax : Nat
  GreenMax : Nat
  BlueMax : Nat
  RedShift : Nat
  GreenShift : Nat
  BlueShift : Nat
  deriving DecidableEq, Repr

/-- The fields are values of their Go types: `uint16` for the three channel
maxima, `uint8` for the others. -/
def PixelFormat.wf (pf : PixelFormat) : Prop :=
  pf.BPP < 256 ∧ pf.Depth < 256 ∧ pf.BigEndian < 256 ∧ pf.TrueColor < 256 ∧
  pf.RedMax < 65536 ∧ pf.GreenMax < 65536 ∧ pf.BlueMax < 65536 ∧
  pf.RedShift < 256 ∧ pf.GreenShift < 256 ∧ pf.BlueShift < 256

instance (pf : PixelFormat) : Decidable pf.wf := by
  unfold PixelFormat.wf; infer_instance

/-- The zero value of the Go struct. -/
def PixelFormat.zero : PixelFormat := ⟨0, 0, 0, 0, 0, 0, 0, 0, 0, 0⟩

/-- Go `binary.Read(br, binary.BigEndian, &x)` for a `uint8` on a
`bytes.Reader` whose unread part is the list: the value and the unread rest. -/
def readU8 : List Byte → Except GoError (Byte × List Byte)
  | [] => .error .EOF
  | b :: rest => .ok (b, rest)

/-- Go `binary.Read(br, binary.BigEndian, &x)` for a `uint16`. -/
def readU16 : List Byte → Except GoError (Nat × List Byte)
  | [] => .error .EOF
  | [_] => .error .ErrUnexpectedEOF
  | hi :: lo :: rest => .ok (hi * 256 + lo, rest)

/-- Go `binary.Write(&buf, binary.BigEndian, x)` for a `uint16`: the two bytes
appended, high byte first. -/
def writeU16 (x : Nat) : List Byte :=
  [x / 256 % 256, x % 256]

/-- The six colour fields, read in order from the 12 bytes that follow the two
flags (`pixel-format.go` lines 43 to 65). -/
def readColors (br : List Byte) (result : PixelFormat) : Option GoError × PixelFormat :=
  match readU16 br with
  | .error e => (some e, result)
  | .ok (v, br) =>
  let result := { result with RedMax := v }
  match readU16 br with
  | .error e => (some e, result)
  | .ok (v, br) =>
  let result := { result with GreenMax := v }
  match readU16 br with
  | .error e => (some e, result)
  | .ok (v, br) =>
  let result := { result with BlueMax := v }
  match readU8 br with
  | .error e => (some e, result)
  | .ok (v, br) =>
  let result := { result with RedShift := v }
  match readU8 br with
  | .error e => (some e, result)
  | .ok (v, br) =>
  let result := { result with GreenShift := v }
  match readU8 br with
  | .error e => (some e, result)
  | .ok (v, _) => (none, { result with BlueShift := v })

/-- Go `readPixelFormat(r, result)`: the error, `*result` after the call and the
reader after the call. -/
def readPixelFormat (r : Transport) (result : PixelFormat) :
    Option GoError × PixelFormat × Transport :=
  let o := ReadFull Transport.Read r (List.replicate 16 0)
  match o.err with
  | some e => (some e, result, o.r)
  | none =>
  let brPF := o.p
  match readU8 brPF with
  | .error e => (some e, result, o.r)
  | .ok (v, brPF) =>
  let result := { result with BPP := v }
  match readU8 brPF with
  | .error e => (some e, result, o.r)
  | .ok (v, brPF) =>
  let result := { result with Depth := v }
  match readU8 brPF with
  | .error e => (some e, result, o.r)
  | .ok (pfBoolByte, brPF) =>
  let result := if pfBoolByte ≠ 0 then { result with BigEndian := 1 } else result
  match readU8 brPF with
  | .error e => (some e, result, o.r)
  | .ok (pfBoolByte, brPF) =>
  if pfBoolByte ≠ 0 then
    let result := { result with TrueColor := 1 }
    let (err, result) := readColors brPF result
    (err, result, o.r)
  else (none, result, o.r)

/-- Go `writePixelFormat(format)`.  `bytes.Buffer.Write` never returns an error,
so the error result is always `nil`.  `buf.Bytes()[0:16]` re-slices the
buffer's backing array up to 16 bytes: the bytes past those written are the
zeroed spare capacity of the buffer's first allocation (64 bytes). -/
def writePixelFormat (format : PixelFormat) : List Byte × Option GoError :=
  let buf : List Byte := [format.BPP, format.Depth]
  let boolByte : Byte := if format.BigEndian = 1 then 1 else 0
  let buf := buf ++ [boolByte]
  let boolByte : Byte := if format.TrueColor = 1 then 1 else 0
  let buf := buf ++ [boolByte]
  let buf :=
    if format.TrueColor = 1 then
      buf ++ writeU16 format.RedMax ++ writeU16 format.GreenMax ++ writeU16 format.BlueMax
        ++ [format.RedShift, format.GreenShift, format.BlueShift]
    else buf
  ((buf ++ List.replicate (64 - buf.length) 0).take 16, none)

/-! ## common/multi_listener.go and common/rfb_reader_helper.go -/

/-- Go `common.SegmentType`, in the order of its `iota` block. -/
inductive SegmentType where
  | SegmentBytes
  | SegmentMessageStart
  | SegmentRectSeparator
  | SegmentFullyParsedClientMessage
  | SegmentFullyParsedServerMessage
  | SegmentServerInitMessage
  | SegmentConnectionClosed
  | SegmentMessageEnd
  deriving DecidableEq, Repr

/-- Modelled from the spec: the message types behind `RfbSegment.Message` are
not among the sources.  The variants are those the listeners in
`proxy/message-listeners.go` tell apart: a set-pixel-format client message with
its `PF`, any other client message and any server message by their type tag,
and a server-init with its dimensions, desktop name and pixel format. -/
inductive Message where
  | SetPixelFormat (PF : PixelFormat)
  | ClientMessage (msgType : Nat)
  | ServerMessage (msgType : Nat)
  | ServerInit (FBWidth FBHeight : Nat) (NameText : List Byte) (PixelFormat : PixelFormat)
  deriving DecidableEq, Repr

/-- Go `common.RfbSegment`; `Message` is `none` for a nil interface value. -/
structure RfbSegment where
  Bytes : List Byte
  SegmentType : SegmentType
  UpcomingObjectType : Int
  Message : Option Message
  deriving DecidableEq, Repr

/-- One call `li.Consume(seg)`: the position of the listener in the registry
and the segment it was given. -/
abbrev Delivery := Nat × RfbSegment

/-- Go interface `common.SegmentConsumer`.  A listener is an object with
effects of its own; the model keeps those effects as the record of the calls
made so far, and lets the listener's answer (`nil` or an error) depend on
that record and on the segment. -/
structure SegmentConsumer where
  Consume : List Delivery → RfbSegment → Option GoError

/-- Go `common.MultiListener`: the registry, together with the record of the
`Consume` calls its listeners have received, oldest first. -/
structure MultiListener where
  listeners : List SegmentConsumer
  delivered : List Delivery

/-- Go `(*MultiListener).AddListener`. -/
def MultiListener.AddListener (m : MultiListener) (listener : SegmentConsumer) :
    MultiListener :=
  { m with listeners := m.listeners ++ [listener] }

/-- The loop `for _, li := range m.listeners` of `MultiListener.Consume`, from
position `i` on: the listeners still to visit and the record of calls. -/
def MultiListener.consumeFrom (seg : RfbSegment) :
    Nat → List SegmentConsumer → List Delivery → Option GoError × List Delivery
  | _, [], delivered => (none, delivered)
  | i, li :: rest, delivered =>
    match li.Consume delivered seg with
    | some err => (some err, delivered ++ [(i, seg)])
    | none => MultiListener.consumeFrom seg (i + 1) rest (delivered ++ [(i, seg)])

/-- Go `(*MultiListener).Consume`. -/
def MultiListener.Consume (m : MultiListener) (seg : RfbSegment) :
    Option GoError × MultiListener :=
  let out := MultiListener.consumeFrom seg 0 m.listeners m.delivered
  (out.1, { m with delivered := out.2 })

/-- Go `common.RfbReadHelper`.  `savedBytes` is `none` for the nil pointer and
holds the contents of the `bytes.Buffer` otherwise. -/
structure RfbReadHelper where
  Reader : Transport
  Listeners : MultiListener
  savedBytes : Option (List Byte)

/-- Go `common.NewRfbReadHelper`. -/
def NewRfbReadHelper (r : Transport) : RfbReadHelper :=
  { Reader := r, Listeners := { listeners := [], delivered := [] }, savedBytes := none }

/-- Go `(*RfbReadHelper).StartByteCollection`. -/
def RfbReadHelper.StartByteCollection (r : RfbReadHelper) : RfbReadHelper :=
  { r with savedBytes := some [] }

/-- Go `(*RfbReadHelper).EndByteCollection`: the collected bytes and the helper
after the call; `none` when `savedBytes` is nil, where `r.savedBytes.Bytes()`
dereferences a nil pointer. -/
def RfbReadHelper.EndByteCollection (r : RfbReadHelper) :
    Option (List Byte × RfbReadHelper) :=
  match r.savedBytes with
  | none => none
  | some bts => some (bts, { r with savedBytes := none })

/-- Go `(*RfbReadHelper).SendRectSeparator`. -/
def RfbReadHelper.SendRectSeparator (r : RfbReadHelper) (upcomingRectType : Int) :
    Option GoError × RfbReadHelper :=
  let seg : RfbSegment := { Bytes := [], SegmentType := .SegmentRectSeparator,
                            UpcomingObjectType := upcomingRectType, Message := none }
  let out := r.Listeners.Consume seg
  (out.1, { r with Listeners := out.2 })

/-- Go `(*RfbReadHelper).SendMessageStart`. -/
def RfbReadHelper.SendMessageStart (r : RfbReadHelper) (upcomingMessageType : Nat) :
    Option GoError × RfbReadHelper :=
  let seg : RfbSegment := { Bytes := [], SegmentType := .SegmentMessageStart,
                            UpcomingObjectType := upcomingMessageType, Message := none }
  let out := r.Listeners.Consume seg
  (out.1, { r with Listeners := out.2 })

/-- Go `(*RfbReadHelper).SendMessageEnd`. -/
def RfbReadHelper.SendMessageEnd (r : RfbReadHelper) (messageType : Nat) :
    Option GoError × RfbReadHelper :=
  let seg : RfbSegment := { Bytes := [], SegmentType := .SegmentMessageEnd,
                            UpcomingObjectType := messageType, Message := none }
  let out := r.Listeners.Consume seg
  (out.1, { r with Listeners := out.2 })

/-- Go `(*RfbReadHelper).PublishBytes`. -/
def RfbReadHelper.PublishBytes (r : RfbReadHelper) (p : List Byte) :
    Option GoError × RfbReadHelper :=
  let seg : RfbSegment := { Bytes := p, SegmentType := .SegmentBytes,
                            UpcomingObjectType := 0, Message := none }
  let out := r.Listeners.Consume seg
  (out.1, { r with Listeners := out.2 })

/-- Go `(*RfbReadHelper).Read`.  `o.p` is the buffer `p` once the transport has
filled it; `r.savedBytes.Write(p)` appends all of it (`bytes.Buffer.Write`
returns no error), the segment carries `p[:readLen]`. -/
def RfbReadHelper.Read (r : RfbReadHelper) (p : List Byte) : ReadOut RfbReadHelper :=
  let o := r.Reader.Read p
  let readLen := o.n
  match o.err with
  | some _ =>
    ⟨0, some (.errorf "failed to read RFB bytes onto buffer"), o.p, { r with Reader := o.r }⟩
  | none =>
    let savedBytes := match r.savedBytes with
      | some saved => some (saved ++ o.p)
      | none => none
    let seg : RfbSegment := { Bytes := o.p.take readLen, SegmentType := .SegmentBytes,
                              UpcomingObjectType := 0, Message := none }
    let out := r.Listeners.Consume seg
    let r' : RfbReadHelper := { Reader := o.r, Listeners := out.2, savedBytes := savedBytes }
    match out.1 with
    | some err => ⟨0, some err, o.p, r'⟩
    | none => ⟨readLen, none, o.p, r'⟩

/-- Go `(*RfbReadHelper).ReadDiscrete`. -/
def RfbReadHelper.ReadDiscrete (r : RfbReadHelper) (p : List Byte) : ReadOut RfbReadHelper :=
  r.Read p

/-- Go `(*RfbReadHelper).ReadBytes`: the slice returned (`[]` for nil), the
error and the helper after the call.  `make([]byte, count)` is zero-filled. -/
def RfbReadHelper.ReadBytes (r : RfbReadHelper) (count : Nat) :
    List Byte × Option GoError × RfbReadHelper :=
  let buff : List Byte := List.replicate count 0
  let o := ReadFull RfbReadHelper.Read r buff
  let lengthRead := o.n
  if lengthRead ≠ count then
    ([], some (.errorf ("unable to read bytes: lengthRead=" ++ toString lengthRead ++
      ", countExpected=" ++ toString count)), o.r)
  else
    match o.err with
    | some err => ([], some (.errorf ("failed to read bytes: " ++ err.Error)), o.r)
    | none => (o.p, none, o.r)

/-- Go `(*RfbReadHelper).ReadUint8`: `binary.Read` of one byte, that is
`io.ReadFull` into a one-byte slice, whose byte is the value. -/
def RfbReadHelper.ReadUint8 (r : RfbReadHelper) : Nat × Option GoError × RfbReadHelper :=
  let o := ReadFull RfbReadHelper.Read r [0]
  match o.err with
  | some err => (0, some err, o.r)
  | none => (o.p.headD 0, none, o.r)

/-- Go `(*RfbReadHelper).ReadCompactLen`.  `len` is a `uint32`; the error
returned is that of the last `ReadUint8` made. -/
def RfbReadHelper.ReadCompactLen (r : RfbReadHelper) : Nat × Option GoError × RfbReadHelper :=
  match r.ReadUint8 with
  | (part, err, r) =>
    let len := (part &&& 0x7F) % 2 ^ 32
    if part &&& 0x80 ≠ 0 then
      match r.ReadUint8 with
      | (part, err, r) =>
        let len := (len ||| ((part &&& 0x7F) <<< 7)) % 2 ^ 32
        if part &&& 0x80 ≠ 0 then
          match r.ReadUint8 with
          | (part, err, r) =>
            let len := (len ||| ((part &&& 0xFF) <<< 14)) % 2 ^ 32
            (len, err, r)
        else (len, err, r)
    else (len, err, r)

/-- Go `common.TightMinToCompress`. -/
def TightMinToCompress : Nat := 12

/-- Go `(*RfbReadHelper).ReadTightData`. -/
def RfbReadHelper.ReadTightData (r : RfbReadHelper) (dataSize : Nat) :
    List Byte × Option GoError × RfbReadHelper :=
  if dataSize < TightMinToCompress then r.ReadBytes dataSize
  else
    match r.ReadCompactLen with
    | (_, some err, r) =>
      ([], some (.errorf ("failed to read compressed data: " ++ err.Error)), r)
    | (zlibDataLen, none, r) => r.ReadBytes zlibDataLen

/-! ## encodings/enc_tight.go and encodings/enc_tightpng.go -/

/-- Modelled from the spec: the declaration of `common.Rectangle` is not among
the sources.  Position, width and height are `uint16` values; the encoding
reference plays no part in the length decoders. -/
structure Rectangle where
  X : Nat
  Y : Nat
  Width : Nat
  Height : Nat
  deriving DecidableEq, Repr

/-- An `io.Writer` that collects what is written to it. -/
structure Writer where
  written : List Byte
  deriving DecidableEq, Repr

/-- The writer's `Write(p)`: all of `p` is appended, `(len(p), nil)` returned. -/
def Writer.Write (w : Writer) (p : List Byte) : Nat × Option GoError × Writer :=
  (p.length, none, { written := w.written ++ p })

def TightExplicitFilter : Nat := 0x04
def TightFill : Nat := 0x08
def TightJpeg : Nat := 0x09
def TightPNG : Nat := 0x10
def TightFilterCopy : Nat := 0x00
def TightFilterPalette : Nat := 0x01
def TightFilterGradient : Nat := 0x02

/-- Go `encodings.TightEncoding`. -/
structure TightEncoding where
  bytes : List Byte
  deriving DecidableEq, Repr

/-- Go `encodings.TightPngEncoding`. -/
structure TightPngEncoding where
  bytes : List Byte
  deriving DecidableEq, Repr

/-- What an encoding's `Read` hands back: the Go results (`enc` is `none` for a
nil `IEncoding` and otherwise the receiver, seen as it is after the call), the
receiver after the call and the read helper after the call. -/
structure EncOut (ε : Type) where
  enc : Option ε
  err : Option GoError
  t : ε
  r : RfbReadHelper

/-- Go `calcTightBytePerPixel`. -/
def calcTightBytePerPixel (pf : PixelFormat) : Nat :=
  let bytesPerPixel := pf.BPP / 8
  if 24 = pf.Depth ∧ 32 = pf.BPP then 3 else bytesPerPixel

/-- Go `(*TightEncoding).WriteTo`. -/
def TightEncoding.WriteTo (z : TightEncoding) (w : Writer) : Nat × Option GoError × Writer :=
  w.Write z.bytes

/-- Go `handleTightFilters`. -/
def handleTightFilters (subencoding : Nat) (pixelFmt : PixelFormat) (rect : Rectangle)
    (r : RfbReadHelper) : Option GoError × RfbReadHelper :=
  let FILTER_ID_MASK : Nat := 0x40
  let rd : Nat × Option GoError × RfbReadHelper :=
    if subencoding &&& FILTER_ID_MASK > 0 then r.ReadUint8 else (0, none, r)
  match rd with
  | (_, some err, r) =>
    (some (.errorf ("error in handling tight encoding, reading filterid: " ++ err.Error)), r)
  | (filterid, none, r) =>
    let bytesPixel := calcTightBytePerPixel pixelFmt
    let lengthCurrentbpp := bytesPixel * rect.Width * rect.Height
    if filterid = TightFilterPalette then
      match r.ReadUint8 with
      | (_, some err, r) =>
        (some (.errorf ("error in handling tight encoding, reading TightFilterPalette: "
          ++ err.Error)), r)
      | (colorCount, none, r) =>
        let paletteSize := colorCount + 1
        match r.ReadBytes (paletteSize * bytesPixel) with
        | (_, some err, r) =>
          (some (.errorf
            ("error in handling tight encoding, reading TightFilterPalette.paletteSize: "
              ++ err.Error)), r)
        | (_, none, r) =>
          let dataLength :=
            if paletteSize = 2 then rect.Height * ((rect.Width + 7) / 8)
            else rect.Width * rect.Height
          match r.ReadTightData dataLength with
          | (_, some err, r) =>
            (some (.errorf ("error in handling tight encoding, Reading Palette: "
              ++ err.Error)), r)
          | (_, none, r) => (none, r)
    else if filterid = TightFilterGradient then
      match r.ReadTightData lengthCurrentbpp with
      | (_, some err, r) =>
        (some (.errorf ("error in handling tight encoding, Reading GRADIENT_FILTER: "
          ++ err.Error)), r)
      | (_, none, r) => (none, r)
    else if filterid = TightFilterCopy then
      match r.ReadTightData lengthCurrentbpp with
      | (_, some err, r) =>
        (some (.errorf ("error in handling tight encoding, Reading BASIC_FILTER: "
          ++ err.Error)), r)
      | (_, none, r) => (none, r)
    else (some (.errorf ("bad tight filter id: " ++ toString filterid)), r)

/-- The body of `(*TightEncoding).Read` after the deferred call is registered:
whether the first result is the receiver (`true`) or nil, the error, and the
read helper.  The `fmt.Println` of the default case writes to standard output
only. -/
def TightEncoding.readBody (pixelFmt : PixelFormat) (rect : Rectangle) (r : RfbReadHelper) :
    Bool × Option GoError × RfbReadHelper :=
  let bytesPixel := calcTightBytePerPixel pixelFmt
  match r.ReadUint8 with
  | (_, some err, r) =>
    (false, some (.errorf ("error in handling tight encoding: " ++ err.Error)), r)
  | (compctl, none, r) =>
    let compType := (compctl >>> 4) &&& 0x0F
    if compType = TightFill then
      match r.ReadBytes bytesPixel with
      | (_, some err, r) =>
        (false, some (.errorf ("error in handling tight encoding: " ++ err.Error)), r)
      | (_, none, r) => (true, none, r)
    else if compType = TightJpeg then
      if pixelFmt.BPP = 8 then
        (false, some (.errorf "Tight encoding: JPEG is not supported in 8 bpp mode"), r)
      else
        match r.ReadCompactLen with
        | (_, some err, r) => (false, some err, r)
        | (len, none, r) =>
          match r.ReadBytes len with
          | (_, some err, r) => (false, some err, r)
          | (_, none, r) => (true, none, r)
    else
      match handleTightFilters compctl pixelFmt rect r with
      | (some err, r) => (false, some err, r)
      | (none, r) => (true, none, r)

/-- Go `(*TightEncoding).Read`: `StartByteCollection`, the body, and the
deferred `t.bytes = r.EndByteCollection()`, which runs on every return.  The
result is `none` when the deferred call dereferences a nil buffer. -/
def TightEncoding.Read (t : TightEncoding) (pixelFmt : PixelFormat) (rect : Rectangle)
    (r : RfbReadHelper) : Option (EncOut TightEncoding) :=
  let r := r.StartByteCollection
  match TightEncoding.readBody pixelFmt rect r with
  | (ret, err, r) =>
    match r.EndByteCollection with
    | none => none
    | some (bts, r) =>
      let t : TightEncoding := { t with bytes := bts }
      some { enc := if ret then some t else none, err := err, t := t, r := r }

/-- Go `(*TightPngEncoding).WriteTo`. -/
def TightPngEncoding.WriteTo (z : TightPngEncoding) (w : Writer) :
    Nat × Option GoError × Writer :=
  w.Write z.bytes

/-- The body of `(*TightPngEncoding).Read` after the deferred call is
registered.  In fill mode the results of `r.ReadBytes` are dropped. -/
def TightPngEncoding.readBody (pixelFmt : PixelFormat) (r : RfbReadHelper) :
    Bool × Option GoError × RfbReadHelper :=
  let bytesPixel := calcTightBytePerPixel pixelFmt
  match r.ReadUint8 with
  | (_, some err, r) =>
    (false, some (.errorf ("error in handling tight encoding: " ++ err.Error)), r)
  | (compctl, none, r) =>
    let compType := (compctl >>> 4) &&& 0x0F
    if compType = TightPNG then
      match r.ReadCompactLen with
      | (_, some err, r) =>
        (false, some (.errorf ("failed to read compact length: " ++ err.Error)), r)
      | (len, none, r) =>
        match r.ReadBytes len with
        | (_, some err, r) => (true, some err, r)
        | (_, none, r) => (true, none, r)
    else if compType = TightFill then
      match r.ReadBytes bytesPixel with
      | (_, _, r) => (true, none, r)
    else (false, some (.errorf ("unknown tight compression " ++ toString compType)), r)

/-- Go `(*TightPngEncoding).Read`. -/
def TightPngEncoding.Read (t : TightPngEncoding) (pixelFmt : PixelFormat) (rect : Rectangle)
    (r : RfbReadHelper) : Option (EncOut TightPngEncoding) :=
  let _ := rect
  let r := r.StartByteCollection
  match TightPngEncoding.readBody pixelFmt r with
  | (ret, err, r) =>
    match r.EndByteCollection with
    | none => none
    | some (bts, r) =>
      let t : TightPngEncoding := { t with bytes := bts }
      some { enc := if ret then some t else none, err := err, t := t, r := r }

/-! ## encodings/enc_led_state.go -/

/-- Go `encodings.EncLedStatePseudo`. -/
structure EncLedStatePseudo where
  LedState : Nat
  deriving DecidableEq, Repr

/-- Go `(*EncLedStatePseudo).Read`: the receiver after the call (it is also the
`IEncoding` returned), the error and the read helper.  `rect.Width` and
`rect.Height` are `uint16` values and so is their product: it is taken modulo
`2^16`. -/
def EncLedStatePseudo.Read (pe : EncLedStatePseudo) (pf : PixelFormat) (rect : Rectangle)
    (r : RfbReadHelper) : EncLedStatePseudo × Option GoError × RfbReadHelper :=
  let _ := pf
  if (rect.Width * rect.Height) % 2 ^ 16 = 0 then (pe, none, r)
  else
    match r.ReadUint8 with
    | (u8, err, r) =>
      let pe : EncLedStatePseudo := { pe with LedState := u8 }
      match err with
      | some err => (pe, some (.errorf ("error while reading led state: " ++ err.Error)), r)
      | none => (pe, none, r)

/-! ## proxy/message-listeners.go -/

/-- What a connection has been handed to write, in order: a slice of raw bytes,
or a message, which the message's `Write` method puts on the wire. -/
inductive Sent where
  | bytes (p : List Byte)
  | message (m : Message)
  deriving DecidableEq, Repr

/-- Modelled from the spec: the writing side of a connection (`client.ClientConn`
and `server.ServerConn` are not among the sources), as the `io.Writer` the
listeners use.  `sent` records what has been written; `writeErr` is the error
the transport reports on a write, `none` when it accepts writes. -/
structure Wire where
  sent : List Sent
  writeErr : Option GoError
  deriving DecidableEq, Repr

/-- The connection's `Write(p)`: on a transport that accepts writes `p` goes
out whole; otherwise nothing goes out and the transport's error is returned. -/
def Wire.Write (w : Wire) (p : List Byte) : Nat × Option GoError × Wire :=
  match w.writeErr with
  | some err => (0, some err, w)
  | none => (p.length, none, { w with sent := w.sent ++ [.bytes p] })

/-- Modelled from the spec: `Write(w)` of a message (the message types are not
among the sources) hands the message's wire form to the writer; it returns the
writer's error when the transport does not accept writes. -/
def Message.Write (m : Message) (w : Wire) : Option GoError × Wire :=
  match w.writeErr with
  | some err => (some err, w)
  | none => (none, { w with sent := w.sent ++ [.message m] })

/-- Modelled from the spec: `common.SetPixelFormatMsgType`, the RFB type tag of
the set-pixel-format client message. -/
def SetPixelFormatMsgType : Nat := 0

/-- The Go type assertion `seg.Message.(common.ClientMessage)` succeeds. -/
def Message.isClientMessage : Message → Bool
  | .SetPixelFormat _ => true
  | .ClientMessage _ => true
  | .ServerMessage _ => false
  | .ServerInit _ _ _ _ => false

/-- Go `clientMsg.Type()` of a client message. -/
def Message.Type : Message → Nat
  | .SetPixelFormat _ => SetPixelFormatMsgType
  | .ClientMessage msgType => msgType
  | .ServerMessage msgType => msgType
  | .ServerInit _ _ _ _ => 0

/-- Modelled from the spec: `client.ClientConn`, the server-facing connection,
is not among the sources; the listener uses its tracked `PixelFormat` and
writes to it. -/
structure ClientConn where
  PixelFormat : PixelFormat
  wire : Wire
  deriving DecidableEq, Repr

/-- Go `proxy.ClientUpdater`. -/
structure ClientUpdater where
  conn : ClientConn
  deriving DecidableEq, Repr

/-- Go `(*ClientUpdater).Consume`: the error returned and the listener (with its
connection) after the call; `none` when a type assertion panics
(`seg.Message.(common.ClientMessage)` on a value that is no client message,
`clientMsg.(*server.MsgSetPixelFormat)` on a message of another Go type whose
`Type()` is `SetPixelFormatMsgType`). -/
def ClientUpdater.Consume (cc : ClientUpdater) (seg : RfbSegment) :
    Option (Option GoError × ClientUpdater) :=
  match seg.SegmentType with
  | .SegmentFullyParsedClientMessage =>
    match seg.Message with
    | none => none
    | some clientMsg =>
      if clientMsg.isClientMessage = false then none
      else
        let updated : Option ClientConn :=
          if clientMsg.Type = SetPixelFormatMsgType then
            match clientMsg with
            | .SetPixelFormat PF => some { cc.conn with PixelFormat := PF }
            | _ => none
          else some cc.conn
        match updated with
        | none => none
        | some conn =>
          match clientMsg.Write conn.wire with
          | (some err, wire) =>
            some (some (.errorf ("ClientUpdater.Consume (vnc-server-bound, " ++
              "SegmentFullyParsedClientMessage): problem writing to port: " ++ err.Error)),
              { conn := { conn with wire := wire } })
          | (none, wire) => some (none, { conn := { conn with wire := wire } })
  | _ => some (none, cc)

/-- Modelled from the spec: `server.ServerConn`, the viewer-facing connection,
is not among the sources; the listener sets its framebuffer dimensions, desktop
name and pixel format through `SetHeight`, `SetWidth`, `SetDesktopName` and
`SetPixelFormat`, and writes to it. -/
structure ServerConn where
  width : Nat
  height : Nat
  desktopName : List Byte
  pixelFormat : PixelFormat
  wire : Wire
  deriving DecidableEq, Repr

/-- Modelled from the spec: `(*ServerConn).SetHeight`. -/
def ServerConn.SetHeight (c : ServerConn) (height : Nat) : ServerConn :=
  { c with height := height }

/-- Modelled from the spec: `(*ServerConn).SetWidth`. -/
def ServerConn.SetWidth (c : ServerConn) (width : Nat) : ServerConn :=
  { c with width := width }

/-- Modelled from the spec: `(*ServerConn).SetDesktopName`. -/
def ServerConn.SetDesktopName (c : ServerConn) (name : List Byte) : ServerConn :=
  { c with desktopName := name }

/-- Modelled from the spec: `(*ServerConn).SetPixelFormat`. -/
def ServerConn.SetPixelFormat (c : ServerConn) (pf : PixelFormat) : ServerConn :=
  { c with pixelFormat := pf }

/-- Go `proxy.ServerUpdater`. -/
structure ServerUpdater where
  conn : ServerConn
  deriving DecidableEq, Repr

/-- Go `(*ServerUpdater).Consume`: the error returned and the listener (with its
connection) after the call; `none` when a type assertion panics. -/
def ServerUpdater.Consume (p : ServerUpdater) (seg : RfbSegment) :
    Option (Option GoError × ServerUpdater) :=
  match seg.SegmentType with
  | .SegmentMessageStart => some (none, p)
  | .SegmentRectSeparator => some (none, p)
  | .SegmentServerInitMessage =>
    match seg.Message with
    | some (.ServerInit FBWidth FBHeight NameText PixelFormat) =>
      some (none, { conn := (((p.conn.SetHeight FBHeight).SetWidth FBWidth).SetDesktopName
        NameText).SetPixelFormat PixelFormat })
    | _ => none
  | .SegmentBytes =>
    match p.conn.wire.Write seg.Bytes with
    | (_, some err, wire) =>
      if err.Is .ErrClosed || err.Is .EOF then some (none, { conn := { p.conn with wire := wire } })
      else
        some (some (.errorf ("WriteTo.Consume (ServerUpdater SegmentBytes): " ++
          "problem writing to port: " ++ err.Error)), { conn := { p.conn with wire := wire } })
    | (_, none, wire) => some (none, { conn := { p.conn with wire := wire } })
  | .SegmentFullyParsedClientMessage =>
    match seg.Message with
    | none => none
    | some clientMsg =>
      if clientMsg.isClientMessage = false then none
      else
        match clientMsg.Write p.conn.wire with
        | (some err, wire) =>
          some (some (.errorf ("WriteTo.Consume (ServerUpdater " ++
            "SegmentFullyParsedClientMessage): problem writing to port: " ++ err.Error)),
            { conn := { p.conn with wire := wire } })
        | (none, wire) => some (none, { conn := { p.conn with wire := wire } })
  | _ => some (some (.errorf "WriteTo.Consume: undefined RfbSegment type"), p)

/-! ## server/server.go -/

/-- The calls `attachNewServerConn` makes on a connection once it is created,
in the order of the source: `ServerVersionHandler`, `ServerSecurityHandler`,
`cfg.NewConnHandler`, `ServerClientInitHandler`, `ServerServerInitHandler` and
`conn.handle` (the message loop). -/
inductive Phase where
  | ServerVersionHandler
  | ServerSecurityHandler
  | NewConnHandler
  | ServerClientInitHandler
  | ServerServerInitHandler
  | handle
  deriving DecidableEq, Repr

/-- Modelled from the spec: the functions `attachNewServerConn` calls are not
among the sources.  Each acts on the state `ω` of the connection and its
surroundings: `NewServerConn` and the phases return an error or nil,
`setSessionId` stores `conn.SessionId`, `Close` is `conn.Close`. -/
structure ServerCallees (ω : Type) where
  NewServerConn : ω → Option GoError × ω
  run : Phase → ω → Option GoError × ω
  setSessionId : String → ω → ω
  Close : ω → ω

/-- The body of `attachNewServerConn` after `defer conn.Close()`: the error
returned and the state at the `return`. -/
def attachBody {ω : Type} (env : ServerCallees ω) (UseDummySession : Bool)
    (sessionId : String) (w : ω) : Option GoError × ω :=
  match env.run .ServerVersionHandler w with
  | (some err, w) => (some err, w)
  | (none, w) =>
  match env.run .ServerSecurityHandler w with
  | (some err, w) => (some err, w)
  | (none, w) =>
  match env.run .NewConnHandler w with
  | (some err, w) => (some err, w)
  | (none, w) =>
  match env.run .ServerClientInitHandler w with
  | (some err, w) => (some err, w)
  | (none, w) =>
  match env.run .ServerServerInitHandler w with
  | (some err, w) => (some err, w)
  | (none, w) =>
  let w := env.setSessionId sessionId w
  let w := if UseDummySession then env.setSessionId "dummySession" w else w
  env.run .handle w

/-- Go `attachNewServerConn`: the error returned and the state after the call.
When `NewServerConn` fails there is no connection and nothing is deferred;
otherwise the deferred `conn.Close()` runs on every return, after the result
has been set. -/
def attachNewServerConn {ω : Type} (env : ServerCallees ω) (UseDummySession : Bool)
    (sessionId : String) (w : ω) : Option GoError × ω :=
  match env.NewServerConn w with
  | (some err, w) => (some err, w)
  | (none, w) =>
    match attachBody env UseDummySession sessionId w with
    | (err, w) => (err, env.Close w)

/-- The fixed order of the phases. -/
def Phase.order : List Phase :=
  [.ServerVersionHandler, .ServerSecurityHandler, .NewConnHandler,
   .ServerClientInitHandler, .ServerServerInitHandler, .handle]

/-- Written from the spec's state machine: the phases of `phases` are run in
order, each on the state the one before left, up to and including the first
that returns an error. -/
def runUntilError {ω : Type} (run : Phase → ω → Option GoError × ω) :
    List Phase → ω → Option GoError × List (Phase × Option GoError) × ω
  | [], w => (none, [], w)
  | ph :: rest, w =>
    match run ph w with
    | (some err, w) => (some err, [(ph, some err)], w)
    | (none, w) =>
      match runUntilError run rest w with
      | (err, ran, w) => (err, (ph, none) :: ran, w)

/-! ## client/write-to.go, and the writing side of the LED state -/

/-- Go `(SegmentType).String`. -/
def SegmentType.String : SegmentType → String
  | .SegmentBytes => "SegmentBytes"
  | .SegmentMessageStart => "SegmentMessageStart"
  | .SegmentMessageEnd => "SegmentMessageEnd"
  | .SegmentRectSeparator => "SegmentRectSeparator"
  | .SegmentFullyParsedClientMessage => "SegmentFullyParsedClientMessage"
  | .SegmentFullyParsedServerMessage => "SegmentFullyParsedServerMessage"
  | .SegmentServerInitMessage => "SegmentServerInitMessage"
  | .SegmentConnectionClosed => "SegmentConnectionClosed"

/-- Go `client.WriteTo`: a listener that forwards to an `io.Writer`. -/
structure WriteTo where
  Writer : Wire
  Name : String
  deriving DecidableEq, Repr

/-- Go `(*WriteTo).Consume`: the error returned and the listener (with its
writer) after the call; `none` when the type assertion
`seg.Message.(common.ClientMessage)` panics.  The cases of message start and
rect separator are empty and leave the switch for the final `return nil`. -/
def WriteTo.Consume (p : WriteTo) (seg : RfbSegment) : Option (Option GoError × WriteTo) :=
  match seg.SegmentType with
  | .SegmentMessageStart => some (none, p)
  | .SegmentRectSeparator => some (none, p)
  | .SegmentBytes =>
    match p.Writer.Write seg.Bytes with
    | (_, some err, wire) =>
      some (some (.errorf ("failed to write segment of type " ++ seg.SegmentType.String ++
        " to port: " ++ err.Error)), { p with Writer := wire })
    | (_, none, wire) => some (none, { p with Writer := wire })
  | .SegmentFullyParsedClientMessage =>
    match seg.Message with
    | none => none
    | some clientMsg =>
      if clientMsg.isClientMessage = false then none
      else
        match clientMsg.Write p.Writer with
        | (some err, wire) =>
          some (some (.errorf ("failed to write segment of type " ++ seg.SegmentType.String ++
            " to port: " ++ err.Error)), { p with Writer := wire })
        | (none, wire) => some (none, { p with Writer := wire })
  | _ => some (some (.errorf ("unknown RFB segment type " ++ seg.SegmentType.String)), p)

/-- Go `(*EncLedStatePseudo).WriteTo`: `w.Write([]byte{pe.LedState})`, whose
results are dropped, then `return 1, nil`. -/
def EncLedStatePseudo.WriteTo (pe : EncLedStatePseudo) (w : Writer) :
    Nat × Option GoError × Writer :=
  match w.Write [pe.LedState] with
  | (_, _, w) => (1, none, w)

/-- A pipeline listener that hands each segment to a `ServerUpdater` with the
given connection and answers with the error `Consume` returns. -/
def ServerUpdater.asListener (p : ServerUpdater) : SegmentConsumer :=
  { Consume := fun _ seg =>
      match p.Consume seg with
      | some (err, _) => err
      | none => none }

/-! ## Vocabulary of the statements -/

/-- Every registered listener answers `nil` to every segment, whatever it has
been given before. -/
def MultiListener.acceptsAll (m : MultiListener) : Prop :=
  ∀ li ∈ m.listeners, ∀ delivered seg, li.Consume delivered seg = none

/-- The deliveries of one segment to the listeners at positions `i`, `i + 1`,
..., `i + n - 1`, in that order. -/
def deliveries (seg : RfbSegment) (i n : Nat) : List Delivery :=
  (List.range' i n).map (fun j => (j, seg))

/-- The parts of a read helper that reading leaves alone: the registry `ls`
(whose listeners accept everything), the transport's closing error `c`, and
whether a byte collection is open (`b`). -/
def RfbReadHelper.Steady (ls : List SegmentConsumer) (c : GoError) (b : Bool)
    (r : RfbReadHelper) : Prop :=
  r.Listeners.listeners = ls ∧ r.Reader.closeErr = c ∧ r.savedBytes.isSome = b ∧
    ∀ li ∈ ls, ∀ delivered seg, li.Consume delivered seg = none

/-- Written from the spec's construction rule for the compact length (§4.2):
byte 1 holds bits 0-6, byte 2 bits 7-13, each with `0x80` set when another
byte follows, and byte 3 holds the remaining bits as a full byte. -/
def compactLen (v : Nat) : List Byte :=
  if v < 128 then [v &&& 0x7F]
  else if v < 16384 then [(v &&& 0x7F) ||| 0x80, (v >>> 7) &&& 0x7F]
  else [(v &&& 0x7F) ||| 0x80, ((v >>> 7) &&& 0x7F) ||| 0x80, (v >>> 14) &&& 0xFF]

/-- A listener at position `j` answers `nil` to `seg` when its turn comes in
a `Consume` call on `m`: the listeners before it have then been given `seg`. -/
def MultiListener.acceptsAt (m : MultiListener) (seg : RfbSegment) (j : Nat) : Prop :=
  ∀ li : SegmentConsumer, m.listeners[j]? = some li →
    li.Consume (m.delivered ++ deliveries seg 0 j) seg = none

/-- The segments the listener at position `i` has been given, oldest first. -/
def MultiListener.observed (m : MultiListener) (i : Nat) : List RfbSegment :=
  (m.delivered.filter (fun d => d.1 = i)).map (fun d => d.2)

/-- The pipeline operations of the ordering property. -/
inductive PipelineOp where
  | Read (p : List Byte)
  | SendMessageStart (upcomingMessageType : Nat)
  | SendMessageEnd (messageType : Nat)
  deriving DecidableEq, Repr

/-- The segment an operation made on `r` is due to publish: for a `Read` the
bytes the transport puts into the buffer in that call, for a marker the
marker with its type tag. -/
def PipelineOp.segment (r : RfbReadHelper) : PipelineOp → RfbSegment
  | .Read p =>
    { Bytes := (r.Reader.Read p).p.take (r.Reader.Read p).n, SegmentType := .SegmentBytes,
      UpcomingObjectType := 0, Message := none }
  | .SendMessageStart upcomingMessageType =>
    { Bytes := [], SegmentType := .SegmentMessageStart,
      UpcomingObjectType := upcomingMessageType, Message := none }
  | .SendMessageEnd messageType =>
    { Bytes := [], SegmentType := .SegmentMessageEnd,
      UpcomingObjectType := messageType, Message := none }

/-- One operation made on the helper: the error it returns and the helper
after it. -/
def RfbReadHelper.perform (r : RfbReadHelper) : PipelineOp → Option GoError × RfbReadHelper
  | .Read p => ((r.Read p).err, (r.Read p).r)
  | .SendMessageStart upcomingMessageType => r.SendMessageStart upcomingMessageType
  | .SendMessageEnd messageType => r.SendMessageEnd messageType

/-- A sequence of operations made one after the other, each of them successful:
the segments due, in the order of the operations, and the helper at the end;
`none` when one of the operations returns an error. -/
def RfbReadHelper.performAll : RfbReadHelper → List PipelineOp →
    Option (List RfbSegment × RfbReadHelper)
  | r, [] => some ([], r)
  | r, op :: ops =>
    match r.perform op with
    | (some _, _) => none
    | (none, r') =>
      match RfbReadHelper.performAll r' ops with
      | none => none
      | some (segs, r'') => some (op.segment r :: segs, r'')

/-- The operation is a `Read`. -/
def PipelineOp.isRead : PipelineOp → Bool
  | .Read _ => true
  | _ => false

/-- The operation is a `SendMessageStart`. -/
def PipelineOp.isStart : PipelineOp → Bool
  | .SendMessageStart _ => true
  | _ => false

/-- The operation is a `SendMessageEnd`. -/
def PipelineOp.isEnd : PipelineOp → Bool
  | .SendMessageEnd _ => true
  | _ => false

/-- The segment fits the operation: a byte segment for a `Read`, and for a
marker the marker segment with the type tag that was sent and no bytes. -/
def PipelineOp.publishes : PipelineOp → RfbSegment → Prop
  | .Read _, seg => seg.SegmentType = .SegmentBytes
  | .SendMessageStart upcomingMessageType, seg =>
    seg = ⟨[], .SegmentMessageStart, upcomingMessageType, none⟩
  | .SendMessageEnd messageType, seg => seg = ⟨[], .SegmentMessageEnd, messageType, none⟩

/-- A phase as `attachNewServerConn` calls it: the message loop on the
connection with its session id stored (`sessionId`, or "dummySession" when
`cfg.UseDummySession` is set), every other phase on the connection as it is. -/
def ServerCallees.phase {ω : Type} (env : ServerCallees ω) (UseDummySession : Bool)
    (sessionId : String) (ph : Phase) (w : ω) : Option GoError × ω :=
  if ph = .handle then
    env.run .handle
      (if UseDummySession then env.setSessionId "dummySession" (env.setSessionId sessionId w)
       else env.setSessionId sessionId w)
  else env.run ph w

/-- One call made on a connection, as an observer of the connection sees it: a
phase together with what it returned, or `conn.Close()`. -/
inductive Call where
  | phase (ph : Phase) (err : Option GoError)
  | Close
  deriving DecidableEq, Repr

/-- The callees `env` under observation: every callee acts on the state as in
`env`, and each call of a phase and of `Close` is entered, when it is made, at
the end of a record kept next to the state. -/
def ServerCallees.recorded {ω : Type} (env : ServerCallees ω) : ServerCallees (ω × List Call) :=
  { NewServerConn := fun s => ((env.NewServerConn s.1).1, ((env.NewServerConn s.1).2, s.2)),
    run := fun ph s =>
      ((env.run ph s.1).1, ((env.run ph s.1).2, s.2 ++ [Call.phase ph (env.run ph s.1).1])),
    setSessionId := fun id s => (env.setSessionId id s.1, s.2),
    Close := fun s => (env.Close s.1, s.2 ++ [Call.Close]) }

/-- The errors `errors.Is` and `errors.As` examine in an error: the error
itself, then what `Unwrap` gives, and so on until `Unwrap` gives nil. -/
def GoError.chain : GoError → List GoError
  | .wrapf msg cause => GoError.wrapf msg cause :: cause.chain
  | err => [err]

/-- Written from the spec's rule for the palette filter: the length of the
pixel-index data is `height × ceil(width / 8)` when the palette has exactly 2
colours and `width × height` otherwise. -/
def paletteIndexLength (paletteSize : Nat) (rect : Rectangle) : Nat :=
  if paletteSize = 2 then rect.Height * ⌈(rect.Width : ℚ) / 8⌉₊
  else rect.Width * rect.Height

/-! # Theorems -/

/-! ## Reading a full buffer -/

theorem readAtLeastLoop_spec {σ : Type} {Read : σ → List Byte → ReadOut σ}
    {avail : σ → List Byte} {good : σ → Prop} (hRead : HandsOut Read avail good) :
    ∀ (fuel : Nat) (r : σ) (pre junk bs rest : List Byte),
      good r → avail r = bs ++ rest → junk.length = bs.length → bs.length ≤ fuel →
      ∃ r', readAtLeastLoop Read fuel r (pre ++ junk) (pre ++ junk).length pre.length
            = ⟨(pre ++ junk).length, none, pre ++ bs, r'⟩ ∧ avail r' = rest ∧ good r' := by
  intro fuel
  induction fuel with
  | zero =>
    intro r pre junk bs rest hg hav hlen hfuel
    have hbs : bs = [] := List.length_eq_zero.mp (by omega)
    have hjunk : junk = [] := List.length_eq_zero.mp (by omega)
    subst hbs hjunk
    refine ⟨r, ?_, by simpa using hav, hg⟩
    simp [readAtLeastLoop]
  | succ fuel ih =>
    intro r pre junk bs rest hg hav hlen hfuel
    by_cases hjunk : junk = []
    · have hbs : bs = [] := List.length_eq_zero.mp (by simp [← hlen, hjunk])
      subst hbs hjunk
      refine ⟨r, ?_, by simpa using hav, hg⟩
      simp [readAtLeastLoop]
    · have hbs : bs ≠ [] := by
        intro h; apply hjunk; apply List.length_eq_zero.mp; simp [hlen, h]
      have hav' : avail r ≠ [] := by simp [hav, hbs]
      obtain ⟨k, r1, hk0, hkp, _, hread, hav1, hg1⟩ := hRead r junk hg hav' hjunk
      have hkb : k ≤ bs.length := by omega
      have htake : (avail r).take k = bs.take k := by
        rw [hav, List.take_append_of_le_length hkb]
      have hdrop : avail r1 = bs.drop k ++ rest := by
        rw [hav1, hav, List.drop_append_of_le_length hkb]
      obtain ⟨r2, hloop, hav2, hg2⟩ :=
        ih r1 (pre ++ bs.take k) (junk.drop k) (bs.drop k) rest hg1 hdrop
          (by simp [hlen]) (by simp; omega)
      refine ⟨r2, ?_, hav2, hg2⟩
      have hjpos : 0 < junk.length := List.length_pos.mpr hjunk
      have hlen1 : (pre ++ bs.take k).length = pre.length + k := by
        simp [List.length_take, Nat.min_eq_left hkb]
      have hlen2 : (pre ++ bs.take k ++ junk.drop k).length = (pre ++ junk).length := by
        simp [List.length_take, Nat.min_eq_left hkb]; omega
      rw [hlen1, hlen2] at hloop
      have hdropn : (pre ++ junk).drop pre.length = junk := by simp
      have htaken : (pre ++ junk).take pre.length = pre := by simp
      rw [readAtLeastLoop]
      simp only [hdropn, htaken, hread, htake]
      have hlt : pre.length < (pre ++ junk).length := by simp; omega
      rw [if_pos hlt]
      simp only [← List.append_assoc]
      rw [hloop]
      simp [List.append_assoc]

theorem ReadFull_spec {σ : Type} {Read : σ → List Byte → ReadOut σ}
    {avail : σ → List Byte} {good : σ → Prop} (hRead : HandsOut Read avail good)
    (r : σ) (buf bs rest : List Byte)
    (hg : good r) (hav : avail r = bs ++ rest) (hlen : buf.length = bs.length) :
    ∃ r', ReadFull Read r buf = ⟨buf.length, none, bs, r'⟩ ∧ avail r' = rest ∧ good r' := by
  obtain ⟨r', hloop, hav', hg'⟩ :=
    readAtLeastLoop_spec hRead buf.length r [] buf bs rest hg hav hlen (by omega)
  refine ⟨r', ?_, hav', hg'⟩
  simp only [List.nil_append, List.length_nil] at hloop
  simp [ReadFull, hloop]

/-- The transport hands out its data in order, whatever its schedule; its
closing error stays the same. -/
theorem Transport_handsOut (c : GoError) :
    HandsOut Transport.Read Transport.data (fun t => t.closeErr = c) := by
  intro t p hg hav hp
  obtain ⟨data, chunks, closeErr⟩ := t
  simp only at hg hav
  cases data with
  | nil => exact absurd rfl hav
  | cons b d =>
    have hp' : 0 < p.length := List.length_pos.mpr hp
    refine ⟨_, _, ?_, ?_, ?_, rfl, rfl, hg⟩
    · cases chunks <;> simp <;> omega
    · exact Nat.min_le_left _ _
    · exact Nat.le_trans (Nat.min_le_right _ _) (Nat.min_le_left _ _)

/-! ## Listener fan-out -/

theorem deliveries_zero (seg : RfbSegment) (i : Nat) : deliveries seg i 0 = [] := rfl

theorem deliveries_succ (seg : RfbSegment) (i n : Nat) :
    deliveries seg i (n + 1) = (i, seg) :: deliveries seg (i + 1) n := by
  simp [deliveries, List.range'_succ]

/-- When each listener, asked in turn, answers `nil`, the loop visits all of
them and reports `nil`. -/
theorem consumeFrom_accept (seg : RfbSegment) :
    ∀ (ls : List SegmentConsumer) (i : Nat) (delivered : List Delivery),
      (∀ (j : Nat) (li : SegmentConsumer), ls[j]? = some li →
        li.Consume (delivered ++ deliveries seg i j) seg = none) →
      MultiListener.consumeFrom seg i ls delivered
        = (none, delivered ++ deliveries seg i ls.length) := by
  intro ls
  induction ls with
  | nil => intro i delivered _; simp [MultiListener.consumeFrom, deliveries_zero]
  | cons li rest ih =>
    intro i delivered h
    have h0 : li.Consume delivered seg = none := by
      simpa [deliveries_zero] using h 0 li (by simp)
    have hrest : ∀ (j : Nat) (li' : SegmentConsumer), rest[j]? = some li' →
        li'.Consume ((delivered ++ [(i, seg)]) ++ deliveries seg (i + 1) j) seg = none := by
      intro j li' hj
      have := h (j + 1) li' (by simpa using hj)
      simpa [deliveries_succ] using this
    simp only [MultiListener.consumeFrom, h0]
    rw [ih (i + 1) (delivered ++ [(i, seg)]) hrest]
    simp [deliveries_succ]

/-- When the listener at position `k` is the first to answer with an error, the
loop visits the positions up to `k` and reports that error. -/
theorem consumeFrom_reject (seg : RfbSegment) :
    ∀ (ls : List SegmentConsumer) (i : Nat) (delivered : List Delivery) (k : Nat)
      (lk : SegmentConsumer) (e : GoError),
      ls[k]? = some lk →
      (∀ (j : Nat) (li : SegmentConsumer), j < k → ls[j]? = some li →
        li.Consume (delivered ++ deliveries seg i j) seg = none) →
      lk.Consume (delivered ++ deliveries seg i k) seg = some e →
      MultiListener.consumeFrom seg i ls delivered
        = (some e, delivered ++ deliveries seg i (k + 1)) := by
  intro ls
  induction ls with
  | nil => intro i delivered k lk e hk; simp at hk
  | cons li rest ih =>
    intro i delivered k lk e hk hbefore hrej
    cases k with
    | zero =>
      simp only [List.getElem?_cons_zero, Option.some.injEq] at hk
      subst hk
      simp only [deliveries_zero, List.append_nil] at hrej
      simp [MultiListener.consumeFrom, hrej, deliveries_succ, deliveries_zero]
    | succ k =>
      have h0 : li.Consume delivered seg = none := by
        simpa [deliveries_zero] using hbefore 0 li (by omega) (by simp)
      have hk' : rest[k]? = some lk := by simpa using hk
      have hbefore' : ∀ (j : Nat) (li' : SegmentConsumer), j < k → rest[j]? = some li' →
          li'.Consume ((delivered ++ [(i, seg)]) ++ deliveries seg (i + 1) j) seg = none := by
        intro j li' hj hget
        have := hbefore (j + 1) li' (by omega) (by simpa using hget)
        simpa [deliveries_succ] using this
      have hrej' : lk.Consume ((delivered ++ [(i, seg)]) ++ deliveries seg (i + 1) k) seg
          = some e := by
        simpa [deliveries_succ] using hrej
      simp only [MultiListener.consumeFrom, h0]
      rw [ih (i + 1) (delivered ++ [(i, seg)]) k lk e hk' hbefore' hrej']
      simp [deliveries_succ (n := k + 1)]

theorem Consume_acceptsAll (m : MultiListener) (seg : RfbSegment) (h : m.acceptsAll) :
    m.Consume seg
      = (none, { m with delivered := m.delivered ++ deliveries seg 0 m.listeners.length }) := by
  have := consumeFrom_accept seg m.listeners 0 m.delivered
    (fun j li hj => h li (List.getElem?_mem hj) _ _)
  simp [MultiListener.Consume, this]

/-! ## Reading through the helper -/

/-- The helper hands out the transport's data in order when its listeners
accept everything. -/
theorem RfbReadHelper_handsOut (ls : List SegmentConsumer) (c : GoError) (b : Bool) :
    HandsOut RfbReadHelper.Read (fun r => r.Reader.data) (RfbReadHelper.Steady ls c b) := by
  intro r p hg hav hp
  obtain ⟨hls, hc, hb, hacc⟩ := hg
  obtain ⟨k, t', hk0, hkp, hkd, hread, hdata, hc'⟩ :=
    Transport_handsOut c r.Reader p hc hav hp
  have hall : r.Listeners.acceptsAll := by
    intro li hli; exact hacc li (hls ▸ hli)
  refine ⟨k, RfbReadHelper.mk t'
      (MultiListener.mk r.Listeners.listeners (r.Listeners.delivered ++
        deliveries ⟨(r.Reader.data.take k ++ p.drop k).take k, .SegmentBytes, 0, none⟩
          0 r.Listeners.listeners.length))
      (match r.savedBytes with
        | some saved => some (saved ++ (r.Reader.data.take k ++ p.drop k))
        | none => none),
    hk0, hkp, hkd, ?_, ?_, ?_⟩
  · simp only [RfbReadHelper.Read, hread, Consume_acceptsAll _ _ hall]
  · simpa using hdata
  · refine ⟨hls, hc', ?_, hacc⟩
    cases hs : r.savedBytes <;> simp [hs] at hb ⊢ <;> exact hb

theorem ReadUint8_spec {ls : List SegmentConsumer} {c : GoError} {b : Bool}
    (r : RfbReadHelper) (x : Byte) (rest : List Byte)
    (hg : r.Steady ls c b) (hdata : r.Reader.data = x :: rest) :
    ∃ r', r.ReadUint8 = (x, none, r') ∧ r'.Reader.data = rest ∧ r'.Steady ls c b := by
  obtain ⟨r', hfull, hav, hg'⟩ :=
    ReadFull_spec (RfbReadHelper_handsOut ls c b) r [0] [x] rest hg (by simpa using hdata) rfl
  exact ⟨r', by simp [RfbReadHelper.ReadUint8, hfull], hav, hg'⟩

theorem ReadBytes_spec {ls : List SegmentConsumer} {c : GoError} {b : Bool}
    (r : RfbReadHelper) (bs rest : List Byte)
    (hg : r.Steady ls c b) (hdata : r.Reader.data = bs ++ rest) :
    ∃ r', r.ReadBytes bs.length = (bs, none, r') ∧ r'.Reader.data = rest ∧
      r'.Steady ls c b := by
  obtain ⟨r', hfull, hav, hg'⟩ :=
    ReadFull_spec (RfbReadHelper_handsOut ls c b) r (List.replicate bs.length 0) bs rest
      hg hdata (by simp)
  refine ⟨r', ?_, hav, hg'⟩
  simp [RfbReadHelper.ReadBytes, hfull]

/-! ## Pixel-format codec -/

theorem writeU16_readU16 (x : Nat) (hx : x < 65536) (rest : List Byte) :
    readU16 (writeU16 x ++ rest) = .ok (x, rest) := by
  simp only [writeU16, List.cons_append, List.nil_append, readU16]
  congr 2
  omega

/-- C1 (as amended): for every PixelFormat `x` with `TrueColor = 1` and a
big-endian flag that is 0 or 1, `writePixelFormat` returns 16 bytes and no
error, and `readPixelFormat`, decoding into a zero-valued PixelFormat from a
reader that delivers these bytes (in pieces of any size, followed by
anything), succeeds, yields `x` in every field and leaves what followed. -/
theorem readPixelFormat_writePixelFormat (x : PixelFormat) (hwf : x.wf)
    (htc : x.TrueColor = 1) (hbe : x.BigEndian = 0 ∨ x.BigEndian = 1)
    (rest : List Byte) (chunks : List Nat) (closeErr : GoError) :
    (writePixelFormat x).1.length = 16 ∧ (writePixelFormat x).2 = none ∧
    ∃ chunks', readPixelFormat ⟨(writePixelFormat x).1 ++ rest, chunks, closeErr⟩
        PixelFormat.zero = (none, x, ⟨rest, chunks', closeErr⟩) := by
  obtain ⟨BPP, Depth, BigEndian, TrueColor, RedMax, GreenMax, BlueMax,
    RedShift, GreenShift, BlueShift⟩ := x
  simp only at htc hbe
  simp only [PixelFormat.wf] at hwf
  subst htc
  have hw : (writePixelFormat ⟨BPP, Depth, BigEndian, 1, RedMax, GreenMax, BlueMax,
      RedShift, GreenShift, BlueShift⟩).1 =
      [BPP, Depth, if BigEndian = 1 then 1 else 0, 1] ++ (writeU16 RedMax ++
        (writeU16 GreenMax ++ (writeU16 BlueMax ++
          [RedShift, GreenShift, BlueShift, 0, 0, 0]))) := by
    simp [writePixelFormat, writeU16, List.replicate]
  refine ⟨by simp [hw, writeU16], rfl, ?_⟩
  obtain ⟨t, hfull, hdata, hclose⟩ :=
    ReadFull_spec (Transport_handsOut closeErr)
      ⟨(writePixelFormat ⟨BPP, Depth, BigEndian, 1, RedMax, GreenMax, BlueMax,
        RedShift, GreenShift, BlueShift⟩).1 ++ rest, chunks, closeErr⟩
      (List.replicate 16 0) _ rest rfl rfl (by simp [hw, writeU16])
  obtain ⟨data, chunks', closeErr'⟩ := t
  simp only at hdata hclose
  subst hdata hclose
  refine ⟨chunks', ?_⟩
  simp only [readPixelFormat, hfull]
  simp only [hw, List.cons_append, List.nil_append, readU8,
    readColors, writeU16_readU16 _ hwf.2.2.2.2.1, writeU16_readU16 _ hwf.2.2.2.2.2.1,
    writeU16_readU16 _ hwf.2.2.2.2.2.2.1, PixelFormat.zero]
  rcases hbe with h | h <;> subst h <;> simp

/-- C1, witness: the round trip at 32 bpp, depth 24, little-endian true colour
with 8-bit channels, delivered one byte per `Read`. -/
theorem readPixelFormat_writePixelFormat_witness :
    (writePixelFormat ⟨32, 24, 0, 1, 255, 255, 255, 16, 8, 0⟩).1.length = 16 ∧
    (writePixelFormat ⟨32, 24, 0, 1, 255, 255, 255, 16, 8, 0⟩).2 = none ∧
    ∃ chunks', readPixelFormat
        ⟨(writePixelFormat ⟨32, 24, 0, 1, 255, 255, 255, 16, 8, 0⟩).1 ++ [7],
          List.replicate 16 0, .EOF⟩ PixelFormat.zero
      = (none, ⟨32, 24, 0, 1, 255, 255, 255, 16, 8, 0⟩, ⟨[7], chunks', .EOF⟩) :=
  readPixelFormat_writePixelFormat ⟨32, 24, 0, 1, 255, 255, 255, 16, 8, 0⟩
    (by decide) rfl (Or.inl rfl) [7] (List.replicate 16 0) .EOF

/-- C1, counterexample: a PixelFormat with `TrueColor = 1` whose big-endian
flag byte is 2 is written with flag byte 0 and read back with `BigEndian = 0`:
the round trip does not return it. -/
theorem readPixelFormat_writePixelFormat_bigEndian_two :
    (⟨32, 24, 2, 1, 255, 255, 255, 16, 8, 0⟩ : PixelFormat).wf ∧
    (⟨32, 24, 2, 1, 255, 255, 255, 16, 8, 0⟩ : PixelFormat).TrueColor = 1 ∧
    readPixelFormat ⟨(writePixelFormat ⟨32, 24, 2, 1, 255, 255, 255, 16, 8, 0⟩).1, [], .EOF⟩
        PixelFormat.zero
      = (none, ⟨32, 24, 0, 1, 255, 255, 255, 16, 8, 0⟩, ⟨[], [], .EOF⟩) ∧
    (⟨32, 24, 0, 1, 255, 255, 255, 16, 8, 0⟩ : PixelFormat)
      ≠ ⟨32, 24, 2, 1, 255, 255, 255, 16, 8, 0⟩ := by
  decide

/-! ## Compact length -/

theorem and_0x7F (x : Nat) : x &&& 0x7F = x % 128 :=
  Nat.and_pow_two_sub_one_eq_mod x 7

theorem and_0xFF (x : Nat) : x &&& 0xFF = x % 256 :=
  Nat.and_pow_two_sub_one_eq_mod x 8

theorem or_0x80 (a : Nat) (ha : a < 128) : a ||| 0x80 = a + 128 := by
  have := Nat.mul_add_lt_is_or (i := 7) (b := a) (by simpa using ha) 1
  rw [Nat.lor_comm]
  simpa [Nat.add_comm] using this.symm

theorem or_shift7 (a b : Nat) (ha : a < 128) : a ||| (b <<< 7) = a + b * 128 := by
  have := Nat.mul_add_lt_is_or (i := 7) (b := a) (by simpa using ha) b
  rw [Nat.lor_comm, Nat.shiftLeft_eq]
  simp only [Nat.reducePow] at this ⊢
  rw [Nat.mul_comm b 128, ← this]; omega

theorem or_shift14 (a c : Nat) (ha : a < 16384) : a ||| (c <<< 14) = a + c * 16384 := by
  have := Nat.mul_add_lt_is_or (i := 14) (b := a) (by simpa using ha) c
  rw [Nat.lor_comm, Nat.shiftLeft_eq]
  simp only [Nat.reducePow] at this ⊢
  rw [Nat.mul_comm c 16384, ← this]; omega

/-- The continuation flag of a byte: `x & 0x80` is zero exactly for `x < 128`. -/
theorem and_0x80 (x : Nat) (hx : x < 256) : x &&& 0x80 = if x < 128 then 0 else 128 := by
  by_cases h : x < 128
  · rw [if_pos h]
    have h1 : x &&& 0x7F = x := by rw [and_0x7F]; omega
    have h2 : (0x7F : Nat) &&& 0x80 = 0 := by decide
    rw [← h1, Nat.land_assoc, h2]; simp
  · rw [if_neg h]
    have hx' : x = (x - 128) ||| 0x80 := by rw [or_0x80 _ (by omega)]; omega
    have h1 : (x - 128) &&& 0x7F = x - 128 := by rw [and_0x7F]; omega
    have h2 : (0x7F : Nat) &&& 0x80 = 0 := by decide
    have h3 : (x - 128) &&& 0x80 = 0 := by
      rw [← h1, Nat.land_assoc, h2]; simp
    rw [hx', Nat.and_distrib_right, h3]
    simp

theorem compactLen_length (v : Nat) :
    (compactLen v).length = if v < 128 then 1 else if v < 16384 then 2 else 3 := by
  unfold compactLen
  split
  · rfl
  · split <;> rfl

theorem compactLen_bytesOk (v : Nat) : bytesOk (compactLen v) := by
  have h7 : ∀ x : Nat, x &&& 0x7F < 128 := fun x => by rw [and_0x7F]; omega
  have h8 : ∀ x : Nat, (x &&& 0x7F) ||| 0x80 < 256 := fun x => by
    rw [or_0x80 _ (h7 x)]; have := h7 x; omega
  have hF : ∀ x : Nat, x &&& 0xFF < 256 := fun x => by rw [and_0xFF]; omega
  unfold compactLen bytesOk
  split
  · intro b hb
    simp only [List.mem_singleton] at hb
    subst hb; exact Nat.lt_trans (h7 v) (by decide)
  · split
    · intro b hb
      simp only [List.mem_cons, List.mem_singleton, List.not_mem_nil, or_false] at hb
      rcases hb with hb | hb <;> subst hb
      · exact h8 v
      · exact Nat.lt_trans (h7 (v >>> 7)) (by decide)
    · intro b hb
      simp only [List.mem_cons, List.mem_singleton, List.not_mem_nil, or_false] at hb
      rcases hb with hb | hb | hb <;> subst hb
      · exact h8 v
      · exact h8 (v >>> 7)
      · exact hF (v >>> 14)

/-- `ReadCompactLen` inverts the construction rule on every value below 2^22
(three bytes hold 7 + 7 + 8 bits). -/
theorem ReadCompactLen_steady {ls : List SegmentConsumer} {c : GoError} {b : Bool}
    (v : Nat) (hv : v < 4194304) (r : RfbReadHelper) (rest : List Byte)
    (hg : r.Steady ls c b) (hdata : r.Reader.data = compactLen v ++ rest) :
    ∃ r', r.ReadCompactLen = (v, none, r') ∧ r'.Reader.data = rest ∧ r'.Steady ls c b := by
  unfold compactLen at hdata
  have hmod7 : ∀ x : Nat, x % 128 < 128 := fun x => Nat.mod_lt _ (by decide)
  by_cases h1 : v < 128
  · rw [if_pos h1] at hdata
    have hb : v &&& 0x7F = v := by rw [and_0x7F]; omega
    rw [hb] at hdata
    obtain ⟨r1, hr1, hd1, hg1⟩ := ReadUint8_spec r v rest hg hdata
    refine ⟨r1, ?_, hd1, hg1⟩
    simp only [RfbReadHelper.ReadCompactLen, hr1, and_0x80 v (by omega), if_pos h1, hb]
    simp; omega
  · rw [if_neg h1] at hdata
    have hb1 : (v &&& 0x7F) ||| 0x80 = v % 128 + 128 := by
      rw [and_0x7F, or_0x80 _ (hmod7 v)]
    have hc1 : (v % 128 + 128) &&& 0x80 = 128 := by
      rw [and_0x80 _ (by omega), if_neg (by omega)]
    have hl1 : (v % 128 + 128) &&& 0x7F = v % 128 := by rw [and_0x7F]; omega
    by_cases h2 : v < 16384
    · rw [if_pos h2, hb1] at hdata
      have hb2 : (v >>> 7) &&& 0x7F = v / 128 := by
        rw [and_0x7F, Nat.shiftRight_eq_div_pow]; simp only [Nat.reducePow]; omega
      rw [hb2] at hdata
      obtain ⟨r1, hr1, hd1, hg1⟩ := ReadUint8_spec r _ _ hg hdata
      obtain ⟨r2, hr2, hd2, hg2⟩ := ReadUint8_spec r1 _ _ hg1 hd1
      refine ⟨r2, ?_, hd2, hg2⟩
      have hc2 : (v / 128) &&& 0x80 = 0 := by
        rw [and_0x80 _ (by omega), if_pos (by omega)]
      have hl2 : (v / 128) &&& 0x7F = v / 128 := by rw [and_0x7F]; omega
      simp only [RfbReadHelper.ReadCompactLen, hr1, hr2, hc1, hc2, hl1, hl2]
      have hm : v % 128 % 2 ^ 32 = v % 128 := by omega
      simp only [hm, or_shift7 _ _ (hmod7 v)]
      simp; omega
    · rw [if_neg h2, hb1] at hdata
      have hb2 : ((v >>> 7) &&& 0x7F) ||| 0x80 = v / 128 % 128 + 128 := by
        rw [and_0x7F, or_0x80 _ (hmod7 _), Nat.shiftRight_eq_div_pow]
      have hb3 : (v >>> 14) &&& 0xFF = v / 16384 := by
        rw [and_0xFF, Nat.shiftRight_eq_div_pow]; simp only [Nat.reducePow]; omega
      rw [hb2, hb3] at hdata
      obtain ⟨r1, hr1, hd1, hg1⟩ := ReadUint8_spec r _ _ hg hdata
      obtain ⟨r2, hr2, hd2, hg2⟩ := ReadUint8_spec r1 _ _ hg1 hd1
      obtain ⟨r3, hr3, hd3, hg3⟩ := ReadUint8_spec r2 _ _ hg2 hd2
      refine ⟨r3, ?_, hd3, hg3⟩
      have hc2 : (v / 128 % 128 + 128) &&& 0x80 = 128 := by
        rw [and_0x80 _ (by omega), if_neg (by omega)]
      have hl2 : (v / 128 % 128 + 128) &&& 0x7F = v / 128 % 128 := by
        rw [and_0x7F]; omega
      have hl3 : (v / 16384) &&& 0xFF = v / 16384 := by rw [and_0xFF]; omega
      simp only [RfbReadHelper.ReadCompactLen, hr1, hr2, hr3, hc1, hc2, hl1, hl2, hl3]
      have hm : v % 128 % 2 ^ 32 = v % 128 := by omega
      simp only [hm, or_shift7 _ _ (hmod7 v)]
      have hm2 : (v % 128 + v / 128 % 128 * 128) % 2 ^ 32 = v % 128 + v / 128 % 128 * 128 := by
        omega
      simp only [hm2, or_shift14 _ _ (show v % 128 + v / 128 % 128 * 128 < 16384 by omega)]
      simp; omega

theorem steady_of_acceptsAll (r : RfbReadHelper) (h : r.Listeners.acceptsAll) :
    r.Steady r.Listeners.listeners r.Reader.closeErr r.savedBytes.isSome :=
  ⟨rfl, rfl, rfl, h⟩

/-- C2: for every value `v` from 0 to 2,097,151 (0, 127, 128, 16383, 16384 and
2,097,151 among them), `ReadCompactLen` on a stream that starts with the
compact-length encoding of `v`, read through listeners that accept, returns
`v` and no error, and has consumed exactly the encoding: its 1, 2 or 3 bytes. -/
theorem ReadCompactLen_compactLen (v : Nat) (hv : v ≤ 2097151) (r : RfbReadHelper)
    (rest : List Byte) (hacc : r.Listeners.acceptsAll)
    (hdata : r.Reader.data = compactLen v ++ rest) :
    (∃ r', r.ReadCompactLen = (v, none, r') ∧ r'.Reader.data = rest) ∧
    (compactLen v).length = (if v < 128 then 1 else if v < 16384 then 2 else 3) ∧
    bytesOk (compactLen v) := by
  obtain ⟨r', hr, hd, _⟩ :=
    ReadCompactLen_steady v (by omega) r rest (steady_of_acceptsAll r hacc) hdata
  exact ⟨⟨r', hr, hd⟩, compactLen_length v, compactLen_bytesOk v⟩

/-- The encodings of the boundary values, with the full third byte of the
largest one. -/
theorem compactLen_examples :
    compactLen 0 = [0x00] ∧ compactLen 127 = [0x7F] ∧ compactLen 128 = [0x80, 0x01] ∧
    compactLen 16383 = [0xFF, 0x7F] ∧ compactLen 16384 = [0x80, 0x80, 0x01] ∧
    compactLen 2097151 = [0xFF, 0xFF, 0x7F] := by
  decide

/-- C2, witness: the largest value, 2,097,151, read one byte per `Read` through
a listener that accepts everything, with one more byte behind it. -/
theorem ReadCompactLen_compactLen_witness :
    (2097151 ≤ 2097151) ∧
    (∃ r', RfbReadHelper.ReadCompactLen
        { Reader := ⟨compactLen 2097151 ++ [42], [0, 0, 0], .EOF⟩,
          Listeners := ⟨[⟨fun _ _ => none⟩], []⟩, savedBytes := none }
        = (2097151, none, r') ∧ r'.Reader.data = [42]) ∧
    (compactLen 2097151).length
      = (if 2097151 < 128 then 1 else if 2097151 < 16384 then 2 else 3) ∧
    bytesOk (compactLen 2097151) :=
  ⟨Nat.le_refl _,
   ReadCompactLen_compactLen 2097151 (Nat.le_refl _)
    { Reader := ⟨compactLen 2097151 ++ [42], [0, 0, 0], .EOF⟩,
      Listeners := ⟨[⟨fun _ _ => none⟩], []⟩, savedBytes := none }
    [42] (by intro li hli; simp at hli; subst hli; intro _ _; rfl) rfl⟩

/-! ## Byte collection -/

/-- C3, the code at a short read: a collection is open, the transport holds the
bytes 1, 2 and hands out one byte per call, and `Read` is given a two-byte
buffer holding zeroes.  The call succeeds with `n = 1`, the byte read is
`p[:1] = [1]`, and `EndByteCollection` returns `[1, 0]`: the whole buffer. -/
theorem Read_short_collects_whole_buffer :
    ((NewRfbReadHelper ⟨[1, 2], [0], .EOF⟩).StartByteCollection.Read [0, 0]).n = 1 ∧
    ((NewRfbReadHelper ⟨[1, 2], [0], .EOF⟩).StartByteCollection.Read [0, 0]).err = none ∧
    ((NewRfbReadHelper ⟨[1, 2], [0], .EOF⟩).StartByteCollection.Read [0, 0]).p.take 1 = [1] ∧
    (((NewRfbReadHelper ⟨[1, 2], [0], .EOF⟩).StartByteCollection.Read [0, 0]).r.EndByteCollection.map
      (fun out => out.1)) = some [1, 0] := by
  decide

/-- C4, the code at a transport that splits the pixel: at 32 bpp and depth 24 a
fill rectangle is the control byte `0x80` and the pixel `1, 2, 3`; the
transport hands out one byte per call and a byte `9` follows.  Both `Read`s
succeed and leave exactly the `9` unread, having consumed `0x80, 1, 2, 3`,
and the following `WriteTo` writes the seven bytes `0x80, 1, 0, 0, 2, 0, 3`. -/
theorem Tight_Read_WriteTo_split_transport :
    (∃ o, TightEncoding.Read ⟨[]⟩ ⟨32, 24, 0, 1, 255, 255, 255, 16, 8, 0⟩ ⟨0, 0, 10, 10⟩
            (NewRfbReadHelper ⟨[0x80, 1, 2, 3, 9], [0, 0, 0, 0], .EOF⟩) = some o ∧
          o.err = none ∧ o.enc = some o.t ∧ o.r.Reader.data = [9] ∧
          o.t.WriteTo ⟨[]⟩ = (7, none, ⟨[0x80, 1, 0, 0, 2, 0, 3]⟩)) ∧
    (∃ o, TightPngEncoding.Read ⟨[]⟩ ⟨32, 24, 0, 1, 255, 255, 255, 16, 8, 0⟩ ⟨0, 0, 10, 10⟩
            (NewRfbReadHelper ⟨[0x80, 1, 2, 3, 9], [0, 0, 0, 0], .EOF⟩) = some o ∧
          o.err = none ∧ o.enc = some o.t ∧ o.r.Reader.data = [9] ∧
          o.t.WriteTo ⟨[]⟩ = (7, none, ⟨[0x80, 1, 0, 0, 2, 0, 3]⟩)) := by
  constructor
  · exact ⟨_, rfl, by decide⟩
  · exact ⟨_, rfl, by decide⟩

/-! ## Segments published by the helper -/

/-- C5: for every buffer `p`, when the transport's `Read` fills `n` bytes of `p`
without error (leaving the buffer as `p'`) and every registered listener, asked
in turn, accepts the segment, `RfbReadHelper.Read` returns `(n, nil)` and the
record of deliveries grows by exactly one delivery to each listener, each of the
same segment: type `SegmentBytes`, bytes `p'[:n]`. -/
theorem Read_publishes_bytes_read (r : RfbReadHelper) (p p' : List Byte) (n : Nat)
    (t' : Transport) (hread : r.Reader.Read p = ⟨n, none, p', t'⟩)
    (hacc : ∀ j, r.Listeners.acceptsAt ⟨p'.take n, .SegmentBytes, 0, none⟩ j) :
    (r.Read p).n = n ∧ (r.Read p).err = none ∧ (r.Read p).p = p' ∧
    (r.Read p).r.Listeners.listeners = r.Listeners.listeners ∧
    (r.Read p).r.Listeners.delivered = r.Listeners.delivered ++
      deliveries ⟨p'.take n, .SegmentBytes, 0, none⟩ 0 r.Listeners.listeners.length := by
  have hc := consumeFrom_accept ⟨p'.take n, .SegmentBytes, 0, none⟩ r.Listeners.listeners 0
    r.Listeners.delivered (fun j li hj => hacc j li hj)
  simp [RfbReadHelper.Read, hread, MultiListener.Consume, hc]

/-- C5, witness: three bytes pending, at most two handed out per call, a
three-byte buffer and two listeners that accept everything: `Read` returns
`(2, nil)` and each listener is given the segment with bytes `[1, 2]` once. -/
theorem Read_publishes_bytes_read_witness :
    (Transport.Read ⟨[1, 2, 3], [1], .EOF⟩ [0, 0, 0] = ⟨2, none, [1, 2, 0], ⟨[3], [], .EOF⟩⟩) ∧
    (∀ j, MultiListener.acceptsAt ⟨[⟨fun _ _ => none⟩, ⟨fun _ _ => none⟩], []⟩
      ⟨[1, 2], .SegmentBytes, 0, none⟩ j) ∧
    (RfbReadHelper.Read ⟨⟨[1, 2, 3], [1], .EOF⟩,
        ⟨[⟨fun _ _ => none⟩, ⟨fun _ _ => none⟩], []⟩, none⟩ [0, 0, 0]).n = 2 ∧
    (RfbReadHelper.Read ⟨⟨[1, 2, 3], [1], .EOF⟩,
        ⟨[⟨fun _ _ => none⟩, ⟨fun _ _ => none⟩], []⟩, none⟩ [0, 0, 0]).err = none ∧
    (RfbReadHelper.Read ⟨⟨[1, 2, 3], [1], .EOF⟩,
        ⟨[⟨fun _ _ => none⟩, ⟨fun _ _ => none⟩], []⟩, none⟩ [0, 0, 0]).r.Listeners.delivered
      = [(0, ⟨[1, 2], .SegmentBytes, 0, none⟩), (1, ⟨[1, 2], .SegmentBytes, 0, none⟩)] := by
  have hacc : ∀ j, MultiListener.acceptsAt ⟨[⟨fun _ _ => none⟩, ⟨fun _ _ => none⟩], []⟩
      ⟨[1, 2], .SegmentBytes, 0, none⟩ j := by
    intro j li hj
    have hmem := List.getElem?_mem hj
    simp only [List.mem_cons, List.mem_singleton, List.not_mem_nil, or_false, or_self] at hmem
    subst hmem; rfl
  have h := Read_publishes_bytes_read
    ⟨⟨[1, 2, 3], [1], .EOF⟩, ⟨[⟨fun _ _ => none⟩, ⟨fun _ _ => none⟩], []⟩, none⟩
    [0, 0, 0] [1, 2, 0] 2 ⟨[3], [], .EOF⟩ rfl hacc
  exact ⟨rfl, hacc, h.1, h.2.1, h.2.2.2.2⟩

theorem foldl_AddListener (ls : List SegmentConsumer) :
    ∀ m : MultiListener, (ls.foldl MultiListener.AddListener m).listeners = m.listeners ++ ls := by
  induction ls with
  | nil => intro m; simp
  | cons l rest ih => intro m; simp [ih, MultiListener.AddListener]

/-- C6: listeners registered with `AddListener` stand in the registry in
registration order, and for every registry `m` and segment `seg`,
`MultiListener.Consume` visits them in that order:
* if the listener at position `k` is the first to return an error `e`, the record
  of calls grows by the calls to positions `0, 1, ..., k` and no other, `Consume`
  returns exactly `e`, and an `RfbReadHelper.Read` that publishes `seg` to this
  registry returns `n = 0` and the error `e`;
* if every listener accepts, the record grows by one call to each position, in
  order, and `Consume` returns `nil`. -/
theorem Consume_stops_at_first_error (m : MultiListener) (seg : RfbSegment) :
    (∀ ls : List SegmentConsumer,
      (ls.foldl MultiListener.AddListener m).listeners = m.listeners ++ ls) ∧
    (∀ (k : Nat) (lk : SegmentConsumer) (e : GoError),
      m.listeners[k]? = some lk → (∀ j, j < k → m.acceptsAt seg j) →
      lk.Consume (m.delivered ++ deliveries seg 0 k) seg = some e →
      m.Consume seg
        = (some e, { m with delivered := m.delivered ++ deliveries seg 0 (k + 1) }) ∧
      ∀ (r : RfbReadHelper) (p p' : List Byte) (n : Nat) (t' : Transport),
        r.Listeners = m → r.Reader.Read p = ⟨n, none, p', t'⟩ →
        seg = ⟨p'.take n, .SegmentBytes, 0, none⟩ →
        (r.Read p).n = 0 ∧ (r.Read p).err = some e) ∧
    ((∀ j, m.acceptsAt seg j) →
      m.Consume seg
        = (none, { m with delivered := m.delivered ++ deliveries seg 0 m.listeners.length })) := by
  refine ⟨fun ls => foldl_AddListener ls m, ?_, ?_⟩
  · intro k lk e hk hbefore hrej
    have hc := consumeFrom_reject seg m.listeners 0 m.delivered k lk e hk
      (fun j li hj hget => hbefore j hj li hget) hrej
    refine ⟨by simp [MultiListener.Consume, hc], ?_⟩
    intro r p p' n t' hm hread hseg
    subst hm hseg
    simp [RfbReadHelper.Read, hread, MultiListener.Consume, hc]
  · intro hacc
    have hc := consumeFrom_accept seg m.listeners 0 m.delivered
      (fun j li hj => hacc j li hj)
    simp [MultiListener.Consume, hc]

/-- C6, witness: three listeners, the second of which rejects a byte segment with
`io.EOF`: the first two are called, the third is not, `Consume` returns `io.EOF`
and so does the `Read` that publishes the segment, with `n = 0`; with the
rejecting listener left out both are called and `Consume` returns `nil`. -/
theorem Consume_stops_at_first_error_witness :
    (MultiListener.Consume ⟨[⟨fun _ _ => none⟩, ⟨fun _ _ => some .EOF⟩, ⟨fun _ _ => none⟩], []⟩
        ⟨[7], .SegmentBytes, 0, none⟩).1 = some .EOF ∧
    (MultiListener.Consume ⟨[⟨fun _ _ => none⟩, ⟨fun _ _ => some .EOF⟩, ⟨fun _ _ => none⟩], []⟩
        ⟨[7], .SegmentBytes, 0, none⟩).2.delivered
      = [(0, ⟨[7], .SegmentBytes, 0, none⟩), (1, ⟨[7], .SegmentBytes, 0, none⟩)] ∧
    (RfbReadHelper.Read ⟨⟨[7, 8], [0], .EOF⟩,
        ⟨[⟨fun _ _ => none⟩, ⟨fun _ _ => some .EOF⟩, ⟨fun _ _ => none⟩], []⟩, none⟩ [0, 0]).n = 0 ∧
    (RfbReadHelper.Read ⟨⟨[7, 8], [0], .EOF⟩,
        ⟨[⟨fun _ _ => none⟩, ⟨fun _ _ => some .EOF⟩, ⟨fun _ _ => none⟩], []⟩, none⟩ [0, 0]).err
      = some .EOF ∧
    (MultiListener.Consume ⟨[⟨fun _ _ => none⟩, ⟨fun _ _ => none⟩], []⟩
        ⟨[7], .SegmentBytes, 0, none⟩).1 = none ∧
    (MultiListener.Consume ⟨[⟨fun _ _ => none⟩, ⟨fun _ _ => none⟩], []⟩
        ⟨[7], .SegmentBytes, 0, none⟩).2.delivered
      = [(0, ⟨[7], .SegmentBytes, 0, none⟩), (1, ⟨[7], .SegmentBytes, 0, none⟩)] := by
  have hrej := (Consume_stops_at_first_error
      ⟨[⟨fun _ _ => none⟩, ⟨fun _ _ => some .EOF⟩, ⟨fun _ _ => none⟩], []⟩
      ⟨[7], .SegmentBytes, 0, none⟩).2.1 1 ⟨fun _ _ => some .EOF⟩ .EOF rfl
    (by
      intro j hj li hget
      have hj0 : j = 0 := by omega
      subst hj0
      simp only [List.getElem?_cons_zero, Option.some.injEq] at hget
      subst hget; rfl)
    rfl
  have hread := hrej.2
    ⟨⟨[7, 8], [0], .EOF⟩,
      ⟨[⟨fun _ _ => none⟩, ⟨fun _ _ => some .EOF⟩, ⟨fun _ _ => none⟩], []⟩, none⟩
    [0, 0] [7, 0] 1 ⟨[8], [], .EOF⟩ rfl rfl rfl
  have hacc := (Consume_stops_at_first_error
      ⟨[⟨fun _ _ => none⟩, ⟨fun _ _ => none⟩], []⟩ ⟨[7], .SegmentBytes, 0, none⟩).2.2
    (by
      intro j li hget
      have hmem := List.getElem?_mem hget
      simp only [List.mem_cons, List.mem_singleton, List.not_mem_nil, or_false, or_self] at hmem
      subst hmem; rfl)
  refine ⟨?_, ?_, hread.1, hread.2, ?_, ?_⟩
  · rw [hrej.1]
  · rw [hrej.1]; rfl
  · rw [hacc]
  · rw [hacc]; rfl

/-! ## Ordering of the published segments -/

/-- When the loop reports `nil`, every listener from position `i` on was called
once, in order. -/
theorem consumeFrom_none (seg : RfbSegment) :
    ∀ (ls : List SegmentConsumer) (i : Nat) (delivered : List Delivery),
      (MultiListener.consumeFrom seg i ls delivered).1 = none →
      (MultiListener.consumeFrom seg i ls delivered).2
        = delivered ++ deliveries seg i ls.length := by
  intro ls
  induction ls with
  | nil => intro i delivered _; simp [MultiListener.consumeFrom, deliveries_zero]
  | cons li rest ih =>
    intro i delivered h
    cases hli : li.Consume delivered seg with
    | some e => simp [MultiListener.consumeFrom, hli] at h
    | none =>
      simp only [MultiListener.consumeFrom, hli] at h ⊢
      rw [ih (i + 1) (delivered ++ [(i, seg)]) h]
      simp [deliveries_succ]

theorem Consume_none (m : MultiListener) (seg : RfbSegment) (h : (m.Consume seg).1 = none) :
    (m.Consume seg).2
      = { m with delivered := m.delivered ++ deliveries seg 0 m.listeners.length } := by
  simp only [MultiListener.Consume] at h ⊢
  rw [consumeFrom_none seg m.listeners 0 m.delivered h]

/-- Among the deliveries of one segment to the positions `s, ..., s + n - 1`
exactly one goes to a position `i` in that range. -/
theorem deliveries_filter (seg : RfbSegment) (i : Nat) :
    ∀ (n s : Nat), s ≤ i → i < s + n →
      ((deliveries seg s n).filter (fun d => d.1 = i)).map (fun d => d.2) = [seg] := by
  intro n
  induction n with
  | zero => intro s h1 h2; omega
  | succ n ih =>
    intro s h1 h2
    rw [deliveries_succ]
    by_cases hs : s = i
    · subst hs
      have hnone : ∀ (n s' : Nat), s < s' →
          (deliveries seg s' n).filter (fun d => decide (d.1 = s)) = [] := by
        intro n s' hlt
        simp only [deliveries, List.filter_eq_nil_iff, List.mem_map, List.mem_range'_1]
        rintro d ⟨j, ⟨hj, _⟩, rfl⟩
        simp; omega
      simp [hnone n (s + 1) (by omega)]
    · have : ¬ (s = i) := hs
      simp only [List.filter_cons, this, decide_False, Bool.false_eq_true, if_false]
      exact ih (s + 1) (by omega) (by omega)

theorem observed_append_deliveries (m : MultiListener) (seg : RfbSegment) (i : Nat)
    (hi : i < m.listeners.length) :
    MultiListener.observed
        { m with delivered := m.delivered ++ deliveries seg 0 m.listeners.length } i
      = m.observed i ++ [seg] := by
  simp only [MultiListener.observed, List.filter_append, List.map_append]
  rw [deliveries_filter seg i m.listeners.length 0 (by omega) (by omega)]

/-- A successful transport `Read` takes the bytes it puts into the buffer off
the front of the pending data. -/
theorem Transport_Read_bytes (t : Transport) (p : List Byte) (h : (t.Read p).err = none) :
    (t.Read p).p.take (t.Read p).n ++ (t.Read p).r.data = t.data := by
  obtain ⟨data, chunks, closeErr⟩ := t
  cases data with
  | nil => simp [Transport.Read] at h
  | cons b d =>
    simp only [Transport.Read]
    rw [List.take_append_of_le_length (by
      rw [List.length_take]
      exact Nat.le_min.mpr ⟨Nat.le_refl _,
        Nat.le_trans (Nat.min_le_right _ _) (Nat.min_le_left _ _)⟩)]
    rw [List.take_take, Nat.min_self, List.take_append_drop]

/-- One successful operation: the registry is the same, every listener has been
given the segment due, and the bytes of the segment have left the transport. -/
theorem perform_ok (r r' : RfbReadHelper) (op : PipelineOp) (h : r.perform op = (none, r')) :
    r'.Listeners = { r.Listeners with delivered := (r.Listeners.delivered ++
        deliveries (op.segment r) 0 r.Listeners.listeners.length) } ∧
    (op.segment r).Bytes ++ r'.Reader.data = r.Reader.data ∧
    op.publishes (op.segment r) := by
  cases op with
  | Read p =>
    simp only [RfbReadHelper.perform, RfbReadHelper.Read] at h
    cases herr : (r.Reader.Read p).err with
    | some e => simp [herr] at h
    | none =>
      simp only [herr] at h
      cases hc : (r.Listeners.Consume ⟨(r.Reader.Read p).p.take (r.Reader.Read p).n,
          .SegmentBytes, 0, none⟩).1 with
      | some e => simp [hc] at h
      | none =>
        simp only [hc, Prod.mk.injEq, true_and] at h
        subst h
        refine ⟨?_, ?_, rfl⟩
        · exact Consume_none _ _ hc
        · exact Transport_Read_bytes r.Reader p herr
  | SendMessageStart t =>
    simp only [RfbReadHelper.perform, RfbReadHelper.SendMessageStart, Prod.mk.injEq] at h
    obtain ⟨hc, hr⟩ := h
    subst hr
    exact ⟨Consume_none _ _ hc, by simp [PipelineOp.segment], rfl⟩
  | SendMessageEnd t =>
    simp only [RfbReadHelper.perform, RfbReadHelper.SendMessageEnd, Prod.mk.injEq] at h
    obtain ⟨hc, hr⟩ := h
    subst hr
    exact ⟨Consume_none _ _ hc, by simp [PipelineOp.segment], rfl⟩

theorem performAll_spec :
    ∀ (ops : List PipelineOp) (r r' : RfbReadHelper) (segs : List RfbSegment),
      r.performAll ops = some (segs, r') →
      r'.Listeners.listeners = r.Listeners.listeners ∧
      (∀ i, i < r.Listeners.listeners.length →
        r'.Listeners.observed i = r.Listeners.observed i ++ segs) ∧
      List.Forall₂ PipelineOp.publishes ops segs ∧
      (segs.map (fun seg => seg.Bytes)).flatten ++ r'.Reader.data = r.Reader.data := by
  intro ops
  induction ops with
  | nil =>
    intro r r' segs h
    simp only [RfbReadHelper.performAll, Option.some.injEq, Prod.mk.injEq] at h
    obtain ⟨h1, h2⟩ := h
    subst h1 h2
    simp
  | cons op ops ih =>
    intro r r' segs h
    simp only [RfbReadHelper.performAll] at h
    cases hp : r.perform op with
    | mk err r1 =>
      cases err with
      | some e => simp [hp] at h
      | none =>
        simp only [hp] at h
        cases hrest : r1.performAll ops with
        | none => simp [hrest] at h
        | some out =>
          obtain ⟨segs1, r2⟩ := out
          simp only [hrest, Option.some.injEq, Prod.mk.injEq] at h
          obtain ⟨h1, h2⟩ := h
          subst h1 h2
          obtain ⟨hl, hbytes, hpub⟩ := perform_ok r r1 op hp
          obtain ⟨ihl, ihobs, ihpub, ihbytes⟩ := ih r1 r2 segs1 hrest
          have hls : r1.Listeners.listeners = r.Listeners.listeners := by rw [hl]
          refine ⟨by rw [ihl, hls], ?_, List.Forall₂.cons hpub ihpub, ?_⟩
          · intro i hi
            rw [ihobs i (by rw [hls]; exact hi), hl, observed_append_deliveries _ _ _ hi]
            simp
          · rw [← hbytes, ← ihbytes]
            simp

theorem length_eq_counts (ops : List PipelineOp) :
    ops.length = (ops.filter PipelineOp.isRead).length
      + (ops.filter PipelineOp.isStart).length + (ops.filter PipelineOp.isEnd).length := by
  induction ops with
  | nil => rfl
  | cons op ops ih =>
    cases op <;> simp [PipelineOp.isRead, PipelineOp.isStart, PipelineOp.isEnd, ih] <;> omega

theorem publishes_count_bytes :
    ∀ (ops : List PipelineOp) (segs : List RfbSegment),
      List.Forall₂ PipelineOp.publishes ops segs →
      (segs.filter (fun seg => seg.SegmentType = .SegmentBytes)).length
        = (ops.filter PipelineOp.isRead).length := by
  intro ops segs h
  induction h with
  | nil => rfl
  | @cons op seg ops segs hpub _ ih =>
    cases op with
    | Read p =>
      have hseg : seg.SegmentType = .SegmentBytes := hpub
      simp [PipelineOp.isRead, hseg, ih]
    | SendMessageStart t =>
      have hseg : seg = ⟨[], .SegmentMessageStart, t, none⟩ := hpub
      simp [PipelineOp.isRead, hseg, ih]
    | SendMessageEnd t =>
      have hseg : seg = ⟨[], .SegmentMessageEnd, t, none⟩ := hpub
      simp [PipelineOp.isRead, hseg, ih]

/-- C7 (as amended): for every sequence `ops` of operations made on one helper,
with `M` `Read` calls, one `SendMessageStart` and one `SendMessageEnd` in any
interleaving, every one of which, the two markers included, returns nil
(`performAll` gives a result): every registered listener is given exactly
`M + 2` further segments `segs`, one per operation and in the order of the
operations; a `Read` stands against a byte segment (`M` of them), a marker
against its marker segment at the same position; and the bytes of the segments,
put end to end, are the bytes that left the transport, in order. -/
theorem performAll_listeners_observe (r r' : RfbReadHelper) (ops : List PipelineOp)
    (segs : List RfbSegment) (M : Nat)
    (hM : (ops.filter PipelineOp.isRead).length = M)
    (hS : (ops.filter PipelineOp.isStart).length = 1)
    (hE : (ops.filter PipelineOp.isEnd).length = 1)
    (hrun : r.performAll ops = some (segs, r')) :
    (∀ i, i < r.Listeners.listeners.length →
      r'.Listeners.observed i = r.Listeners.observed i ++ segs) ∧
    segs.length = M + 2 ∧
    List.Forall₂ PipelineOp.publishes ops segs ∧
    (segs.filter (fun seg => seg.SegmentType = .SegmentBytes)).length = M ∧
    (segs.map (fun seg => seg.Bytes)).flatten ++ r'.Reader.data = r.Reader.data := by
  obtain ⟨_, hobs, hpub, hbytes⟩ := performAll_spec ops r r' segs hrun
  refine ⟨hobs, ?_, hpub, ?_, hbytes⟩
  · rw [← List.Forall₂.length_eq hpub, length_eq_counts ops, hM, hS, hE]
  · rw [publishes_count_bytes ops segs hpub, hM]

/-- C7, witness: the bytes 1, 2, 3 arrive as `[1]` and `[2, 3]`; a message start,
two `Read`s into two-byte buffers and a message end are made on a helper with
two listeners.  Both listeners are given: start marker, `[1]`, `[2, 3]`, end
marker. -/
theorem performAll_listeners_observe_witness :
    ∃ r', RfbReadHelper.performAll
        ⟨⟨[1, 2, 3], [0], .EOF⟩, ⟨[⟨fun _ _ => none⟩, ⟨fun _ _ => none⟩], []⟩, none⟩
        [.SendMessageStart 0, .Read [0, 0], .Read [0, 0], .SendMessageEnd 0]
      = some ([⟨[], .SegmentMessageStart, 0, none⟩, ⟨[1], .SegmentBytes, 0, none⟩,
               ⟨[2, 3], .SegmentBytes, 0, none⟩, ⟨[], .SegmentMessageEnd, 0, none⟩], r') ∧
      r'.Listeners.observed 0
        = [⟨[], .SegmentMessageStart, 0, none⟩, ⟨[1], .SegmentBytes, 0, none⟩,
           ⟨[2, 3], .SegmentBytes, 0, none⟩, ⟨[], .SegmentMessageEnd, 0, none⟩] ∧
      r'.Listeners.observed 1
        = [⟨[], .SegmentMessageStart, 0, none⟩, ⟨[1], .SegmentBytes, 0, none⟩,
           ⟨[2, 3], .SegmentBytes, 0, none⟩, ⟨[], .SegmentMessageEnd, 0, none⟩] ∧
      r'.Reader.data = [] := by
  refine ⟨_, rfl, ?_⟩
  have h := performAll_listeners_observe
    ⟨⟨[1, 2, 3], [0], .EOF⟩, ⟨[⟨fun _ _ => none⟩, ⟨fun _ _ => none⟩], []⟩, none⟩ _
    [.SendMessageStart 0, .Read [0, 0], .Read [0, 0], .SendMessageEnd 0] _ 2
    rfl rfl rfl rfl
  exact ⟨by simpa [MultiListener.observed] using h.1 0 (by decide),
         by simpa [MultiListener.observed] using h.1 1 (by decide), rfl⟩

/-- C7, counterexample: a helper with two listeners, a `ServerUpdater` first and
a listener that accepts everything second, and the byte `1` pending.
`SendMessageStart` returns nil, one `Read` into a one-byte buffer succeeds with
`n = 1` (so `M = 1` and `N = 1`), and `SendMessageEnd` is made: the
`ServerUpdater` is given the end marker and answers with an error, `Consume`
stops there, and the second listener has observed the start marker and the
byte segment only, 2 segments and not `M + 2 = 3`. -/
theorem SendMessageEnd_rejected_listener_misses_marker :
    (RfbReadHelper.SendMessageStart
        ⟨⟨[1], [], .EOF⟩,
          ⟨[ServerUpdater.asListener ⟨⟨1024, 768, [116], PixelFormat.zero, ⟨[], none⟩⟩⟩,
            ⟨fun _ _ => none⟩], []⟩, none⟩ 0).1 = none ∧
    (RfbReadHelper.Read (RfbReadHelper.SendMessageStart
        ⟨⟨[1], [], .EOF⟩,
          ⟨[ServerUpdater.asListener ⟨⟨1024, 768, [116], PixelFormat.zero, ⟨[], none⟩⟩⟩,
            ⟨fun _ _ => none⟩], []⟩, none⟩ 0).2 [0]).err = none ∧
    (RfbReadHelper.Read (RfbReadHelper.SendMessageStart
        ⟨⟨[1], [], .EOF⟩,
          ⟨[ServerUpdater.asListener ⟨⟨1024, 768, [116], PixelFormat.zero, ⟨[], none⟩⟩⟩,
            ⟨fun _ _ => none⟩], []⟩, none⟩ 0).2 [0]).n = 1 ∧
    (RfbReadHelper.SendMessageEnd (RfbReadHelper.Read (RfbReadHelper.SendMessageStart
        ⟨⟨[1], [], .EOF⟩,
          ⟨[ServerUpdater.asListener ⟨⟨1024, 768, [116], PixelFormat.zero, ⟨[], none⟩⟩⟩,
            ⟨fun _ _ => none⟩], []⟩, none⟩ 0).2 [0]).r 0).1
      = some (.errorf "WriteTo.Consume: undefined RfbSegment type") ∧
    (RfbReadHelper.SendMessageEnd (RfbReadHelper.Read (RfbReadHelper.SendMessageStart
        ⟨⟨[1], [], .EOF⟩,
          ⟨[ServerUpdater.asListener ⟨⟨1024, 768, [116], PixelFormat.zero, ⟨[], none⟩⟩⟩,
            ⟨fun _ _ => none⟩], []⟩, none⟩ 0).2 [0]).r 0).2.Listeners.observed 0
      = [⟨[], .SegmentMessageStart, 0, none⟩, ⟨[1], .SegmentBytes, 0, none⟩,
         ⟨[], .SegmentMessageEnd, 0, none⟩] ∧
    (RfbReadHelper.SendMessageEnd (RfbReadHelper.Read (RfbReadHelper.SendMessageStart
        ⟨⟨[1], [], .EOF⟩,
          ⟨[ServerUpdater.asListener ⟨⟨1024, 768, [116], PixelFormat.zero, ⟨[], none⟩⟩⟩,
            ⟨fun _ _ => none⟩], []⟩, none⟩ 0).2 [0]).r 0).2.Listeners.observed 1
      = [⟨[], .SegmentMessageStart, 0, none⟩, ⟨[1], .SegmentBytes, 0, none⟩] ∧
    ((RfbReadHelper.SendMessageEnd (RfbReadHelper.Read (RfbReadHelper.SendMessageStart
        ⟨⟨[1], [], .EOF⟩,
          ⟨[ServerUpdater.asListener ⟨⟨1024, 768, [116], PixelFormat.zero, ⟨[], none⟩⟩⟩,
            ⟨fun _ _ => none⟩], []⟩, none⟩ 0).2 [0]).r 0).2.Listeners.observed 1).length ≠ 1 + 2 ∧
    RfbReadHelper.performAll
        ⟨⟨[1], [], .EOF⟩,
          ⟨[ServerUpdater.asListener ⟨⟨1024, 768, [116], PixelFormat.zero, ⟨[], none⟩⟩⟩,
            ⟨fun _ _ => none⟩], []⟩, none⟩
        [.SendMessageStart 0, .Read [0], .SendMessageEnd 0] = none := by
  refine ⟨by decide, by decide, by decide, by decide, by decide, by decide, by decide, rfl⟩

/-! ## What reading leaves alone -/

/-- A property of the reader that every `Read` keeps is kept by the loop. -/
theorem readAtLeastLoop_keeps {σ : Type} {Read : σ → List Byte → ReadOut σ} {P : σ → Prop}
    (hRead : ∀ r p, P r → P (Read r p).r) :
    ∀ (fuel : Nat) (r : σ) (buf : List Byte) (min n : Nat), P r →
      P (readAtLeastLoop Read fuel r buf min n).r := by
  intro fuel
  induction fuel with
  | zero =>
    intro r buf min n h
    simp only [readAtLeastLoop]
    split <;> exact h
  | succ fuel ih =>
    intro r buf min n h
    simp only [readAtLeastLoop]
    split
    · split
      · next heq => exact hRead r _ h
      · exact ih _ _ _ _ (hRead r _ h)
    · exact h

theorem ReadFull_keeps {σ : Type} {Read : σ → List Byte → ReadOut σ} {P : σ → Prop}
    (hRead : ∀ r p, P r → P (Read r p).r) (r : σ) (buf : List Byte) (h : P r) :
    P (ReadFull Read r buf).r := by
  have := readAtLeastLoop_keeps hRead buf.length r buf buf.length 0 h
  simp only [ReadFull]
  split
  · exact this
  · split <;> exact this

/-- An open byte collection stays open, and a closed one closed, across `Read`. -/
theorem Read_keeps_collection (b : Bool) (r : RfbReadHelper) (p : List Byte)
    (h : r.savedBytes.isSome = b) : (r.Read p).r.savedBytes.isSome = b := by
  simp only [RfbReadHelper.Read]
  split
  · exact h
  · split <;> (cases hs : r.savedBytes <;> simp [hs] at h ⊢ <;> exact h)

theorem ReadUint8_keeps_collection (b : Bool) (r : RfbReadHelper)
    (h : r.savedBytes.isSome = b) : r.ReadUint8.2.2.savedBytes.isSome = b := by
  have := ReadFull_keeps (P := fun r => r.savedBytes.isSome = b)
    (Read_keeps_collection b) r [0] h
  simp only [RfbReadHelper.ReadUint8]
  split <;> exact this

theorem ReadBytes_keeps_collection (b : Bool) (r : RfbReadHelper) (count : Nat)
    (h : r.savedBytes.isSome = b) : (r.ReadBytes count).2.2.savedBytes.isSome = b := by
  have := ReadFull_keeps (P := fun r => r.savedBytes.isSome = b)
    (Read_keeps_collection b) r (List.replicate count 0) h
  simp only [RfbReadHelper.ReadBytes]
  split
  · exact this
  · split <;> exact this

theorem ReadCompactLen_keeps_collection (b : Bool) (r : RfbReadHelper)
    (h : r.savedBytes.isSome = b) : r.ReadCompactLen.2.2.savedBytes.isSome = b := by
  have h1 := ReadUint8_keeps_collection b r h
  have h2 := ReadUint8_keeps_collection b _ h1
  have h3 := ReadUint8_keeps_collection b _ h2
  simp only [RfbReadHelper.ReadCompactLen]
  split
  · split
    · exact h3
    · exact h2
  · exact h1

theorem ReadTightData_keeps_collection (b : Bool) (r : RfbReadHelper) (dataSize : Nat)
    (h : r.savedBytes.isSome = b) : (r.ReadTightData dataSize).2.2.savedBytes.isSome = b := by
  simp only [RfbReadHelper.ReadTightData]
  split
  · exact ReadBytes_keeps_collection b r _ h
  · have h1 := ReadCompactLen_keeps_collection b r h
    split
    · next heq => rw [heq] at h1; exact h1
    · next heq =>
      rw [heq] at h1
      exact ReadBytes_keeps_collection b _ _ h1

/-! ## Tight data -/

theorem ReadTightData_raw {ls : List SegmentConsumer} {c : GoError} {b : Bool}
    (r : RfbReadHelper) (dataSize : Nat) (data rest : List Byte)
    (hg : r.Steady ls c b) (hsmall : dataSize < TightMinToCompress)
    (hlen : data.length = dataSize) (hdata : r.Reader.data = data ++ rest) :
    ∃ r', r.ReadTightData dataSize = (data, none, r') ∧ r'.Reader.data = rest ∧
      r'.Steady ls c b := by
  subst hlen
  simp only [RfbReadHelper.ReadTightData, if_pos hsmall]
  exact ReadBytes_spec r data rest hg hdata

theorem ReadTightData_compact {ls : List SegmentConsumer} {c : GoError} {b : Bool}
    (r : RfbReadHelper) (dataSize n : Nat) (blob rest : List Byte)
    (hg : r.Steady ls c b) (hbig : ¬ dataSize < TightMinToCompress) (hn : n < 4194304)
    (hlen : blob.length = n) (hdata : r.Reader.data = compactLen n ++ (blob ++ rest)) :
    ∃ r', r.ReadTightData dataSize = (blob, none, r') ∧ r'.Reader.data = rest ∧
      r'.Steady ls c b := by
  subst hlen
  obtain ⟨r1, hr1, hd1, hg1⟩ := ReadCompactLen_steady blob.length hn r _ hg hdata
  simp only [RfbReadHelper.ReadTightData, if_neg hbig, hr1]
  exact ReadBytes_spec r1 blob rest hg1 hd1

theorem steady_start (r : RfbReadHelper) (h : r.Listeners.acceptsAll) :
    r.StartByteCollection.Steady r.Listeners.listeners r.Reader.closeErr true :=
  ⟨rfl, rfl, rfl, h⟩

theorem EndByteCollection_open (r : RfbReadHelper) (h : r.savedBytes.isSome = true) :
    ∃ bts, r.savedBytes = some bts ∧
      r.EndByteCollection = some (bts, { r with savedBytes := none }) := by
  cases hs : r.savedBytes with
  | none => simp [hs] at h
  | some bts => exact ⟨bts, rfl, by simp [RfbReadHelper.EndByteCollection, hs]⟩

/-! ## Tight: fill mode -/

/-- C9: for every pixel format and rectangle, when the top four bits of the
control byte select fill mode and the stream holds the control byte, one pixel
`px` of `calcTightBytePerPixel` bytes and then `rest`, `TightEncoding.Read`
succeeds and leaves exactly `rest` unread; the pixel is 3 bytes when depth = 24
and bpp = 32, and bpp / 8 bytes otherwise. -/
theorem Tight_fill_consumes_one_pixel (t : TightEncoding) (pixelFmt : PixelFormat)
    (rect : Rectangle) (r : RfbReadHelper) (compctl : Byte) (px rest : List Byte)
    (hfill : (compctl >>> 4) &&& 0x0F = TightFill)
    (hacc : r.Listeners.acceptsAll)
    (hpx : px.length = calcTightBytePerPixel pixelFmt)
    (hdata : r.Reader.data = compctl :: (px ++ rest)) :
    (px.length = if pixelFmt.Depth = 24 ∧ pixelFmt.BPP = 32 then 3 else pixelFmt.BPP / 8) ∧
    ∃ o, TightEncoding.Read t pixelFmt rect r = some o ∧ o.err = none ∧ o.enc = some o.t ∧
      o.r.Reader.data = rest := by
  constructor
  · rw [hpx]; unfold calcTightBytePerPixel
    by_cases h : pixelFmt.Depth = 24 ∧ pixelFmt.BPP = 32
    · rw [if_pos h, if_pos ⟨h.1.symm, h.2.symm⟩]
    · rw [if_neg h, if_neg (fun h' => h ⟨h'.1.symm, h'.2.symm⟩)]
  · obtain ⟨r1, hr1, hd1, hg1⟩ :=
      ReadUint8_spec r.StartByteCollection compctl (px ++ rest) (steady_start r hacc) hdata
    obtain ⟨r2, hr2, hd2, hg2⟩ := ReadBytes_spec r1 px rest hg1 hd1
    obtain ⟨bts, _, hend⟩ := EndByteCollection_open r2 hg2.2.2.1
    rw [hpx] at hr2
    refine ⟨⟨some ⟨bts⟩, none, ⟨bts⟩, { r2 with savedBytes := none }⟩, ?_, rfl, rfl, hd2⟩
    simp only [TightEncoding.Read, TightEncoding.readBody, hr1, hfill, if_true, hr2, hend]

/-- C9, witness: a 10x10 rectangle at 32 bpp / depth 24, control byte `0x80`,
pixel `1, 2, 3`, then `4, 5`: the read takes 3 bytes after the control byte
and leaves `4, 5`. -/
theorem Tight_fill_consumes_one_pixel_witness :
    ((([1, 2, 3] : List Byte).length
      = if (24 : Nat) = 24 ∧ (32 : Nat) = 32 then 3 else 32 / 8) ∧
    ∃ o, TightEncoding.Read ⟨[]⟩ ⟨32, 24, 0, 1, 255, 255, 255, 16, 8, 0⟩ ⟨0, 0, 10, 10⟩
        (NewRfbReadHelper ⟨[0x80, 1, 2, 3, 4, 5], [], .EOF⟩) = some o ∧ o.err = none ∧
      o.enc = some o.t ∧ o.r.Reader.data = [4, 5]) :=
  Tight_fill_consumes_one_pixel ⟨[]⟩ ⟨32, 24, 0, 1, 255, 255, 255, 16, 8, 0⟩ ⟨0, 0, 10, 10⟩
    (NewRfbReadHelper ⟨[0x80, 1, 2, 3, 4, 5], [], .EOF⟩) 0x80 [1, 2, 3] [4, 5]
    (by decide) (by intro li hli; simp [NewRfbReadHelper] at hli) rfl rfl

/-! ## Tight: JPEG at 8 bpp -/

/-- With a byte pending, a `Read` into a one-byte buffer takes exactly that
byte, whatever the schedule. -/
theorem Transport_Read_one (t : Transport) (x : Byte) (rest : List Byte)
    (hdata : t.data = x :: rest) :
    t.Read [0] = ⟨1, none, [x], ⟨rest, t.chunks.tail, t.closeErr⟩⟩ := by
  obtain ⟨data, chunks, closeErr⟩ := t
  simp only at hdata
  subst hdata
  have hn : min 1 (min (rest.length + 1)
      (match chunks with
        | [] => rest.length + 1
        | c :: _ => c + 1)) = 1 := by
    cases chunks <;> simp
  simp only [Transport.Read, List.length_cons, List.length_nil, Nat.zero_add, hn]
  simp

/-- C10: for every rectangle and every stream that starts with a control byte
whose top four bits select JPEG mode, at `BPP = 8` `TightEncoding.Read` returns
an error and no encoding, and the transport is left as one `Read` of one byte
leaves it: only the control byte is gone.  When the listeners accept that byte,
the error is the JPEG-at-8-bpp one. -/
theorem Tight_jpeg_8bpp_rejected (t : TightEncoding) (pixelFmt : PixelFormat)
    (rect : Rectangle) (r : RfbReadHelper) (compctl : Byte) (rest : List Byte)
    (hbpp : pixelFmt.BPP = 8)
    (hjpeg : (compctl >>> 4) &&& 0x0F = TightJpeg)
    (hdata : r.Reader.data = compctl :: rest) :
    ∃ o, TightEncoding.Read t pixelFmt rect r = some o ∧ o.err ≠ none ∧ o.enc = none ∧
      o.r.Reader = (r.Reader.Read [0]).r ∧ o.r.Reader.data = rest ∧
      ((r.Listeners.Consume ⟨[compctl], .SegmentBytes, 0, none⟩).1 = none →
        o.err = some (.errorf "Tight encoding: JPEG is not supported in 8 bpp mode")) := by
  have hT := Transport_Read_one r.Reader compctl rest hdata
  have hne : ¬ (TightJpeg = TightFill) := by decide
  cases hc : (r.Listeners.Consume ⟨[compctl], .SegmentBytes, 0, none⟩).1 with
  | some e =>
    refine ⟨⟨none, some (.errorf ("error in handling tight encoding: " ++ e.Error)),
      { t with bytes := [compctl] },
      ⟨(r.Reader.Read [0]).r,
       (r.Listeners.Consume ⟨[compctl], .SegmentBytes, 0, none⟩).2, none⟩⟩, ?_, ?_, rfl, rfl, ?_, ?_⟩
    · simp [TightEncoding.Read, TightEncoding.readBody, RfbReadHelper.StartByteCollection,
        RfbReadHelper.ReadUint8, ReadFull, readAtLeastLoop, RfbReadHelper.Read, hT, hc,
        RfbReadHelper.EndByteCollection]
    · simp
    · simp [hT]
    · intro h; simp at h
  | none =>
    refine ⟨⟨none, some (.errorf "Tight encoding: JPEG is not supported in 8 bpp mode"),
      { t with bytes := [compctl] },
      ⟨(r.Reader.Read [0]).r,
       (r.Listeners.Consume ⟨[compctl], .SegmentBytes, 0, none⟩).2, none⟩⟩, ?_, ?_, rfl, rfl, ?_, ?_⟩
    · simp [TightEncoding.Read, TightEncoding.readBody, RfbReadHelper.StartByteCollection,
        RfbReadHelper.ReadUint8, ReadFull, readAtLeastLoop, RfbReadHelper.Read, hT, hc,
        RfbReadHelper.EndByteCollection, hjpeg, hne, hbpp]
    · simp
    · simp [hT]
    · intro _; rfl

/-- C10, witness: at 8 bpp the stream `0x90, 1, 2, 3` makes `Read` fail with the
JPEG error, and `1, 2, 3` are still unread. -/
theorem Tight_jpeg_8bpp_rejected_witness :
    ∃ o, TightEncoding.Read ⟨[]⟩ ⟨8, 8, 0, 1, 7, 7, 3, 0, 3, 6⟩ ⟨0, 0, 10, 10⟩
        (NewRfbReadHelper ⟨[0x90, 1, 2, 3], [], .EOF⟩) = some o ∧ o.err ≠ none ∧
      o.enc = none ∧
      o.r.Reader = (Transport.Read ⟨[0x90, 1, 2, 3], [], .EOF⟩ [0]).r ∧
      o.r.Reader.data = [1, 2, 3] ∧
      (((NewRfbReadHelper ⟨[0x90, 1, 2, 3], [], .EOF⟩).Listeners.Consume
          ⟨[0x90], .SegmentBytes, 0, none⟩).1 = none →
        o.err = some (.errorf "Tight encoding: JPEG is not supported in 8 bpp mode")) :=
  Tight_jpeg_8bpp_rejected ⟨[]⟩ ⟨8, 8, 0, 1, 7, 7, 3, 0, 3, 6⟩ ⟨0, 0, 10, 10⟩
    (NewRfbReadHelper ⟨[0x90, 1, 2, 3], [], .EOF⟩) 0x90 [1, 2, 3] rfl (by decide) rfl

/-! ## Tight: palette filter -/

/-- The code's `(width + 7) / 8` is the ceiling of `width / 8`. -/
theorem ceil_div_eight (w : Nat) : (w + 7) / 8 = ⌈(w : ℚ) / 8⌉₊ := by
  obtain ⟨k, hk⟩ : ∃ k, (w + 7) / 8 = k := ⟨_, rfl⟩
  rw [hk]
  apply le_antisymm
  · cases k with
    | zero => exact Nat.zero_le _
    | succ m =>
      have hlt : m < ⌈(w : ℚ) / 8⌉₊ := by
        rw [Nat.lt_ceil]
        have h8 : 8 * m < w := by omega
        have hq : ((8 * m : ℕ) : ℚ) < w := by exact_mod_cast h8
        push_cast at hq
        linarith
      omega
  · rw [Nat.ceil_le]
    have h8 : w ≤ 8 * k := by omega
    have hq : (w : ℚ) ≤ ((8 * k : ℕ) : ℚ) := by exact_mod_cast h8
    push_cast at hq
    linarith

/-- The palette branch of the decoder, up to the index data: with the filter-id
bit set, a mode other than fill and JPEG, filter id 1, palette-size byte
`colorCount` and `(colorCount + 1) * bytesPixel` palette bytes at the head of
the stream, `TightEncoding.Read` comes down to `ReadTightData dataLength` on a
helper `r3` that has consumed exactly those bytes, followed by the deferred
`EndByteCollection`. -/
theorem Tight_palette_reaches_index_data (t : TightEncoding) (pixelFmt : PixelFormat)
    (rect : Rectangle) (r : RfbReadHelper) (compctl colorCount : Byte)
    (palette tail : List Byte) (dataLength : Nat)
    (hmask : compctl &&& 0x40 > 0)
    (hfill : (compctl >>> 4) &&& 0x0F ≠ TightFill)
    (hjpeg : (compctl >>> 4) &&& 0x0F ≠ TightJpeg)
    (hacc : r.Listeners.acceptsAll)
    (hpal : palette.length = (colorCount + 1) * calcTightBytePerPixel pixelFmt)
    (hlen : dataLength = if colorCount + 1 = 2 then rect.Height * ((rect.Width + 7) / 8)
      else rect.Width * rect.Height)
    (hdata : r.Reader.data = compctl :: TightFilterPalette :: colorCount :: (palette ++ tail)) :
    ∃ (r3 : RfbReadHelper) (o : EncOut TightEncoding), r3.Reader.data = tail ∧
      r3.Steady r.Listeners.listeners r.Reader.closeErr true ∧
      TightEncoding.Read t pixelFmt rect r = some o ∧
      o.r.Reader = (r3.ReadTightData dataLength).2.2.Reader ∧
      ((r3.ReadTightData dataLength).2.1 = none → o.err = none ∧ o.enc = some o.t) ∧
      (∀ e : GoError, (r3.ReadTightData dataLength).2.1 = some e →
        o.err = some (.errorf ("error in handling tight encoding, Reading Palette: "
          ++ e.Error)) ∧ o.enc = none) := by
  obtain ⟨r1, hr1, hd1, hg1⟩ :=
    ReadUint8_spec r.StartByteCollection compctl _ (steady_start r hacc) hdata
  obtain ⟨r2, hr2, hd2, hg2⟩ := ReadUint8_spec r1 TightFilterPalette _ hg1 hd1
  obtain ⟨r3', hr3, hd3, hg3⟩ := ReadUint8_spec r2 colorCount _ hg2 hd2
  obtain ⟨r3, hr4, hd4, hg4⟩ := ReadBytes_spec r3' palette tail hg3 hd3
  rw [hpal] at hr4
  have hkeep := ReadTightData_keeps_collection true r3 dataLength hg4.2.2.1
  obtain ⟨bts, _, hend⟩ := EndByteCollection_open _ hkeep
  have hhead : TightEncoding.readBody pixelFmt rect r.StartByteCollection =
      match r3.ReadTightData dataLength with
      | (_, some err, r4) =>
        (false, some (.errorf ("error in handling tight encoding, Reading Palette: "
          ++ err.Error)), r4)
      | (_, none, r4) => (true, none, r4) := by
    simp only [TightEncoding.readBody, hr1, if_neg hfill, if_neg hjpeg, handleTightFilters,
      if_pos hmask, hr2, if_true, hr3, hr4, ← hlen]
    rcases r3.ReadTightData dataLength with ⟨d, _ | e, r4⟩ <;> rfl
  rcases hres : r3.ReadTightData dataLength with ⟨d, _ | e, r4⟩
  · rw [hres] at hend hhead
    refine ⟨r3, ⟨some ⟨bts⟩, none, ⟨bts⟩, { r4 with savedBytes := none }⟩, hd4, hg4, ?_,
      by rw [hres], fun _ => ⟨rfl, rfl⟩, fun e he => by rw [hres] at he; simp at he⟩
    simp only [TightEncoding.Read, hhead, hend]
    rfl
  · rw [hres] at hend hhead
    refine ⟨r3, ⟨none, some (.errorf ("error in handling tight encoding, Reading Palette: "
        ++ e.Error)), ⟨bts⟩, { r4 with savedBytes := none }⟩, hd4, hg4, ?_,
      by rw [hres], fun h => by rw [hres] at h; simp at h, fun e' he => ?_⟩
    · simp only [TightEncoding.Read, hhead, hend]
      rfl
    · rw [hres] at he
      simp only [Option.some.injEq] at he
      subst he
      exact ⟨rfl, rfl⟩

theorem paletteIndexLength_eq (paletteSize : Nat) (rect : Rectangle) :
    paletteIndexLength paletteSize rect
      = if paletteSize = 2 then rect.Height * ((rect.Width + 7) / 8)
        else rect.Width * rect.Height := by
  rw [paletteIndexLength, ceil_div_eight]

/-- C8: for every pixel format and rectangle, when the control byte has the
filter-id bit `0x40` set and a mode other than fill and JPEG, and is followed by
filter id 1, a palette-size byte `colorCount` and `(colorCount + 1) ×
bytesPerPixel` bytes of palette data, `TightEncoding.Read` consumes exactly
those and then reads the index data by `ReadTightData` with the length
`height × ceil(width / 8)` when `colorCount + 1 = 2` and `width × height`
otherwise: its outcome and its transport are those of that call.  In
particular index data shorter than 12 bytes is taken raw, and longer index data
as a compact length followed by that many bytes, and what follows is left
unread. -/
theorem Tight_palette_index_length (t : TightEncoding) (pixelFmt : PixelFormat)
    (rect : Rectangle) (r : RfbReadHelper) (compctl colorCount : Byte)
    (palette tail : List Byte)
    (hmask : compctl &&& 0x40 > 0)
    (hfill : (compctl >>> 4) &&& 0x0F ≠ TightFill)
    (hjpeg : (compctl >>> 4) &&& 0x0F ≠ TightJpeg)
    (hacc : r.Listeners.acceptsAll)
    (hpal : palette.length = (colorCount + 1) * calcTightBytePerPixel pixelFmt)
    (hdata : r.Reader.data = compctl :: TightFilterPalette :: colorCount :: (palette ++ tail)) :
    ∃ (r3 : RfbReadHelper) (o : EncOut TightEncoding), r3.Reader.data = tail ∧
      r3.Listeners.listeners = r.Listeners.listeners ∧
      TightEncoding.Read t pixelFmt rect r = some o ∧
      o.r.Reader
        = (r3.ReadTightData (paletteIndexLength (colorCount + 1) rect)).2.2.Reader ∧
      ((r3.ReadTightData (paletteIndexLength (colorCount + 1) rect)).2.1 = none →
        o.err = none ∧ o.enc = some o.t) ∧
      (∀ e : GoError,
        (r3.ReadTightData (paletteIndexLength (colorCount + 1) rect)).2.1 = some e →
        o.err ≠ none ∧ o.enc = none) ∧
      (∀ idx rest : List Byte, paletteIndexLength (colorCount + 1) rect < 12 →
        idx.length = paletteIndexLength (colorCount + 1) rect → tail = idx ++ rest →
        o.err = none ∧ o.enc = some o.t ∧ o.r.Reader.data = rest) ∧
      (∀ (n : Nat) (blob rest : List Byte), 12 ≤ paletteIndexLength (colorCount + 1) rect →
        n ≤ 2097151 → blob.length = n → tail = compactLen n ++ (blob ++ rest) →
        o.err = none ∧ o.enc = some o.t ∧ o.r.Reader.data = rest) := by
  obtain ⟨r3, o, hd, hg, hread, hreader, hok, herr⟩ :=
    Tight_palette_reaches_index_data t pixelFmt rect r compctl colorCount palette tail
      (paletteIndexLength (colorCount + 1) rect) hmask hfill hjpeg hacc hpal
      (paletteIndexLength_eq _ _) hdata
  refine ⟨r3, o, hd, hg.1, hread, hreader, hok, ?_, ?_, ?_⟩
  · intro e he
    obtain ⟨h1, h2⟩ := herr e he
    exact ⟨by rw [h1]; simp, h2⟩
  · intro idx rest hsmall hlen htail
    obtain ⟨r4, hr4, hd4, _⟩ := ReadTightData_raw r3 _ idx rest hg hsmall hlen (htail ▸ hd)
    rw [hr4] at hok hreader
    exact ⟨(hok rfl).1, (hok rfl).2, by rw [hreader]; exact hd4⟩
  · intro n blob rest hbig hn hlen htail
    have hbig' : ¬ paletteIndexLength (colorCount + 1) rect < TightMinToCompress := by
      unfold TightMinToCompress; omega
    obtain ⟨r4, hr4, hd4, _⟩ := ReadTightData_compact r3
      (paletteIndexLength (colorCount + 1) rect) n blob rest hg hbig' (by omega) hlen
      (htail ▸ hd)
    rw [hr4] at hok hreader
    exact ⟨(hok rfl).1, (hok rfl).2, by rw [hreader]; exact hd4⟩

/-- C8, witness: `colorCount = 1` (two colours) and a 16x3 rectangle at 32 bpp /
depth 24: after the control byte `0x40`, filter id 1, the palette-size byte and
6 palette bytes, the index data is 3 × ceil(16 / 8) = 6 bytes, read raw; the 42
bytes that a length of 16 × 3 = 48 would also take are left unread. -/
theorem Tight_palette_index_length_witness :
    paletteIndexLength (1 + 1) ⟨0, 0, 16, 3⟩ = 6 ∧
    ∃ o : EncOut TightEncoding,
      TightEncoding.Read ⟨[]⟩ ⟨32, 24, 0, 1, 255, 255, 255, 16, 8, 0⟩ ⟨0, 0, 16, 3⟩
        (NewRfbReadHelper ⟨0x40 :: TightFilterPalette :: 1 :: ([10, 11, 12, 20, 21, 22] ++
          ([1, 2, 3, 4, 5, 6] ++ List.replicate 42 7)), [], .EOF⟩) = some o ∧
      o.err = none ∧ o.enc = some o.t ∧ o.r.Reader.data = List.replicate 42 7 := by
  have hL : paletteIndexLength (1 + 1) ⟨0, 0, 16, 3⟩ = 6 := by
    rw [paletteIndexLength_eq]; rfl
  obtain ⟨r3, o, _, _, hread, _, _, _, hraw, _⟩ :=
    Tight_palette_index_length ⟨[]⟩ ⟨32, 24, 0, 1, 255, 255, 255, 16, 8, 0⟩ ⟨0, 0, 16, 3⟩
      (NewRfbReadHelper ⟨0x40 :: TightFilterPalette :: 1 :: ([10, 11, 12, 20, 21, 22] ++
        ([1, 2, 3, 4, 5, 6] ++ List.replicate 42 7)), [], .EOF⟩)
      0x40 1 [10, 11, 12, 20, 21, 22] ([1, 2, 3, 4, 5, 6] ++ List.replicate 42 7)
      (by decide) (by decide) (by decide)
      (by intro li hli; simp [NewRfbReadHelper] at hli) rfl rfl
  exact ⟨hL, o, hread,
    hraw [1, 2, 3, 4, 5, 6] (List.replicate 42 7) (by rw [hL]; decide) (by rw [hL]; rfl) rfl⟩

/-! ## Tight data: consumption -/

/-- The transport's closing error is the same after every `Read`. -/
theorem Transport_Read_closeErr (t : Transport) (p : List Byte) :
    (t.Read p).r.closeErr = t.closeErr := by
  obtain ⟨data, chunks, closeErr⟩ := t
  cases data <;> rfl

/-- Reading leaves the registry, the closing error and the state of the byte
collection as they are, whatever the outcome of the `Read`. -/
theorem Read_keeps_steady (ls : List SegmentConsumer) (c : GoError) (b : Bool)
    (r : RfbReadHelper) (p : List Byte) (h : r.Steady ls c b) : (r.Read p).r.Steady ls c b := by
  obtain ⟨hls, hc, hb, hacc⟩ := h
  have hc' : (r.Reader.Read p).r.closeErr = c := by rw [Transport_Read_closeErr, hc]
  have hb' := Read_keeps_collection b r p hb
  refine ⟨?_, ?_, hb', hacc⟩
  · simp only [RfbReadHelper.Read]
    split
    · exact hls
    · split <;> exact hls
  · simp only [RfbReadHelper.Read]
    split
    · exact hc'
    · split <;> exact hc'

theorem ReadUint8_keeps_steady (ls : List SegmentConsumer) (c : GoError) (b : Bool)
    (r : RfbReadHelper) (h : r.Steady ls c b) : r.ReadUint8.2.2.Steady ls c b := by
  have := ReadFull_keeps (P := fun r => r.Steady ls c b) (Read_keeps_steady ls c b) r [0] h
  simp only [RfbReadHelper.ReadUint8]
  split <;> exact this

theorem ReadCompactLen_keeps_steady (ls : List SegmentConsumer) (c : GoError) (b : Bool)
    (r : RfbReadHelper) (h : r.Steady ls c b) : r.ReadCompactLen.2.2.Steady ls c b := by
  have h1 := ReadUint8_keeps_steady ls c b r h
  have h2 := ReadUint8_keeps_steady ls c b _ h1
  have h3 := ReadUint8_keeps_steady ls c b _ h2
  simp only [RfbReadHelper.ReadCompactLen]
  split
  · split
    · exact h3
    · exact h2
  · exact h1

/-- C11: for every `dataSize` and every helper whose listeners accept:
* if `dataSize < 12` and the stream holds `data` of `dataSize` bytes and then
  `rest`, `ReadTightData` returns `data` and leaves exactly `rest`;
* otherwise, if `ReadCompactLen` reads a compact length `L` and the stream then
  holds `blob` of `L` bytes and then `rest`, `ReadTightData` returns `blob`
  unchanged and leaves exactly `rest`; so it does in particular on the
  encoding of `L` by the construction rule, followed by `blob` and `rest`. -/
theorem ReadTightData_consumes (r : RfbReadHelper) (dataSize : Nat)
    (hacc : r.Listeners.acceptsAll) :
    (dataSize < 12 → ∀ data rest : List Byte, data.length = dataSize →
      r.Reader.data = data ++ rest →
      ∃ r', r.ReadTightData dataSize = (data, none, r') ∧ r'.Reader.data = rest) ∧
    (12 ≤ dataSize → ∀ (L : Nat) (r1 : RfbReadHelper) (blob rest : List Byte),
      r.ReadCompactLen = (L, none, r1) → blob.length = L → r1.Reader.data = blob ++ rest →
      ∃ r', r.ReadTightData dataSize = (blob, none, r') ∧ r'.Reader.data = rest) ∧
    (12 ≤ dataSize → ∀ (L : Nat) (blob rest : List Byte), L ≤ 2097151 → blob.length = L →
      r.Reader.data = compactLen L ++ (blob ++ rest) →
      ∃ r', r.ReadTightData dataSize = (blob, none, r') ∧ r'.Reader.data = rest) := by
  have hg := steady_of_acceptsAll r hacc
  refine ⟨?_, ?_, ?_⟩
  · intro hsmall data rest hlen hdata
    obtain ⟨r', hr, hd, _⟩ := ReadTightData_raw r dataSize data rest hg hsmall hlen hdata
    exact ⟨r', hr, hd⟩
  · intro hbig L r1 blob rest hlenr hlen hdata
    have hbig' : ¬ dataSize < TightMinToCompress := by unfold TightMinToCompress; omega
    have hg1 := ReadCompactLen_keeps_steady _ _ _ r hg
    rw [hlenr] at hg1
    subst hlen
    obtain ⟨r', hr, hd, _⟩ := ReadBytes_spec r1 blob rest hg1 hdata
    refine ⟨r', ?_, hd⟩
    simp only [RfbReadHelper.ReadTightData, if_neg hbig', hlenr, hr]
  · intro hbig L blob rest hL hlen hdata
    have hbig' : ¬ dataSize < TightMinToCompress := by unfold TightMinToCompress; omega
    obtain ⟨r', hr, hd, _⟩ :=
      ReadTightData_compact r dataSize L blob rest hg hbig' (by omega) hlen hdata
    exact ⟨r', hr, hd⟩

/-- C11, witness: 3 bytes of data are read raw, and 12 bytes of data arrive as
the compact length `0x02` followed by a two-byte blob; the byte `9` that
follows is left in both cases. -/
theorem ReadTightData_consumes_witness :
    (∃ r', RfbReadHelper.ReadTightData (NewRfbReadHelper ⟨[1, 2, 3, 9], [0], .EOF⟩) 3
        = ([1, 2, 3], none, r') ∧ r'.Reader.data = [9]) ∧
    (∃ r', RfbReadHelper.ReadTightData (NewRfbReadHelper ⟨[2, 7, 8, 9], [0], .EOF⟩) 12
        = ([7, 8], none, r') ∧ r'.Reader.data = [9]) ∧
    (∃ r', RfbReadHelper.ReadTightData
        (NewRfbReadHelper ⟨compactLen 2 ++ ([7, 8] ++ [9]), [0], .EOF⟩) 12
        = ([7, 8], none, r') ∧ r'.Reader.data = [9]) := by
  have hacc : ∀ t : Transport, (NewRfbReadHelper t).Listeners.acceptsAll := by
    intro t li hli; simp [NewRfbReadHelper] at hli
  exact ⟨(ReadTightData_consumes (NewRfbReadHelper ⟨[1, 2, 3, 9], [0], .EOF⟩) 3 (hacc _)).1
      (by decide) [1, 2, 3] [9] rfl rfl,
    (ReadTightData_consumes (NewRfbReadHelper ⟨[2, 7, 8, 9], [0], .EOF⟩) 12 (hacc _)).2.1
      (by decide) 2 _ [7, 8] [9] rfl rfl rfl,
    (ReadTightData_consumes (NewRfbReadHelper ⟨compactLen 2 ++ ([7, 8] ++ [9]), [0], .EOF⟩)
      12 (hacc _)).2.2 (by decide) 2 [7, 8] [9] (by decide) rfl rfl⟩

/-! ## Compact length: range -/

/-- C19 (as amended): 4,194,303 = 2^22 - 1 is the largest value the
compact-length reader can produce.  Whatever the stream holds and whatever the
outcome, the length `ReadCompactLen` returns is at most 4,194,303 (7 + 7 + 8
bits), and the stream `0xFF 0xFF 0xFF` is read without error as 4,194,303. -/
theorem ReadCompactLen_le_max (r : RfbReadHelper) :
    r.ReadCompactLen.1 ≤ 4194303 ∧
    ∃ r', (NewRfbReadHelper ⟨[0xFF, 0xFF, 0xFF], [], .EOF⟩).ReadCompactLen
      = (4194303, none, r') := by
  refine ⟨?_, ⟨_, rfl⟩⟩
  rcases h1 : r.ReadUint8 with ⟨p1, e1, r1⟩
  rcases h2 : r1.ReadUint8 with ⟨p2, e2, r2⟩
  rcases h3 : r2.ReadUint8 with ⟨p3, e3, r3⟩
  have hA : p1 % 128 % 2 ^ 32 = p1 % 128 := by omega
  have hB : (p1 % 128 + p2 % 128 * 128) % 2 ^ 32 = p1 % 128 + p2 % 128 * 128 := by omega
  have hlt7 : p1 % 128 < 128 := Nat.mod_lt _ (by decide)
  have hlt14 : p1 % 128 + p2 % 128 * 128 < 16384 := by omega
  simp only [RfbReadHelper.ReadCompactLen, h1, h2, h3, and_0x7F, and_0xFF, hA,
    or_shift7 _ _ hlt7, hB, or_shift14 _ _ hlt14]
  split
  · split
    · show (p1 % 128 + p2 % 128 * 128 + p3 % 256 * 16384) % 2 ^ 32 ≤ 4194303
      omega
    · show p1 % 128 + p2 % 128 * 128 ≤ 4194303
      omega
  · show p1 % 128 ≤ 4194303
    omega

/-- C19, counterexample: on the stream `0xFF 0xFF 0xFF` `ReadCompactLen`
succeeds and returns 4,194,303, which is more than 2,097,151. -/
theorem ReadCompactLen_exceeds_2097151 :
    (NewRfbReadHelper ⟨[0xFF, 0xFF, 0xFF], [], .EOF⟩).ReadCompactLen.1 = 4194303 ∧
    (NewRfbReadHelper ⟨[0xFF, 0xFF, 0xFF], [], .EOF⟩).ReadCompactLen.2.1 = none ∧
    ¬ ((NewRfbReadHelper ⟨[0xFF, 0xFF, 0xFF], [], .EOF⟩).ReadCompactLen.1 ≤ 2097151) := by
  decide

/-! ## TightPNG: PNG mode -/

/-- C12, the code on PNG mode: the mode `compctl >> 4 & 0x0F` is below 16 and
`TightPNG` is `0x10`, so no control byte selects the PNG branch.  The control
byte `0xA0` followed by the compact length 1 and one byte makes
`TightPngEncoding.Read` fail with "unknown tight compression 10", no encoding
returned and the two bytes after the control byte unread; so does the control
byte `0x10`, whose mode is 1. -/
theorem TightPng_no_control_byte_selects_png :
    (∀ compctl : Nat, (compctl >>> 4) &&& 0x0F ≠ TightPNG) ∧
    (∃ o, TightPngEncoding.Read ⟨[]⟩ ⟨32, 24, 0, 1, 255, 255, 255, 16, 8, 0⟩ ⟨0, 0, 10, 10⟩
        (NewRfbReadHelper ⟨[0xA0, 1, 7], [], .EOF⟩) = some o ∧
      o.err = some (.errorf "unknown tight compression 10") ∧ o.enc = none ∧
      o.r.Reader.data = [1, 7]) ∧
    (∃ o, TightPngEncoding.Read ⟨[]⟩ ⟨32, 24, 0, 1, 255, 255, 255, 16, 8, 0⟩ ⟨0, 0, 10, 10⟩
        (NewRfbReadHelper ⟨[0x10, 1, 7], [], .EOF⟩) = some o ∧
      o.err = some (.errorf "unknown tight compression 1") ∧ o.enc = none ∧
      o.r.Reader.data = [1, 7]) := by
  refine ⟨?_, ⟨_, rfl, by decide⟩, ⟨_, rfl, by decide⟩⟩
  intro compctl h
  have hlt : (compctl >>> 4) &&& 0x0F < 16 := by
    have : (compctl >>> 4) &&& 0x0F = (compctl >>> 4) % 16 :=
      Nat.and_pow_two_sub_one_eq_mod _ 4
    rw [this]; exact Nat.mod_lt _ (by decide)
  rw [h] at hlt
  exact absurd hlt (by decide)

/-! ## LED state -/

/-- C13, the code at a 256x256 rectangle: width and height are 16-bit values
and the area 65536 is not zero, yet `EncLedStatePseudo.Read` returns without
error, leaves the pending byte `5` unread and `LedState` as it was: the
`uint16` product `rect.Width*rect.Height` has wrapped to 0. -/
theorem LedState_Read_area_wraps :
    (256 : Nat) ≤ 65535 ∧ (256 : Nat) * 256 ≠ 0 ∧
    (EncLedStatePseudo.Read ⟨0⟩ ⟨32, 24, 0, 1, 255, 255, 255, 16, 8, 0⟩ ⟨0, 0, 256, 256⟩
        (NewRfbReadHelper ⟨[5], [], .EOF⟩)).1 = ⟨0⟩ ∧
    (EncLedStatePseudo.Read ⟨0⟩ ⟨32, 24, 0, 1, 255, 255, 255, 16, 8, 0⟩ ⟨0, 0, 256, 256⟩
        (NewRfbReadHelper ⟨[5], [], .EOF⟩)).2.1 = none ∧
    (EncLedStatePseudo.Read ⟨0⟩ ⟨32, 24, 0, 1, 255, 255, 255, 16, 8, 0⟩ ⟨0, 0, 256, 256⟩
        (NewRfbReadHelper ⟨[5], [], .EOF⟩)).2.2.Reader.data = [5] ∧
    (EncLedStatePseudo.Read ⟨0⟩ ⟨32, 24, 0, 1, 255, 255, 255, 16, 8, 0⟩ ⟨0, 0, 1, 1⟩
        (NewRfbReadHelper ⟨[5], [], .EOF⟩)).1 = ⟨5⟩ ∧
    (EncLedStatePseudo.Read ⟨0⟩ ⟨32, 24, 0, 1, 255, 255, 255, 16, 8, 0⟩ ⟨0, 0, 1, 1⟩
        (NewRfbReadHelper ⟨[5], [], .EOF⟩)).2.2.Reader.data = [] := by
  decide

/-! ## Pixel format: framing -/

/-- On a transport that holds fewer bytes than the buffer still lacks, the loop
takes what there is and ends with the transport's closing error. -/
theorem readAtLeastLoop_short :
    ∀ (fuel : Nat) (t : Transport) (buf : List Byte) (n : Nat),
      t.data.length < buf.length - n → t.data.length < fuel →
      (readAtLeastLoop Transport.Read fuel t buf buf.length n).err = some t.closeErr ∧
      (readAtLeastLoop Transport.Read fuel t buf buf.length n).n = n + t.data.length := by
  intro fuel
  induction fuel with
  | zero => intro t buf n _ h; omega
  | succ fuel ih =>
    intro t buf n hshort hfuel
    have hn : n < buf.length := by omega
    rw [readAtLeastLoop, if_pos hn]
    by_cases hdata : t.data = []
    · have hread : t.Read (buf.drop n) = ⟨0, some t.closeErr, buf.drop n, t⟩ := by
        simp [Transport.Read, hdata]
      simp [hread, hdata]
    · have hp : buf.drop n ≠ [] := by
        intro h
        have := congrArg List.length h
        simp at this; omega
      obtain ⟨k, t', hk0, hkp, hkd, hread, hdata', hclose⟩ :=
        Transport_handsOut t.closeErr t (buf.drop n) rfl hdata hp
      have hlen : (buf.take n ++ (t.data.take k ++ (buf.drop n).drop k)).length
          = buf.length := by
        simp [List.length_take, List.length_drop]; omega
      have hd'len : t'.data.length = t.data.length - k := by
        rw [hdata']; simp
      have := ih t' (buf.take n ++ (t.data.take k ++ (buf.drop n).drop k)) (n + k)
        (by rw [hlen, hd'len]; omega) (by rw [hd'len]; omega)
      rw [hlen, hclose, hd'len] at this
      simp only [hread]
      refine ⟨this.1, ?_⟩
      rw [this.2]; omega

/-- `io.ReadFull` from a transport that holds fewer bytes than the buffer
returns an error. -/
theorem ReadFull_short (t : Transport) (buf : List Byte) (h : t.data.length < buf.length) :
    (ReadFull Transport.Read t buf).err ≠ none := by
  obtain ⟨herr, hn⟩ := readAtLeastLoop_short buf.length t buf 0 (by omega) h
  simp only [ReadFull]
  have hlt : ¬ (readAtLeastLoop Transport.Read buf.length t buf buf.length 0).n
      ≥ buf.length := by
    rw [hn]; omega
  rw [if_neg hlt]
  split
  · simp
  · rw [herr]; simp

theorem exists_cons_of_succ_le (l : List Byte) (n : Nat) (h : n + 1 ≤ l.length) :
    ∃ b t, l = b :: t ∧ n ≤ t.length := by
  cases l with
  | nil => simp at h
  | cons b t => exact ⟨b, t, rfl, by simpa using h⟩

/-- A stream of at least 16 bytes, spelled out. -/
theorem exists_sixteen (l : List Byte) (h : 16 ≤ l.length) :
    ∃ b0 b1 b2 b3 b4 b5 b6 b7 b8 b9 b10 b11 b12 b13 b14 b15 rest,
      l = b0 :: b1 :: b2 :: b3 :: b4 :: b5 :: b6 :: b7 :: b8 :: b9 :: b10 :: b11 :: b12 ::
        b13 :: b14 :: b15 :: rest := by
  obtain ⟨b0, l0, hl0, h0⟩ := exists_cons_of_succ_le l 15 h
  obtain ⟨b1, l1, hl1, h1⟩ := exists_cons_of_succ_le l0 14 h0
  obtain ⟨b2, l2, hl2, h2⟩ := exists_cons_of_succ_le l1 13 h1
  obtain ⟨b3, l3, hl3, h3⟩ := exists_cons_of_succ_le l2 12 h2
  obtain ⟨b4, l4, hl4, h4⟩ := exists_cons_of_succ_le l3 11 h3
  obtain ⟨b5, l5, hl5, h5⟩ := exists_cons_of_succ_le l4 10 h4
  obtain ⟨b6, l6, hl6, h6⟩ := exists_cons_of_succ_le l5 9 h5
  obtain ⟨b7, l7, hl7, h7⟩ := exists_cons_of_succ_le l6 8 h6
  obtain ⟨b8, l8, hl8, h8⟩ := exists_cons_of_succ_le l7 7 h7
  obtain ⟨b9, l9, hl9, h9⟩ := exists_cons_of_succ_le l8 6 h8
  obtain ⟨b10, l10, hl10, h10⟩ := exists_cons_of_succ_le l9 5 h9
  obtain ⟨b11, l11, hl11, h11⟩ := exists_cons_of_succ_le l10 4 h10
  obtain ⟨b12, l12, hl12, h12⟩ := exists_cons_of_succ_le l11 3 h11
  obtain ⟨b13, l13, hl13, h13⟩ := exists_cons_of_succ_le l12 2 h12
  obtain ⟨b14, l14, hl14, h14⟩ := exists_cons_of_succ_le l13 1 h13
  obtain ⟨b15, l15, hl15, h15⟩ := exists_cons_of_succ_le l14 0 h14
  subst hl15 hl14 hl13 hl12 hl11 hl10 hl9 hl8 hl7 hl6 hl5 hl4 hl3 hl2 hl1 hl0
  exact ⟨b0, b1, b2, b3, b4, b5, b6, b7, b8, b9, b10, b11, b12, b13, b14, b15, l15, rfl⟩

/-- On a stream that starts with 16 bytes `readPixelFormat` succeeds and leaves
what follows them.  The fields read are the first two bytes, the two flags and,
when the true-colour byte is not zero, the six colour fields; the other fields
of `result` stay as they were. -/
theorem readPixelFormat_sixteen (b0 b1 b2 b3 b4 b5 b6 b7 b8 b9 b10 b11 b12 b13 b14 b15 : Byte)
    (rest : List Byte) (chunks : List Nat) (closeErr : GoError) (result : PixelFormat) :
    ∃ chunks', readPixelFormat
        ⟨b0 :: b1 :: b2 :: b3 :: b4 :: b5 :: b6 :: b7 :: b8 :: b9 :: b10 :: b11 :: b12 ::
          b13 :: b14 :: b15 :: rest, chunks, closeErr⟩ result
      = (none,
         if b3 ≠ 0 then
           { BPP := b0, Depth := b1, BigEndian := if b2 ≠ 0 then 1 else result.BigEndian,
             TrueColor := 1, RedMax := b4 * 256 + b5, GreenMax := b6 * 256 + b7,
             BlueMax := b8 * 256 + b9, RedShift := b10, GreenShift := b11, BlueShift := b12 }
         else
           { result with BPP := b0, Depth := b1,
                         BigEndian := if b2 ≠ 0 then 1 else result.BigEndian },
         ⟨rest, chunks', closeErr⟩) := by
  obtain ⟨t, hfull, hdata, hclose⟩ :=
    ReadFull_spec (Transport_handsOut closeErr)
      ⟨b0 :: b1 :: b2 :: b3 :: b4 :: b5 :: b6 :: b7 :: b8 :: b9 :: b10 :: b11 :: b12 ::
        b13 :: b14 :: b15 :: rest, chunks, closeErr⟩
      (List.replicate 16 0)
      [b0, b1, b2, b3, b4, b5, b6, b7, b8, b9, b10, b11, b12, b13, b14, b15] rest rfl rfl rfl
  obtain ⟨data, chunks', closeErr'⟩ := t
  simp only at hdata hclose
  subst hdata hclose
  refine ⟨chunks', ?_⟩
  simp only [readPixelFormat, hfull]
  simp only [readU8, readU16, readColors]
  by_cases h3 : b3 = 0 <;> by_cases h2 : b2 = 0 <;> simp [h2, h3]

/-- C17: `readPixelFormat` frames exactly 16 bytes.  From a stream that holds
fewer than 16 bytes it returns an error; from a stream that holds at least 16
bytes it succeeds and leaves exactly what follows the first 16, whatever those
are (true-colour byte zero or not) and whatever `result` held. -/
theorem readPixelFormat_frames_sixteen_bytes (r : Transport) (result : PixelFormat) :
    (r.data.length < 16 → (readPixelFormat r result).1 ≠ none) ∧
    (16 ≤ r.data.length →
      (readPixelFormat r result).1 = none ∧
      (readPixelFormat r result).2.2.data = r.data.drop 16) := by
  constructor
  · intro hshort
    have herr := ReadFull_short r (List.replicate 16 0) (by simpa using hshort)
    simp only [readPixelFormat]
    split
    · simp
    · next heq => exact absurd heq herr
  · intro hlong
    obtain ⟨data, chunks, closeErr⟩ := r
    obtain ⟨b0, b1, b2, b3, b4, b5, b6, b7, b8, b9, b10, b11, b12, b13, b14, b15, rest, hdata⟩ :=
      exists_sixteen data hlong
    subst hdata
    obtain ⟨chunks', h⟩ := readPixelFormat_sixteen b0 b1 b2 b3 b4 b5 b6 b7 b8 b9 b10 b11 b12
      b13 b14 b15 rest chunks closeErr result
    rw [h]
    exact ⟨rfl, rfl⟩

/-- C17, witness: 15 bytes make `readPixelFormat` fail; 17 bytes, with the
true-colour byte 0 and with the true-colour byte 1, make it succeed and leave
the 17th byte. -/
theorem readPixelFormat_frames_sixteen_bytes_witness :
    (readPixelFormat ⟨[32, 24, 0, 1, 0, 255, 0, 255, 0, 255, 16, 8, 0, 0, 0], [], .EOF⟩
      PixelFormat.zero).1 ≠ none ∧
    (readPixelFormat ⟨[32, 24, 0, 0, 0, 255, 0, 255, 0, 255, 16, 8, 0, 0, 0, 0, 77], [2], .EOF⟩
      PixelFormat.zero).1 = none ∧
    (readPixelFormat ⟨[32, 24, 0, 0, 0, 255, 0, 255, 0, 255, 16, 8, 0, 0, 0, 0, 77], [2], .EOF⟩
      PixelFormat.zero).2.2.data = [77] ∧
    (readPixelFormat ⟨[32, 24, 0, 1, 0, 255, 0, 255, 0, 255, 16, 8, 0, 0, 0, 0, 77], [2], .EOF⟩
      PixelFormat.zero).1 = none ∧
    (readPixelFormat ⟨[32, 24, 0, 1, 0, 255, 0, 255, 0, 255, 16, 8, 0, 0, 0, 0, 77], [2], .EOF⟩
      PixelFormat.zero).2.2.data = [77] :=
  ⟨(readPixelFormat_frames_sixteen_bytes
      ⟨[32, 24, 0, 1, 0, 255, 0, 255, 0, 255, 16, 8, 0, 0, 0], [], .EOF⟩ PixelFormat.zero).1
      (by decide),
   ((readPixelFormat_frames_sixteen_bytes
      ⟨[32, 24, 0, 0, 0, 255, 0, 255, 0, 255, 16, 8, 0, 0, 0, 0, 77], [2], .EOF⟩
      PixelFormat.zero).2 (by decide)).1,
   ((readPixelFormat_frames_sixteen_bytes
      ⟨[32, 24, 0, 0, 0, 255, 0, 255, 0, 255, 16, 8, 0, 0, 0, 0, 77], [2], .EOF⟩
      PixelFormat.zero).2 (by decide)).2,
   ((readPixelFormat_frames_sixteen_bytes
      ⟨[32, 24, 0, 1, 0, 255, 0, 255, 0, 255, 16, 8, 0, 0, 0, 0, 77], [2], .EOF⟩
      PixelFormat.zero).2 (by decide)).1,
   ((readPixelFormat_frames_sixteen_bytes
      ⟨[32, 24, 0, 1, 0, 255, 0, 255, 0, 255, 16, 8, 0, 0, 0, 0, 77], [2], .EOF⟩
      PixelFormat.zero).2 (by decide)).2⟩

/-- C18 (as amended): for every 16-byte input whose true-colour byte (the
fourth byte) is 0, whatever the other 15 bytes are, `readPixelFormat` succeeds;
decoding into a zero-valued PixelFormat, the six colour fields and the
`TrueColor` flag of the result are zero; decoding into any PixelFormat, these
seven fields are left as they were. -/
theorem readPixelFormat_trueColor_zero
    (b0 b1 b2 b4 b5 b6 b7 b8 b9 b10 b11 b12 b13 b14 b15 : Byte)
    (rest : List Byte) (chunks : List Nat) (closeErr : GoError) :
    (∃ chunks' pf, readPixelFormat
        ⟨b0 :: b1 :: b2 :: 0 :: b4 :: b5 :: b6 :: b7 :: b8 :: b9 :: b10 :: b11 :: b12 ::
          b13 :: b14 :: b15 :: rest, chunks, closeErr⟩ PixelFormat.zero
        = (none, pf, ⟨rest, chunks', closeErr⟩) ∧
      pf.TrueColor = 0 ∧ pf.RedMax = 0 ∧ pf.GreenMax = 0 ∧ pf.BlueMax = 0 ∧
      pf.RedShift = 0 ∧ pf.GreenShift = 0 ∧ pf.BlueShift = 0) ∧
    (∀ result : PixelFormat, ∃ chunks' pf, readPixelFormat
        ⟨b0 :: b1 :: b2 :: 0 :: b4 :: b5 :: b6 :: b7 :: b8 :: b9 :: b10 :: b11 :: b12 ::
          b13 :: b14 :: b15 :: rest, chunks, closeErr⟩ result
        = (none, pf, ⟨rest, chunks', closeErr⟩) ∧
      pf.TrueColor = result.TrueColor ∧ pf.RedMax = result.RedMax ∧
      pf.GreenMax = result.GreenMax ∧ pf.BlueMax = result.BlueMax ∧
      pf.RedShift = result.RedShift ∧ pf.GreenShift = result.GreenShift ∧
      pf.BlueShift = result.BlueShift) := by
  have hgen : ∀ result : PixelFormat, ∃ chunks' pf, readPixelFormat
        ⟨b0 :: b1 :: b2 :: 0 :: b4 :: b5 :: b6 :: b7 :: b8 :: b9 :: b10 :: b11 :: b12 ::
          b13 :: b14 :: b15 :: rest, chunks, closeErr⟩ result
        = (none, pf, ⟨rest, chunks', closeErr⟩) ∧
      pf.TrueColor = result.TrueColor ∧ pf.RedMax = result.RedMax ∧
      pf.GreenMax = result.GreenMax ∧ pf.BlueMax = result.BlueMax ∧
      pf.RedShift = result.RedShift ∧ pf.GreenShift = result.GreenShift ∧
      pf.BlueShift = result.BlueShift := by
    intro result
    obtain ⟨chunks', h⟩ := readPixelFormat_sixteen b0 b1 b2 0 b4 b5 b6 b7 b8 b9 b10 b11 b12
      b13 b14 b15 rest chunks closeErr result
    rw [if_neg (by simp)] at h
    exact ⟨chunks', _, h, rfl, rfl, rfl, rfl, rfl, rfl, rfl⟩
  refine ⟨?_, hgen⟩
  obtain ⟨chunks', pf, h, h1, h2, h3, h4, h5, h6, h7⟩ := hgen PixelFormat.zero
  exact ⟨chunks', pf, h, h1, h2, h3, h4, h5, h6, h7⟩

/-- C18, counterexample: decoding the 16 bytes `32, 24, 0, 0, 0, ...` (true-colour
byte 0) into a PixelFormat that holds `TrueColor = 1` and 8-bit channels
succeeds and leaves `TrueColor = 1`, `RedMax = 255` and the other colour fields
as they were, not zero. -/
theorem readPixelFormat_trueColor_zero_keeps_old_fields :
    readPixelFormat ⟨[32, 24, 0, 0, 0, 0, 0, 0, 0, 0, 0, 0, 0, 0, 0, 0], [], .EOF⟩
        ⟨8, 8, 0, 1, 255, 255, 255, 16, 8, 0⟩
      = (none, ⟨32, 24, 0, 1, 255, 255, 255, 16, 8, 0⟩, ⟨[], [], .EOF⟩) ∧
    (⟨32, 24, 0, 1, 255, 255, 255, 16, 8, 0⟩ : PixelFormat).TrueColor ≠ 0 ∧
    (⟨32, 24, 0, 1, 255, 255, 255, 16, 8, 0⟩ : PixelFormat).RedMax ≠ 0 := by
  decide

/-! ## Transport errors -/

/-- C20 (as amended): for every buffer, when the transport's `Read` returns an
error `e`, `RfbReadHelper.Read` fails with `n = 0` and publishes no segment.
The error it returns is the one built at that `return`,
`fmt.Errorf("failed to read RFB bytes onto buffer")`, an error of the helper's
own layer: it wraps nothing (`errors.Unwrap` gives nil, so the errors that
`errors.Is` and `errors.As` examine are this error alone), `errors.Is` matches
it with no error of another value, in particular not with `e` unless `e` has
that very text, and it is the same error for every helper, buffer and
transport error, so nothing of `e` can be recovered from it. -/
theorem Read_transport_error (r : RfbReadHelper) (p : List Byte) (e : GoError)
    (h : (r.Reader.Read p).err = some e) :
    (r.Read p).n = 0 ∧
    (r.Read p).r.Listeners.delivered = r.Listeners.delivered ∧
    (r.Read p).err = some (.errorf "failed to read RFB bytes onto buffer") ∧
    (∀ err, (r.Read p).err = some err →
      err.Unwrap = none ∧ err.chain = [err] ∧
      (∀ target : GoError, target ≠ err → err.Is target = false) ∧
      (e ≠ .errorf "failed to read RFB bytes onto buffer" → err ≠ e ∧ err.Is e = false)) ∧
    (∀ (r2 : RfbReadHelper) (p2 : List Byte) (e2 : GoError),
      (r2.Reader.Read p2).err = some e2 → (r2.Read p2).err = (r.Read p).err) := by
  have hval : ∀ (r : RfbReadHelper) (p : List Byte) (e : GoError),
      (r.Reader.Read p).err = some e →
      (r.Read p).err = some (.errorf "failed to read RFB bytes onto buffer") := by
    intro r p e h
    simp [RfbReadHelper.Read, h]
  have his : ∀ target : GoError, target ≠ .errorf "failed to read RFB bytes onto buffer" →
      (GoError.errorf "failed to read RFB bytes onto buffer").Is target = false := by
    intro target ht
    simp only [GoError.Is, decide_eq_false_iff_not]
    exact fun heq => ht heq.symm
  refine ⟨?_, ?_, hval r p e h, ?_, ?_⟩
  · simp [RfbReadHelper.Read, h]
  · simp [RfbReadHelper.Read, h]
  · intro err herr
    rw [hval r p e h] at herr
    cases herr
    exact ⟨rfl, rfl, his, fun hne => ⟨fun heq => hne heq.symm, his e hne⟩⟩
  · intro r2 p2 e2 h2
    rw [hval r p e h, hval r2 p2 e2 h2]

/-- C20, witness: the transport is at its end and reports `io.EOF`. -/
theorem Read_transport_error_witness :
    (Transport.Read ⟨[], [], .EOF⟩ [0, 0]).err = some .EOF ∧
    ((NewRfbReadHelper ⟨[], [], .EOF⟩).Read [0, 0]).n = 0 ∧
    ((NewRfbReadHelper ⟨[], [], .EOF⟩).Read [0, 0]).r.Listeners.delivered = [] ∧
    ((NewRfbReadHelper ⟨[], [], .EOF⟩).Read [0, 0]).err
      = some (.errorf "failed to read RFB bytes onto buffer") ∧
    (∀ err, ((NewRfbReadHelper ⟨[], [], .EOF⟩).Read [0, 0]).err = some err →
      err.Unwrap = none ∧ err.chain = [err] ∧
      (∀ target : GoError, target ≠ err → err.Is target = false) ∧
      (GoError.EOF ≠ .errorf "failed to read RFB bytes onto buffer" →
        err ≠ .EOF ∧ err.Is .EOF = false)) ∧
    (∀ (r2 : RfbReadHelper) (p2 : List Byte) (e2 : GoError),
      (r2.Reader.Read p2).err = some e2 →
      (r2.Read p2).err = ((NewRfbReadHelper ⟨[], [], .EOF⟩).Read [0, 0]).err) :=
  ⟨rfl, Read_transport_error (NewRfbReadHelper ⟨[], [], .EOF⟩) [0, 0] .EOF rfl⟩

/-- C20, counterexample: the transport returns `io.EOF`, and so does one that
returns `io.EOF` wrapped by the network stack.  In both cases the error
`RfbReadHelper.Read` returns is the `errorString` "failed to read RFB bytes
onto buffer": it is not `io.EOF`, `errors.Unwrap` gives nil for it, the only
error on its chain is itself, and `errors.Is(err, io.EOF)` is false.  An error
that did wrap `io.EOF` would give it back from `Unwrap` and match it. -/
theorem Read_transport_error_not_wrapped :
    (Transport.Read ⟨[], [], .EOF⟩ [0, 0]).err = some .EOF ∧
    ((NewRfbReadHelper ⟨[], [], .EOF⟩).Read [0, 0]).err
      = some (.errorf "failed to read RFB bytes onto buffer") ∧
    (Transport.Read ⟨[], [], .wrapf "read tcp: EOF" .EOF⟩ [0, 0]).err
      = some (.wrapf "read tcp: EOF" .EOF) ∧
    ((NewRfbReadHelper ⟨[], [], .wrapf "read tcp: EOF" .EOF⟩).Read [0, 0]).err
      = some (.errorf "failed to read RFB bytes onto buffer") ∧
    (GoError.errorf "failed to read RFB bytes onto buffer").Unwrap = none ∧
    (GoError.errorf "failed to read RFB bytes onto buffer").chain
      = [.errorf "failed to read RFB bytes onto buffer"] ∧
    (GoError.errorf "failed to read RFB bytes onto buffer").Is .EOF = false ∧
    GoError.errorf "failed to read RFB bytes onto buffer" ≠ .EOF ∧
    (GoError.wrapf "failed to read RFB bytes onto buffer: EOF" .EOF).Unwrap = some .EOF ∧
    (GoError.wrapf "failed to read RFB bytes onto buffer: EOF" .EOF).Is .EOF = true := by
  decide

/-! ## Viewer-facing phases -/

/-- C16: once the connection is created, `attachNewServerConn` calls the phases
in the fixed order version handshake, security handshake, connection handler,
client-init, server-init, message loop, each on the state the one before left,
up to and including the first that returns an error, and then `conn.Close()`:
the error returned and the state left are those of `runUntilError` followed by
`Close`.  Run with the callees under observation, the calls made, read off the
state at the end, are the phases `ran` followed by one `Close` and nothing
else; `ran` is what `runUntilError` runs, an initial piece of the fixed order (so no phase is called
twice, and the connection handler comes before client-init and server-init),
every phase of `ran` but the last returned nil (no phase is called after one
that failed), the error returned is exactly what the last phase called
returned, and all six are called when the result is nil. -/
theorem attachNewServerConn_phases {ω : Type} (env : ServerCallees ω) (UseDummySession : Bool)
    (sessionId : String) (w : ω) (hnew : (env.NewServerConn w).1 = none) :
    attachNewServerConn env UseDummySession sessionId w
      = ((runUntilError (env.phase UseDummySession sessionId) Phase.order
            (env.NewServerConn w).2).1,
         env.Close (runUntilError (env.phase UseDummySession sessionId) Phase.order
            (env.NewServerConn w).2).2.2) ∧
    ∃ ran : List (Phase × Option GoError),
      attachNewServerConn env.recorded UseDummySession sessionId (w, [])
        = ((attachNewServerConn env UseDummySession sessionId w).1,
           (attachNewServerConn env UseDummySession sessionId w).2,
           ran.map (fun x => Call.phase x.1 x.2) ++ [Call.Close]) ∧
      ran = (runUntilError (env.phase UseDummySession sessionId) Phase.order
            (env.NewServerConn w).2).2.1 ∧
      ran ≠ [] ∧
      ran.map (fun x => x.1) = Phase.order.take ran.length ∧
      (ran.map (fun x => x.1)).Nodup ∧
      (∀ x ∈ ran.dropLast, x.2 = none) ∧
      ran.getLast?.map (fun x => x.2)
        = some (attachNewServerConn env UseDummySession sessionId w).1 ∧
      ((attachNewServerConn env UseDummySession sessionId w).1 = none →
        ran.map (fun x => x.1) = Phase.order) := by
  rcases h0 : env.NewServerConn w with ⟨e0, w0⟩
  rw [h0] at hnew
  simp only at hnew
  subst hnew
  cases UseDummySession
  · rcases h1 : env.run .ServerVersionHandler w0 with ⟨_ | e1, w1⟩
    · rcases h2 : env.run .ServerSecurityHandler w1 with ⟨_ | e2, w2⟩
      · rcases h3 : env.run .NewConnHandler w2 with ⟨_ | e3, w3⟩
        · rcases h4 : env.run .ServerClientInitHandler w3 with ⟨_ | e4, w4⟩
          · rcases h5 : env.run .ServerServerInitHandler w4 with ⟨_ | e5, w5⟩
            · rcases h6 : env.run .handle (env.setSessionId sessionId w5) with ⟨_ | e6, w6⟩
              · exact ⟨by simp [attachNewServerConn, attachBody, ServerCallees.recorded,
                  ServerCallees.phase,
                    runUntilError, Phase.order, h0, h1, h2, h3, h4, h5, h6],
                  [(.ServerVersionHandler, none), (.ServerSecurityHandler, none),
                      (.NewConnHandler, none), (.ServerClientInitHandler, none),
                          (.ServerServerInitHandler, none), (.handle, none)],
                  by simp [attachNewServerConn, attachBody, ServerCallees.recorded,
                      ServerCallees.phase,
                    runUntilError, Phase.order, h0, h1, h2, h3, h4, h5, h6]⟩
              · exact ⟨by simp [attachNewServerConn, attachBody, ServerCallees.recorded,
                  ServerCallees.phase,
                    runUntilError, Phase.order, h0, h1, h2, h3, h4, h5, h6],
                  [(.ServerVersionHandler, none), (.ServerSecurityHandler, none),
                      (.NewConnHandler, none), (.ServerClientInitHandler, none),
                          (.ServerServerInitHandler, none), (.handle, some e6)],
                  by simp [attachNewServerConn, attachBody, ServerCallees.recorded,
                      ServerCallees.phase,
                    runUntilError, Phase.order, h0, h1, h2, h3, h4, h5, h6]⟩
            · exact ⟨by simp [attachNewServerConn, attachBody, ServerCallees.recorded,
                ServerCallees.phase,
                  runUntilError, Phase.order, h0, h1, h2, h3, h4, h5],
                [(.ServerVersionHandler, none), (.ServerSecurityHandler, none), (.NewConnHandler,
                    none), (.ServerClientInitHandler, none), (.ServerServerInitHandler, some e5)],
                by simp [attachNewServerConn, attachBody, ServerCallees.recorded,
                    ServerCallees.phase,
                  runUntilError, Phase.order, h0, h1, h2, h3, h4, h5]⟩
          · exact ⟨by simp [attachNewServerConn, attachBody, ServerCallees.recorded,
              ServerCallees.phase,
                runUntilError, Phase.order, h0, h1, h2, h3, h4],
              [(.ServerVersionHandler, none), (.ServerSecurityHandler, none), (.NewConnHandler,
                  none), (.ServerClientInitHandler, some e4)],
              by simp [attachNewServerConn, attachBody, ServerCallees.recorded, ServerCallees.phase,
                runUntilError, Phase.order, h0, h1, h2, h3, h4]⟩
        · exact ⟨by simp [attachNewServerConn, attachBody, ServerCallees.recorded,
            ServerCallees.phase,
              runUntilError, Phase.order, h0, h1, h2, h3],
            [(.ServerVersionHandler, none), (.ServerSecurityHandler, none), (.NewConnHandler,
                some e3)],
            by simp [attachNewServerConn, attachBody, ServerCallees.recorded, ServerCallees.phase,
              runUntilError, Phase.order, h0, h1, h2, h3]⟩
      · exact ⟨by simp [attachNewServerConn, attachBody, ServerCallees.recorded,
          ServerCallees.phase,
            runUntilError, Phase.order, h0, h1, h2],
          [(.ServerVersionHandler, none), (.ServerSecurityHandler, some e2)],
          by simp [attachNewServerConn, attachBody, ServerCallees.recorded, ServerCallees.phase,
            runUntilError, Phase.order, h0, h1, h2]⟩
    · exact ⟨by simp [attachNewServerConn, attachBody, ServerCallees.recorded, ServerCallees.phase,
          runUntilError, Phase.order, h0, h1],
        [(.ServerVersionHandler, some e1)],
        by simp [attachNewServerConn, attachBody, ServerCallees.recorded, ServerCallees.phase,
          runUntilError, Phase.order, h0, h1]⟩
  · rcases h1 : env.run .ServerVersionHandler w0 with ⟨_ | e1, w1⟩
    · rcases h2 : env.run .ServerSecurityHandler w1 with ⟨_ | e2, w2⟩
      · rcases h3 : env.run .NewConnHandler w2 with ⟨_ | e3, w3⟩
        · rcases h4 : env.run .ServerClientInitHandler w3 with ⟨_ | e4, w4⟩
          · rcases h5 : env.run .ServerServerInitHandler w4 with ⟨_ | e5, w5⟩
            · rcases h6 : env.run .handle (env.setSessionId "dummySession" (env.setSessionId sessionId w5)) with ⟨_ | e6, w6⟩
              · exact ⟨by simp [attachNewServerConn, attachBody, ServerCallees.recorded,
                  ServerCallees.phase,
                    runUntilError, Phase.order, h0, h1, h2, h3, h4, h5, h6],
                  [(.ServerVersionHandler, none), (.ServerSecurityHandler, none),
                      (.NewConnHandler, none), (.ServerClientInitHandler, none),
                          (.ServerServerInitHandler, none), (.handle, none)],
                  by simp [attachNewServerConn, attachBody, ServerCallees.recorded,
                      ServerCallees.phase,
                    runUntilError, Phase.order, h0, h1, h2, h3, h4, h5, h6]⟩
              · exact ⟨by simp [attachNewServerConn, attachBody, ServerCallees.recorded,
                  ServerCallees.phase,
                    runUntilError, Phase.order, h0, h1, h2, h3, h4, h5, h6],
                  [(.ServerVersionHandler, none), (.ServerSecurityHandler, none),
                      (.NewConnHandler, none), (.ServerClientInitHandler, none),
                          (.ServerServerInitHandler, none), (.handle, some e6)],
                  by simp [attachNewServerConn, attachBody, ServerCallees.recorded,
                      ServerCallees.phase,
                    runUntilError, Phase.order, h0, h1, h2, h3, h4, h5, h6]⟩
            · exact ⟨by simp [attachNewServerConn, attachBody, ServerCallees.recorded,
                ServerCallees.phase,
                  runUntilError, Phase.order, h0, h1, h2, h3, h4, h5],
                [(.ServerVersionHandler, none), (.ServerSecurityHandler, none), (.NewConnHandler,
                    none), (.ServerClientInitHandler, none), (.ServerServerInitHandler, some e5)],
                by simp [attachNewServerConn, attachBody, ServerCallees.recorded,
                    ServerCallees.phase,
                  runUntilError, Phase.order, h0, h1, h2, h3, h4, h5]⟩
          · exact ⟨by simp [attachNewServerConn, attachBody, ServerCallees.recorded,
              ServerCallees.phase,
                runUntilError, Phase.order, h0, h1, h2, h3, h4],
              [(.ServerVersionHandler, none), (.ServerSecurityHandler, none), (.NewConnHandler,
                  none), (.ServerClientInitHandler, some e4)],
              by simp [attachNewServerConn, attachBody, ServerCallees.recorded, ServerCallees.phase,
                runUntilError, Phase.order, h0, h1, h2, h3, h4]⟩
        · exact ⟨by simp [attachNewServerConn, attachBody, ServerCallees.recorded,
            ServerCallees.phase,
              runUntilError, Phase.order, h0, h1, h2, h3],
            [(.ServerVersionHandler, none), (.ServerSecurityHandler, none), (.NewConnHandler,
                some e3)],
            by simp [attachNewServerConn, attachBody, ServerCallees.recorded, ServerCallees.phase,
              runUntilError, Phase.order, h0, h1, h2, h3]⟩
      · exact ⟨by simp [attachNewServerConn, attachBody, ServerCallees.recorded,
          ServerCallees.phase,
            runUntilError, Phase.order, h0, h1, h2],
          [(.ServerVersionHandler, none), (.ServerSecurityHandler, some e2)],
          by simp [attachNewServerConn, attachBody, ServerCallees.recorded, ServerCallees.phase,
            runUntilError, Phase.order, h0, h1, h2]⟩
    · exact ⟨by simp [attachNewServerConn, attachBody, ServerCallees.recorded, ServerCallees.phase,
          runUntilError, Phase.order, h0, h1],
        [(.ServerVersionHandler, some e1)],
        by simp [attachNewServerConn, attachBody, ServerCallees.recorded, ServerCallees.phase,
          runUntilError, Phase.order, h0, h1]⟩

/-- C16, witness: the state counts the phases called (one each) and `Close`
(one hundred); the connection handler is the first phase to fail, with
`io.EOF`.  The version and security handshakes and the handler have been
called, in this order, then `Close`; client-init, server-init and the message
loop have not; `attachNewServerConn` returns `io.EOF`. -/
theorem attachNewServerConn_phases_witness :
    ((fun w : Nat => ((none : Option GoError), w)) 0).1 = none ∧
    attachNewServerConn
      { NewServerConn := fun w : Nat => (none, w),
        run := fun ph w => (if ph = .NewConnHandler then some .EOF else none, w + 1),
        setSessionId := fun _ w => w,
        Close := fun w => w + 100 } true "s" 0
      = (some .EOF, 103) ∧
    attachNewServerConn
      (ServerCallees.recorded
      { NewServerConn := fun w : Nat => (none, w),
        run := fun ph w => (if ph = .NewConnHandler then some .EOF else none, w + 1),
        setSessionId := fun _ w => w,
        Close := fun w => w + 100 }) true "s" (0, [])
      = (some .EOF, 103,
          [Call.phase .ServerVersionHandler none, Call.phase .ServerSecurityHandler none,
           Call.phase .NewConnHandler (some .EOF), Call.Close]) ∧
    ∃ ran : List (Phase × Option GoError),
      attachNewServerConn
      (ServerCallees.recorded
      { NewServerConn := fun w : Nat => (none, w),
        run := fun ph w => (if ph = .NewConnHandler then some .EOF else none, w + 1),
        setSessionId := fun _ w => w,
        Close := fun w => w + 100 }) true "s" (0, [])
        = ((attachNewServerConn
      { NewServerConn := fun w : Nat => (none, w),
        run := fun ph w => (if ph = .NewConnHandler then some .EOF else none, w + 1),
        setSessionId := fun _ w => w,
        Close := fun w => w + 100 } true "s" 0).1,
           (attachNewServerConn
      { NewServerConn := fun w : Nat => (none, w),
        run := fun ph w => (if ph = .NewConnHandler then some .EOF else none, w + 1),
        setSessionId := fun _ w => w,
        Close := fun w => w + 100 } true "s" 0).2,
           ran.map (fun x => Call.phase x.1 x.2) ++ [Call.Close]) ∧
      ran = (runUntilError (ServerCallees.phase
      { NewServerConn := fun w : Nat => (none, w),
        run := fun ph w => (if ph = .NewConnHandler then some .EOF else none, w + 1),
        setSessionId := fun _ w => w,
        Close := fun w => w + 100 } true "s") Phase.order
            ((fun w : Nat => ((none : Option GoError), w)) 0).2).2.1 ∧
      ran ≠ [] ∧
      ran.map (fun x => x.1) = Phase.order.take ran.length ∧
      (ran.map (fun x => x.1)).Nodup ∧
      (∀ x ∈ ran.dropLast, x.2 = none) ∧
      ran.getLast?.map (fun x => x.2)
        = some (attachNewServerConn
      { NewServerConn := fun w : Nat => (none, w),
        run := fun ph w => (if ph = .NewConnHandler then some .EOF else none, w + 1),
        setSessionId := fun _ w => w,
        Close := fun w => w + 100 } true "s" 0).1 ∧
      ((attachNewServerConn
      { NewServerConn := fun w : Nat => (none, w),
        run := fun ph w => (if ph = .NewConnHandler then some .EOF else none, w + 1),
        setSessionId := fun _ w => w,
        Close := fun w => w + 100 } true "s" 0).1 = none →
        ran.map (fun x => x.1) = Phase.order) := by
  have h := attachNewServerConn_phases
    { NewServerConn := fun w : Nat => (none, w),
        run := fun ph w => (if ph = .NewConnHandler then some .EOF else none, w + 1),
        setSessionId := fun _ w => w,
        Close := fun w => w + 100 } true "s" 0 rfl
  exact ⟨rfl, h.1.trans rfl, rfl, h.2⟩

/-! ## Proxy listeners -/

/-- C14: for every parsed client message segment that carries a set-pixel-format
message with pixel format `PF`, `ClientUpdater.Consume` leaves the tracked
connection with `PixelFormat = PF`, whether the write to the target succeeds
(the message is then sent and nil returned) or fails (an error is returned,
nothing is sent): the format is set before the write.  For a parsed client
message of another type the tracked `PixelFormat` is unchanged, and for a
segment of any other type nothing changes and nil is returned. -/
theorem ClientUpdater_tracks_pixel_format (cc : ClientUpdater) (seg : RfbSegment) :
    (∀ PF : PixelFormat, seg.SegmentType = .SegmentFullyParsedClientMessage →
      seg.Message = some (.SetPixelFormat PF) →
      ∃ err cc', cc.Consume seg = some (err, cc') ∧ cc'.conn.PixelFormat = PF ∧
        (cc.conn.wire.writeErr = none → err = none ∧
          cc'.conn.wire.sent = cc.conn.wire.sent ++ [.message (.SetPixelFormat PF)]) ∧
        (∀ e : GoError, cc.conn.wire.writeErr = some e → err ≠ none ∧
          cc'.conn.wire.sent = cc.conn.wire.sent)) ∧
    (∀ msgType : Nat, seg.SegmentType = .SegmentFullyParsedClientMessage →
      seg.Message = some (.ClientMessage msgType) → msgType ≠ SetPixelFormatMsgType →
      ∃ err cc', cc.Consume seg = some (err, cc') ∧
        cc'.conn.PixelFormat = cc.conn.PixelFormat) ∧
    (seg.SegmentType ≠ .SegmentFullyParsedClientMessage → cc.Consume seg = some (none, cc)) := by
  refine ⟨?_, ?_, ?_⟩
  · intro PF hty hmsg
    cases hw : cc.conn.wire.writeErr with
    | none =>
      have h : cc.Consume seg = some (none, { conn := { PixelFormat := PF, wire :=
          { cc.conn.wire with sent := (cc.conn.wire.sent ++ [.message (.SetPixelFormat PF)]) } } }) := by
        simp [ClientUpdater.Consume, hty, hmsg, Message.isClientMessage, Message.Type,
          Message.Write, hw]
      exact ⟨_, _, h, rfl, fun _ => ⟨rfl, rfl⟩, fun e he => by simp at he⟩
    | some e =>
      have h : cc.Consume seg = some (some (.errorf ("ClientUpdater.Consume (vnc-server-bound, " ++
          "SegmentFullyParsedClientMessage): problem writing to port: " ++ e.Error)),
          { conn := { PixelFormat := PF, wire := cc.conn.wire } }) := by
        simp [ClientUpdater.Consume, hty, hmsg, Message.isClientMessage, Message.Type,
          Message.Write, hw]
      exact ⟨_, _, h, rfl, fun h' => by simp at h', fun e' _ => ⟨by simp, rfl⟩⟩
  · intro msgType hty hmsg hne
    cases hw : cc.conn.wire.writeErr with
    | none =>
      have h : cc.Consume seg = some (none, { conn := { PixelFormat := cc.conn.PixelFormat, wire :=
          { cc.conn.wire with sent := (cc.conn.wire.sent ++ [.message (.ClientMessage msgType)]) } } }) := by
        simp [ClientUpdater.Consume, hty, hmsg, Message.isClientMessage, Message.Type,
          Message.Write, hw, hne]
      exact ⟨_, _, h, rfl⟩
    | some e =>
      have h : cc.Consume seg = some (some (.errorf ("ClientUpdater.Consume (vnc-server-bound, " ++
          "SegmentFullyParsedClientMessage): problem writing to port: " ++ e.Error)),
          { conn := { PixelFormat := cc.conn.PixelFormat, wire := cc.conn.wire } }) := by
        simp [ClientUpdater.Consume, hty, hmsg, Message.isClientMessage, Message.Type,
          Message.Write, hw, hne]
      exact ⟨_, _, h, rfl⟩
  · intro hty
    cases hs : seg.SegmentType <;> simp [ClientUpdater.Consume, hs] at hty ⊢

/-- C14, witness: a set-pixel-format message for 16 bpp reaches a listener
whose connection tracks 32 bpp and whose transport refuses writes with `io.EOF`:
`Consume` returns an error and the tracked format is the 16 bpp one; a message
of type 3 leaves the tracked format alone, and so does a byte segment. -/
theorem ClientUpdater_tracks_pixel_format_witness :
    (∃ err cc', ClientUpdater.Consume
        ⟨⟨⟨32, 24, 0, 1, 255, 255, 255, 16, 8, 0⟩, ⟨[], some .EOF⟩⟩⟩
        ⟨[], .SegmentFullyParsedClientMessage, 0,
          some (.SetPixelFormat ⟨16, 16, 0, 1, 31, 63, 31, 11, 5, 0⟩)⟩ = some (err, cc') ∧
      cc'.conn.PixelFormat = ⟨16, 16, 0, 1, 31, 63, 31, 11, 5, 0⟩ ∧ err ≠ none ∧
      cc'.conn.wire.sent = []) ∧
    (∃ err cc', ClientUpdater.Consume
        ⟨⟨⟨32, 24, 0, 1, 255, 255, 255, 16, 8, 0⟩, ⟨[], none⟩⟩⟩
        ⟨[], .SegmentFullyParsedClientMessage, 0, some (.ClientMessage 3)⟩ = some (err, cc') ∧
      cc'.conn.PixelFormat = ⟨32, 24, 0, 1, 255, 255, 255, 16, 8, 0⟩) ∧
    ClientUpdater.Consume ⟨⟨⟨32, 24, 0, 1, 255, 255, 255, 16, 8, 0⟩, ⟨[], none⟩⟩⟩
        ⟨[1, 2], .SegmentBytes, 0, none⟩
      = some (none, ⟨⟨⟨32, 24, 0, 1, 255, 255, 255, 16, 8, 0⟩, ⟨[], none⟩⟩⟩) := by
  refine ⟨?_, ?_, ?_⟩
  · obtain ⟨err, cc', h, hpf, _, hfail⟩ :=
      (ClientUpdater_tracks_pixel_format
        ⟨⟨⟨32, 24, 0, 1, 255, 255, 255, 16, 8, 0⟩, ⟨[], some .EOF⟩⟩⟩
        ⟨[], .SegmentFullyParsedClientMessage, 0,
          some (.SetPixelFormat ⟨16, 16, 0, 1, 31, 63, 31, 11, 5, 0⟩)⟩).1
        ⟨16, 16, 0, 1, 31, 63, 31, 11, 5, 0⟩ rfl rfl
    exact ⟨err, cc', h, hpf, (hfail .EOF rfl).1, (hfail .EOF rfl).2⟩
  · exact (ClientUpdater_tracks_pixel_format
        ⟨⟨⟨32, 24, 0, 1, 255, 255, 255, 16, 8, 0⟩, ⟨[], none⟩⟩⟩
        ⟨[], .SegmentFullyParsedClientMessage, 0, some (.ClientMessage 3)⟩).2.1
        3 rfl rfl (by decide)
  · exact (ClientUpdater_tracks_pixel_format
        ⟨⟨⟨32, 24, 0, 1, 255, 255, 255, 16, 8, 0⟩, ⟨[], none⟩⟩⟩
        ⟨[1, 2], .SegmentBytes, 0, none⟩).2.2 (by decide)

/-- C15 (as amended): whenever writes to the viewer-facing connection succeed,
`ServerUpdater.Consume` returns no error for every segment of raw bytes and for
every server-init segment: raw bytes are written verbatim to the viewer
connection and nothing else changes; a server-init sets the viewer connection's
width, height, desktop name and pixel format to the message's values and
writes nothing. -/
theorem ServerUpdater_forwards (p : ServerUpdater) (seg : RfbSegment)
    (hw : p.conn.wire.writeErr = none) :
    (seg.SegmentType = .SegmentBytes →
      p.Consume seg = some (none, { conn := { p.conn with wire :=
        { p.conn.wire with sent := (p.conn.wire.sent ++ [.bytes seg.Bytes]) } } })) ∧
    (∀ (FBWidth FBHeight : Nat) (NameText : List Byte) (pf : PixelFormat),
      seg.SegmentType = .SegmentServerInitMessage →
      seg.Message = some (.ServerInit FBWidth FBHeight NameText pf) →
      p.Consume seg
        = some (none, ⟨ServerConn.mk FBWidth FBHeight NameText pf p.conn.wire⟩)) := by
  constructor
  · intro hty
    simp [ServerUpdater.Consume, hty, Wire.Write, hw]
  · intro FBWidth FBHeight NameText pf hty hmsg
    simp [ServerUpdater.Consume, hty, hmsg, ServerConn.SetHeight, ServerConn.SetWidth,
      ServerConn.SetDesktopName, ServerConn.SetPixelFormat]

/-- C15, witness: on a viewer connection that accepts writes, the bytes `1, 2, 3`
are written verbatim, and a server-init for an 800x600 desktop named `d` sets
the four tracked values. -/
theorem ServerUpdater_forwards_witness :
    (⟨[], none⟩ : Wire).writeErr = none ∧
    ServerUpdater.Consume ⟨⟨1024, 768, [116], PixelFormat.zero, ⟨[], none⟩⟩⟩
        ⟨[1, 2, 3], .SegmentBytes, 0, none⟩
      = some (none, ⟨⟨1024, 768, [116], PixelFormat.zero, ⟨[.bytes [1, 2, 3]], none⟩⟩⟩) ∧
    ServerUpdater.Consume ⟨⟨1024, 768, [116], PixelFormat.zero, ⟨[], none⟩⟩⟩
        ⟨[], .SegmentServerInitMessage, 0,
          some (.ServerInit 800 600 [100] ⟨32, 24, 0, 1, 255, 255, 255, 16, 8, 0⟩)⟩
      = some (none, ⟨⟨800, 600, [100], ⟨32, 24, 0, 1, 255, 255, 255, 16, 8, 0⟩, ⟨[], none⟩⟩⟩) :=
  ⟨rfl,
   (ServerUpdater_forwards ⟨⟨1024, 768, [116], PixelFormat.zero, ⟨[], none⟩⟩⟩
      ⟨[1, 2, 3], .SegmentBytes, 0, none⟩ rfl).1 rfl,
   (ServerUpdater_forwards ⟨⟨1024, 768, [116], PixelFormat.zero, ⟨[], none⟩⟩⟩
      ⟨[], .SegmentServerInitMessage, 0,
        some (.ServerInit 800 600 [100] ⟨32, 24, 0, 1, 255, 255, 255, 16, 8, 0⟩)⟩ rfl).2
      800 600 [100] ⟨32, 24, 0, 1, 255, 255, 255, 16, 8, 0⟩ rfl rfl⟩

/-- C15, counterexample: the viewer connection accepts writes and the segment is
a parsed server message (`SegmentFullyParsedServerMessage`); `Consume` returns
the error "WriteTo.Consume: undefined RfbSegment type" and writes nothing. -/
theorem ServerUpdater_rejects_parsed_server_message :
    (⟨[], none⟩ : Wire).writeErr = none ∧
    ServerUpdater.Consume ⟨⟨1024, 768, [116], PixelFormat.zero, ⟨[], none⟩⟩⟩
        ⟨[], .SegmentFullyParsedServerMessage, 0, some (.ServerMessage 0)⟩
      = some (some (.errorf "WriteTo.Consume: undefined RfbSegment type"),
          ⟨⟨1024, 768, [116], PixelFormat.zero, ⟨[], none⟩⟩⟩) := by
  decide

/-! ## TightPNG: truncated fill pixel -/

/-- C21, the code at a truncated fill pixel: at 32 bpp and depth 24 the Tight
pixel is 3 bytes; the stream holds the fill control byte `0x80` and one more
byte, then ends.  `TightEncoding.Read` returns an error and no encoding;
`TightPngEncoding.Read` drops the results of `r.ReadBytes` and returns the
encoding with a nil error.  The same happens when the stream ends right after
the control byte. -/
theorem TightPng_fill_truncated_pixel_no_error :
    calcTightBytePerPixel ⟨32, 24, 0, 1, 255, 255, 255, 16, 8, 0⟩ = 3 ∧
    (∃ o, TightEncoding.Read ⟨[]⟩ ⟨32, 24, 0, 1, 255, 255, 255, 16, 8, 0⟩ ⟨0, 0, 10, 10⟩
        (NewRfbReadHelper ⟨[0x80, 1], [], .EOF⟩) = some o ∧
      o.err = some (.errorf ("error in handling tight encoding: " ++
        "unable to read bytes: lengthRead=1, countExpected=3")) ∧ o.enc = none) ∧
    (∃ o, TightPngEncoding.Read ⟨[]⟩ ⟨32, 24, 0, 1, 255, 255, 255, 16, 8, 0⟩ ⟨0, 0, 10, 10⟩
        (NewRfbReadHelper ⟨[0x80, 1], [], .EOF⟩) = some o ∧
      o.err = none ∧ o.enc = some o.t ∧ o.r.Reader.data = []) ∧
    (∃ o, TightEncoding.Read ⟨[]⟩ ⟨32, 24, 0, 1, 255, 255, 255, 16, 8, 0⟩ ⟨0, 0, 10, 10⟩
        (NewRfbReadHelper ⟨[0x80], [], .EOF⟩) = some o ∧ o.err ≠ none ∧ o.enc = none) ∧
    (∃ o, TightPngEncoding.Read ⟨[]⟩ ⟨32, 24, 0, 1, 255, 255, 255, 16, 8, 0⟩ ⟨0, 0, 10, 10⟩
        (NewRfbReadHelper ⟨[0x80], [], .EOF⟩) = some o ∧ o.err = none ∧ o.enc = some o.t) := by
  refine ⟨by decide, ⟨_, rfl, by decide⟩, ⟨_, rfl, by decide⟩, ⟨_, rfl, by decide⟩,
    ⟨_, rfl, by decide⟩⟩

/-! ## Marker segments at the forwarding listeners -/

/-- C22, the code at a message-end marker: on the zero-byte segment of type
`SegmentMessageEnd` (the one `SendMessageEnd` publishes) `ServerUpdater.Consume`
and `WriteTo.Consume` both return an error, from the `default` case of their
switch, for every listener and whatever else the segment carries; nothing is
written.  On message-start and rect-separator segments both return nil and
write nothing.  A helper with a `ServerUpdater` registered gets the error back
from `SendMessageEnd` and nil from `SendMessageStart`. -/
theorem marker_MessageEnd_rejected :
    (∀ (p : ServerUpdater) (bytes : List Byte) (objType : Int) (msg : Option Message),
      p.Consume ⟨bytes, .SegmentMessageEnd, objType, msg⟩
        = some (some (.errorf "WriteTo.Consume: undefined RfbSegment type"), p) ∧
      p.Consume ⟨bytes, .SegmentMessageStart, objType, msg⟩ = some (none, p) ∧
      p.Consume ⟨bytes, .SegmentRectSeparator, objType, msg⟩ = some (none, p)) ∧
    (∀ (p : WriteTo) (bytes : List Byte) (objType : Int) (msg : Option Message),
      p.Consume ⟨bytes, .SegmentMessageEnd, objType, msg⟩
        = some (some (.errorf "unknown RFB segment type SegmentMessageEnd"), p) ∧
      p.Consume ⟨bytes, .SegmentMessageStart, objType, msg⟩ = some (none, p) ∧
      p.Consume ⟨bytes, .SegmentRectSeparator, objType, msg⟩ = some (none, p)) ∧
    ServerUpdater.Consume ⟨⟨1024, 768, [116], PixelFormat.zero, ⟨[], none⟩⟩⟩
        ⟨[], .SegmentMessageEnd, 0, none⟩
      = some (some (.errorf "WriteTo.Consume: undefined RfbSegment type"),
          ⟨⟨1024, 768, [116], PixelFormat.zero, ⟨[], none⟩⟩⟩) ∧
    WriteTo.Consume ⟨⟨[], none⟩, "w"⟩ ⟨[], .SegmentMessageEnd, 0, none⟩
      = some (some (.errorf "unknown RFB segment type SegmentMessageEnd"),
          ⟨⟨[], none⟩, "w"⟩) ∧
    ServerUpdater.Consume ⟨⟨1024, 768, [116], PixelFormat.zero, ⟨[], none⟩⟩⟩
        ⟨[], .SegmentMessageStart, 0, none⟩
      = some (none, ⟨⟨1024, 768, [116], PixelFormat.zero, ⟨[], none⟩⟩⟩) ∧
    ServerUpdater.Consume ⟨⟨1024, 768, [116], PixelFormat.zero, ⟨[], none⟩⟩⟩
        ⟨[], .SegmentRectSeparator, 7, none⟩
      = some (none, ⟨⟨1024, 768, [116], PixelFormat.zero, ⟨[], none⟩⟩⟩) ∧
    WriteTo.Consume ⟨⟨[], none⟩, "w"⟩ ⟨[], .SegmentMessageStart, 0, none⟩
      = some (none, ⟨⟨[], none⟩, "w"⟩) ∧
    WriteTo.Consume ⟨⟨[], none⟩, "w"⟩ ⟨[], .SegmentRectSeparator, 7, none⟩
      = some (none, ⟨⟨[], none⟩, "w"⟩) ∧
    (RfbReadHelper.SendMessageEnd
        { Reader := ⟨[], [], .EOF⟩,
          Listeners := MultiListener.AddListener ⟨[], []⟩
            (ServerUpdater.asListener ⟨⟨1024, 768, [116], PixelFormat.zero, ⟨[], none⟩⟩⟩),
          savedBytes := none } 0).1
      = some (.errorf "WriteTo.Consume: undefined RfbSegment type") ∧
    (RfbReadHelper.SendMessageStart
        { Reader := ⟨[], [], .EOF⟩,
          Listeners := MultiListener.AddListener ⟨[], []⟩
            (ServerUpdater.asListener ⟨⟨1024, 768, [116], PixelFormat.zero, ⟨[], none⟩⟩⟩),
          savedBytes := none } 0).1 = none := by
  refine ⟨fun _ _ _ _ => ⟨rfl, rfl, rfl⟩, fun _ _ _ _ => ⟨rfl, rfl, rfl⟩, ?_⟩
  decide

/-! ## LED state: what is written back -/

/-- C23, the code at a zero-area rectangle: `WriteTo` always writes the one
byte `LedState` and reports a count of 1, and `Read` on a rectangle of width 0
returns at once with the helper untouched.  For a 0x0 rectangle
`EncLedStatePseudo.Read` succeeds and consumes nothing (the pending byte `5`
stays in the stream), and the following `WriteTo` writes one byte, `0`, and
reports a count of 1.  For a 1x1 rectangle `Read` consumes the byte `5` and
`WriteTo` writes `5` and reports 1. -/
theorem LedState_WriteTo_zero_area_writes_a_byte :
    (∀ (pe : EncLedStatePseudo) (w : Writer),
      pe.WriteTo w = (1, none, ⟨w.written ++ [pe.LedState]⟩)) ∧
    (∀ (pe : EncLedStatePseudo) (pf : PixelFormat) (X Y Height : Nat) (r : RfbReadHelper),
      pe.Read pf ⟨X, Y, 0, Height⟩ r = (pe, none, r)) ∧
    (EncLedStatePseudo.Read ⟨0⟩ ⟨32, 24, 0, 1, 255, 255, 255, 16, 8, 0⟩ ⟨0, 0, 0, 0⟩
        (NewRfbReadHelper ⟨[5], [], .EOF⟩)).2.1 = none ∧
    (EncLedStatePseudo.Read ⟨0⟩ ⟨32, 24, 0, 1, 255, 255, 255, 16, 8, 0⟩ ⟨0, 0, 0, 0⟩
        (NewRfbReadHelper ⟨[5], [], .EOF⟩)).2.2.Reader.data = [5] ∧
    (EncLedStatePseudo.Read ⟨0⟩ ⟨32, 24, 0, 1, 255, 255, 255, 16, 8, 0⟩ ⟨0, 0, 0, 0⟩
        (NewRfbReadHelper ⟨[5], [], .EOF⟩)).1.WriteTo ⟨[]⟩ = (1, none, ⟨[0]⟩) ∧
    (EncLedStatePseudo.Read ⟨0⟩ ⟨32, 24, 0, 1, 255, 255, 255, 16, 8, 0⟩ ⟨0, 0, 1, 1⟩
        (NewRfbReadHelper ⟨[5], [], .EOF⟩)).2.1 = none ∧
    (EncLedStatePseudo.Read ⟨0⟩ ⟨32, 24, 0, 1, 255, 255, 255, 16, 8, 0⟩ ⟨0, 0, 1, 1⟩
        (NewRfbReadHelper ⟨[5], [], .EOF⟩)).2.2.Reader.data = [] ∧
    (EncLedStatePseudo.Read ⟨0⟩ ⟨32, 24, 0, 1, 255, 255, 255, 16, 8, 0⟩ ⟨0, 0, 1, 1⟩
        (NewRfbReadHelper ⟨[5], [], .EOF⟩)).1.WriteTo ⟨[]⟩ = (1, none, ⟨[5]⟩) := by
  refine ⟨fun _ _ => rfl, fun pe pf X Y Height r => ?_, ?_⟩
  · simp [EncLedStatePseudo.Read]
  · decide

end VncProxy
